import Mathlib

/-!
Verification of the lexical analyzer in src/lua-tokenize.js.

The tokenizer is embedded shallowly: the input is the list of UTF-16 code
units of the JavaScript source string, the closure variables index, line and
lineStart become an explicit state record, and every scanning function of the
source becomes a pure Lean function over that state.  Numeric token values
are represented exactly as rationals; all index arithmetic is on Nat.  The
JavaScript idiom charCodeAt(i), which yields NaN out of range so that every
character-class test fails there, is modelled by Option-valued lookup
l[i]? with classifiers that are false on none.
-/

namespace LuaTok

/-- Scanner state: the closure variables index, line, lineStart. -/
structure St where
  index : Nat
  line : Nat
  lineStart : Nat
deriving Repr, DecidableEq

/-- Error kinds of the errors table used by the tokenizer. -/
inductive ErrKind where
  | unexpectedSymbol
  | unfinishedString
  | unfinishedLongString
  | unfinishedLongComment
  | invalidDelimiter
  | malformedNumber
  | decimalEscapeTooLarge
  | hexDigitExpected
  | missingInEscape
  | tooLargeCodepoint
  | invalidEscape
deriving Repr, DecidableEq

/-- A structured lexical error: kind, location, and the optional expected
character passed as fourth argument to tokenError. -/
structure LexErr where
  kind : ErrKind
  line : Nat
  lineStart : Nat
  range : Nat × Nat
  expected : Option Nat
deriving Repr, DecidableEq

/-- Token type tags, one per exported flag constant. -/
inductive TokType where
  | stringLit
  | keyword
  | identifier
  | numericLit
  | punctuator
  | booleanLit
  | nilLit
  | varargLit
deriving Repr, DecidableEq

/-- The decoded value carried by a token: a code-unit string, an exact
rational for numeric literals, a boolean, or the null of the nil literal. -/
inductive TokValue where
  | str (s : List Nat)
  | num (q : ℚ)
  | bool (b : Bool)
  | nil
deriving Repr, DecidableEq

/-- One token as produced by the tokenizer.  lastLine and lastLineStart are
some only on string literals. -/
structure Token where
  type : TokType
  value : TokValue
  line : Nat
  lineStart : Nat
  range : Nat × Nat
  lastLine : Option Nat
  lastLineStart : Option Nat
deriving Repr, DecidableEq

/-- A comment record as pushed onto the caller-supplied comments array. -/
structure Comment where
  value : List Nat
  raw : List Nat
  startLine : Nat
  startCol : Nat
  endLine : Nat
  endCol : Nat
  range : Nat × Nat
deriving Repr, DecidableEq

/-- The feature flags read by the tokenizer. -/
structure Features where
  labels : Bool
  contextualGoto : Bool
  hexEscapes : Bool
  skipWhitespaceEscape : Bool
  strictEscapes : Bool
  unicodeEscapes : Bool
  bitwiseOperators : Bool
  integerDivision : Bool
  const_ : Bool
  typeCheck : Bool
deriving Repr, DecidableEq

/-- The four supported dialects. -/
inductive LuaVersion where
  | v51
  | v52
  | v53
  | jit
deriving Repr, DecidableEq

/-- versionFeatures table of the source, with absent keys read as false. -/
def versionFeatures : LuaVersion → Features
  | .v51 => ⟨false, false, false, false, false, false, false, false, false, false⟩
  | .v52 => ⟨true, false, true, true, true, false, false, false, false, false⟩
  | .v53 => ⟨true, false, true, true, true, true, true, true, false, false⟩
  | .jit => ⟨true, true, true, true, true, true, false, false, false, false⟩

/-- Resolved options: feature set merged with the explicit const_/typeCheck
overrides, plus the remaining tokenizer options. -/
structure Config where
  features : Features
  extendedIdentifiers : Bool
  ignoreShebang : Bool
  collectComments : Bool
deriving Repr, DecidableEq

/-- The feature set of the session: version features spread with the
features option, which can only carry const_ and typeCheck. -/
def resolveFeatures (v : LuaVersion) (constF typeCheckF : Bool) : Features :=
  { versionFeatures v with const_ := constF, typeCheck := typeCheckF }

/-- A config with the default options and the given version. -/
def configOf (v : LuaVersion) : Config :=
  ⟨resolveFeatures v false false, false, true, false⟩

/-- Code units of an ASCII Lean string, used to transcribe the string
literals of the source. -/
def strCodes (s : String) : List Nat := s.toList.map Char.toNat

/-- The base keyword set. -/
def baseKeywords : List (List Nat) :=
  [strCodes "do", strCodes "if", strCodes "in", strCodes "or", strCodes "and",
   strCodes "end", strCodes "for", strCodes "not", strCodes "else",
   strCodes "then", strCodes "break", strCodes "local", strCodes "until",
   strCodes "while", strCodes "elseif", strCodes "repeat", strCodes "return",
   strCodes "function"]

/-- The keyword set after the three conditional additions performed at
session start. -/
def keywordList (f : Features) : List (List Nat) :=
  baseKeywords
    ++ (if f.labels && !f.contextualGoto then [strCodes "goto"] else [])
    ++ (if f.typeCheck then [strCodes "declare"] else [])
    ++ (if f.const_ then [strCodes "const"] else [])

/-- isKeyword: membership in the resolved keyword set. -/
def isKeyword (f : Features) (s : List Nat) : Bool :=
  decide (s ∈ keywordList f)

/-- isWhiteSpace validation function. -/
def isWhiteSpace (c : Nat) : Bool :=
  c = 9 || c = 32 || c = 0xb || c = 0xc

/-- isLineTerminator validation function. -/
def isLineTerminator (c : Nat) : Bool :=
  c = 10 || c = 13

/-- isDecDigit validation function. -/
def isDecDigit (c : Nat) : Bool :=
  48 ≤ c && c ≤ 57

/-- isHexDigit validation function. -/
def isHexDigit (c : Nat) : Bool :=
  (48 ≤ c && c ≤ 57) || (97 ≤ c && c ≤ 102) || (65 ≤ c && c ≤ 70)

/-- isIdentifierStart validation function (reads extendedIdentifiers). -/
def isIdentifierStart (cfg : Config) (c : Nat) : Bool :=
  (65 ≤ c && c ≤ 90) || (97 ≤ c && c ≤ 122) || c = 95
    || (cfg.extendedIdentifiers && 128 ≤ c)

/-- isIdentifierPart validation function. -/
def isIdentifierPart (cfg : Config) (c : Nat) : Bool :=
  (65 ≤ c && c ≤ 90) || (97 ≤ c && c ≤ 122) || c = 95
    || (48 ≤ c && c ≤ 57) || (cfg.extendedIdentifiers && 128 ≤ c)

/-- Lift of a character classifier to the Option-valued lookup; false on
none, matching the NaN behaviour of charCodeAt out of range. -/
def testO (p : Nat → Bool) : Option Nat → Bool
  | some c => p c
  | none => false

/-- consumeEOL: consume one end-of-line sequence, counting a pair of
opposite terminators as one newline; none models the false return. -/
def consumeEOL (input : List Nat) (st : St) : Option St :=
  if testO isLineTerminator input[st.index]? then
    if (input[st.index]? = some 10 ∧ input[st.index + 1]? = some 13)
        ∨ (input[st.index]? = some 13 ∧ input[st.index + 1]? = some 10) then
      some ⟨st.index + 2, st.line + 1, st.index + 2⟩
    else
      some ⟨st.index + 1, st.line + 1, st.index + 1⟩
  else none

/-- The index moves forward by one or two units on a successful consumeEOL. -/
theorem consumeEOL_index (input : List Nat) (st st2 : St)
    (h : consumeEOL input st = some st2) :
    st2.index = st.index + 1 ∨ st2.index = st.index + 2 := by
  unfold consumeEOL at h
  split at h
  · split at h <;> (injection h with h2; subst h2; simp)
  · exact absurd h Option.noConfusion

/-- A while loop advancing the index over characters satisfying p, used for
the digit-run, equals-run and zero-run loops of the source. -/
def skipWhile (p : Nat → Bool) (input : List Nat) (i : Nat) : Nat :=
  if h : i < input.length then
    if p input[i] then skipWhile p input (i + 1) else i
  else i
termination_by input.length - i

/-- skipWhiteSpace: skip whitespace and end-of-line sequences. -/
def skipWhiteSpace (input : List Nat) (st : St) : St :=
  if h : st.index < input.length then
    if isWhiteSpace input[st.index] then
      skipWhiteSpace input { st with index := st.index + 1 }
    else
      match h2 : consumeEOL input st with
      | some st2 => skipWhiteSpace input st2
      | none => st
  else st
termination_by input.length - st.index
decreasing_by
  · omega
  · have := consumeEOL_index input st st2 h2
    omega

/-- encodeUTF8: 1 to 4 byte encoding, none above the codepoint limit. -/
def encodeUTF8 (codepoint : Nat) : Option (List Nat) :=
  if codepoint < 0x80 then
    some [codepoint]
  else if codepoint < 0x800 then
    some [0xc0 ||| (codepoint >>> 6), 0x80 ||| (codepoint &&& 0x3f)]
  else if codepoint < 0x10000 then
    some [0xe0 ||| (codepoint >>> 12), 0x80 ||| ((codepoint >>> 6) &&& 0x3f),
          0x80 ||| (codepoint &&& 0x3f)]
  else if codepoint < 0x110000 then
    some [0xf0 ||| (codepoint >>> 18), 0x80 ||| ((codepoint >>> 12) &&& 0x3f),
          0x80 ||| ((codepoint >>> 6) &&& 0x3f), 0x80 ||| (codepoint &&& 0x3f)]
  else none

/-- fixupHighCharacters: reinterpret surrogate pairs and code units of 128
and above as codepoints and re-encode them as UTF-8 byte sequences.  The
regex alternation matches a high-low surrogate pair first and otherwise a
single unit outside the ASCII range.  The nullthrows cannot fire because
every matched value stays below the codepoint limit; getD mirrors it. -/
def fixupHighCharacters : List Nat → List Nat
  | [] => []
  | [c] => if 0x80 ≤ c then (encodeUTF8 c).getD [] else [c]
  | c :: c2 :: rest =>
    if (0xd800 ≤ c ∧ c ≤ 0xdbff) ∧ (0xdc00 ≤ c2 ∧ c2 ≤ 0xdfff) then
      (encodeUTF8 (0x10000 + (((c &&& 0x3ff) <<< 10) ||| (c2 &&& 0x3ff)))).getD []
        ++ fixupHighCharacters rest
    else if 0x80 ≤ c then
      (encodeUTF8 c).getD [] ++ fixupHighCharacters (c2 :: rest)
    else
      c :: fixupHighCharacters (c2 :: rest)

/-- input.slice(a, b) on code-unit lists. -/
def sliceCodes (input : List Nat) (a b : Nat) : List Nat :=
  (input.take b).drop a

/-- parseInt(s, 16) on a nonempty string of hex digits. -/
def hexDigitVal (c : Nat) : Nat :=
  if c ≤ 57 then c - 48 else if c ≤ 70 then c - 55 else c - 87

/-- Accumulating hex digit fold, the value of parseInt(s, 16). -/
def parseHexNat (s : List Nat) : Nat :=
  s.foldl (fun a c => a * 16 + hexDigitVal c) 0

/-- Accumulating decimal digit fold, the value of parseInt(s, 10). -/
def parseDecNat (s : List Nat) : Nat :=
  s.foldl (fun a c => a * 10 + (c - 48)) 0

/-- skipWhile never moves the index backwards. -/
theorem skipWhile_ge (p : Nat → Bool) (input : List Nat) (i : Nat) :
    i ≤ skipWhile p input i := by
  induction i using skipWhile.induct p input with
  | case1 i h hp ih => rw [skipWhile]; simp only [h, hp, dif_pos, if_pos]; omega
  | case2 i h hp => rw [skipWhile]; simp [h, hp]
  | case3 i h => rw [skipWhile]; simp [h]

/-- skipWhile stops at the length of the input at the latest. -/
theorem skipWhile_le (p : Nat → Bool) (input : List Nat) (i : Nat)
    (h0 : i ≤ input.length) : skipWhile p input i ≤ input.length := by
  induction i using skipWhile.induct p input with
  | case1 i h hp ih => rw [skipWhile]; simp only [h, hp, dif_pos, if_pos]; exact ih (by omega)
  | case2 i h hp => rw [skipWhile]; simp [h, hp]; omega
  | case3 i h => rw [skipWhile]; simp [h]; omega

/-- skipWhiteSpace never moves the index backwards. -/
theorem skipWhiteSpace_ge (input : List Nat) (st : St) :
    st.index ≤ (skipWhiteSpace input st).index := by
  induction st using skipWhiteSpace.induct input with
  | case1 st h hw ih =>
    rw [skipWhiteSpace]; simp only [dif_pos h, if_pos hw]
    simp only [St.index] at ih ⊢
    omega
  | case2 st h hw st2 h2 ih =>
    rw [skipWhiteSpace]; simp only [dif_pos h, if_neg hw]
    split
    · rename_i st3 h3
      rw [h2] at h3
      injection h3 with h4
      subst h4
      have h5 := consumeEOL_index input st st2 h2
      omega
    · rename_i h3
      rw [h2] at h3
  | case3 st h hw h2 =>
    rw [skipWhiteSpace]; simp only [dif_pos h, if_neg hw]
    split
    · rename_i st3 h3; rw [h2] at h3; exact Option.noConfusion h3
    · exact Nat.le_refl _
  | case4 st h => rw [skipWhiteSpace]; simp [h]

/-- The optional fraction part of readHexLiteral: after a dot, the hex
digit run, converted to a value below one; an empty run gives zero.  The
second component is the index after the fraction. -/
def hexFraction (input : List Nat) (i1 : Nat) : ℚ × Nat :=
  if input[i1]? = some 46 then
    let fractionStart := i1 + 1
    let i2 := skipWhile isHexDigit input fractionStart
    (if fractionStart = i2 then 0
     else (parseHexNat (sliceCodes input fractionStart i2) : ℚ)
            / (16 : ℚ) ^ (i2 - fractionStart), i2)
  else (0, i1)

/-- The index of the first exponent digit candidate after the p or e
marker at i2: one further on an optional sign. -/
def expDigitStart (input : List Nat) (i2 : Nat) : Nat :=
  if input[i2 + 1]? = some 43 ∨ input[i2 + 1]? = some 45 then i2 + 2 else i2 + 1

/-- The exponent sign: minus exactly when an explicit minus sign is
present. -/
def expSign (input : List Nat) (i2 : Nat) : ℤ :=
  if input[i2 + 1]? = some 43 ∨ input[i2 + 1]? = some 45 then
    (if input[i2 + 1]? = some 43 then 1 else -1)
  else 1

/-- The claim's Fraction: the fractional hex-digit run read base 16 and
divided by 16 to the number of fraction digits, zero when empty. -/
def hexFracVal (fs : List Nat) : ℚ :=
  if fs = [] then 0 else (parseHexNat fs : ℚ) / (16 : ℚ) ^ fs.length

/-- The claim's exponent sign as a function of the optional sign
character: minus exactly on an explicit minus. -/
def expSgnVal (sgnList : List Nat) : ℤ :=
  if sgnList = [45] then -1 else 1

/-- The index after the optional decimal fraction of readDecLiteral. -/
def decFracEnd (input : List Nat) (i1 : Nat) : Nat :=
  if input[i1]? = some 46 then skipWhile isDecDigit input (i1 + 1) else i1

theorem hexFraction_ge (input : List Nat) (i1 : Nat) : i1 ≤ (hexFraction input i1).2 := by
  rw [hexFraction]
  split
  · show i1 ≤ skipWhile isHexDigit input (i1 + 1)
    have := skipWhile_ge isHexDigit input (i1 + 1)
    omega
  · exact Nat.le_refl i1

theorem expDigitStart_ge (input : List Nat) (i2 : Nat) :
    i2 + 1 ≤ expDigitStart input i2 := by
  rw [expDigitStart]; split <;> omega

theorem decFracEnd_ge (input : List Nat) (i1 : Nat) : i1 ≤ decFracEnd input i1 := by
  rw [decFracEnd]
  split
  · have := skipWhile_ge isDecDigit input (i1 + 1)
    omega
  · exact Nat.le_refl i1

/-- Models parseFloat on the decimal numerals consumed by readDecLiteral:
integer digits, an optional fraction after a dot, and an optional signed
decimal exponent, read as an exact rational. -/
def parseFloatQ (s : List Nat) : ℚ :=
  let i1 := skipWhile isDecDigit s 0
  let ip : ℚ := parseDecNat (sliceCodes s 0 i1)
  let i2 := decFracEnd s i1
  let fracDigits := if s[i1]? = some 46 then sliceCodes s (i1 + 1) i2 else []
  let frac : ℚ := (parseDecNat fracDigits : ℚ) / (10 : ℚ) ^ fracDigits.length
  if s[i2]? = some 101 ∨ s[i2]? = some 69 then
    let expStart := expDigitStart s i2
    let i3 := skipWhile isDecDigit s expStart
    (ip + frac) * (10 : ℚ) ^ (expSign s i2 * (parseDecNat (sliceCodes s expStart i3) : ℤ))
  else ip + frac

/-- readHexLiteral: 0x prefix, mandatory hex digit run, optional hex
fraction, optional binary exponent with optional sign and mandatory decimal
digit run; value (digit + fraction) * binaryExponent as an exact rational. -/
def readHexLiteral (input : List Nat) (st : St) : Except LexErr (ℚ × St) :=
  let tokenStart := st.index
  let digitStart := st.index + 2
  if ¬ testO isHexDigit input[digitStart]? then
    .error ⟨.malformedNumber, st.line, st.lineStart, (tokenStart, digitStart), none⟩
  else
    let i1 := skipWhile isHexDigit input digitStart
    let digit : ℚ := parseHexNat (sliceCodes input digitStart i1)
    let fraction := (hexFraction input i1).1
    let i2 := (hexFraction input i1).2
    if input[i2]? = some 112 ∨ input[i2]? = some 80 then
      let exponentStart := expDigitStart input i2
      if ¬ testO isDecDigit input[exponentStart]? then
        .error ⟨.malformedNumber, st.line, st.lineStart, (tokenStart, exponentStart + 1), none⟩
      else
        let i4 := skipWhile isDecDigit input exponentStart
        let binaryExponent : ℚ :=
          (2 : ℚ) ^ (expSign input i2 * (parseDecNat (sliceCodes input exponentStart i4) : ℤ))
        .ok ((digit + fraction) * binaryExponent, { st with index := i4 })
    else
      .ok ((digit + fraction) * 1, { st with index := i2 })

/-- readDecLiteral: decimal digit run, optional fraction, optional signed
exponent requiring at least one digit; value from parseFloat on the
consumed slice. -/
def readDecLiteral (input : List Nat) (st : St) : Except LexErr (ℚ × St) :=
  let tokenStart := st.index
  let i1 := skipWhile isDecDigit input tokenStart
  let i2 := decFracEnd input i1
  if input[i2]? = some 101 ∨ input[i2]? = some 69 then
    let i3 := expDigitStart input i2
    if ¬ testO isDecDigit input[i3]? then
      .error ⟨.malformedNumber, st.line, st.lineStart, (tokenStart, i3 + 1), none⟩
    else
      let i4 := skipWhile isDecDigit input i3
      .ok (parseFloatQ (sliceCodes input tokenStart i4), { st with index := i4 })
  else
    .ok (parseFloatQ (sliceCodes input tokenStart i2), { st with index := i2 })

/-- scanNumericLiteral: dispatch to the hexadecimal reader on a 0x or 0X
prefix and to the decimal reader otherwise. -/
def scanNumericLiteral (input : List Nat) (st : St) : Except LexErr (Token × St) :=
  let tokenStart := st.index
  let r :=
    if input[st.index]? = some 48
        ∧ (input[st.index + 1]? = some 120 ∨ input[st.index + 1]? = some 88) then
      readHexLiteral input st
    else readDecLiteral input st
  match r with
  | .error e => .error e
  | .ok (value, st2) =>
    .ok (⟨.numericLit, .num value, st2.line, st2.lineStart, (tokenStart, st2.index),
          none, none⟩, st2)

/-- readUnicodeEscapeSequence, entered with the index on the u.  parseInt
of an empty digit string is NaN, on which encodeUTF8 returns null; the
escStart = iEnd test models that path. -/
def readUnicodeEscapeSequence (input : List Nat) (st : St) : Except LexErr (List Nat × St) :=
  let sequenceStart := st.index
  if input[sequenceStart + 1]? ≠ some 123 then
    .error ⟨.missingInEscape, st.line, st.lineStart,
            (sequenceStart + 1, sequenceStart + 2), some 123⟩
  else if ¬ testO isHexDigit input[sequenceStart + 2]? then
    .error ⟨.hexDigitExpected, st.line, st.lineStart,
            (sequenceStart + 2, sequenceStart + 3), none⟩
  else
    let escStart := skipWhile (fun c => c = 48) input (sequenceStart + 2)
    let iEnd := skipWhile isHexDigit input escStart
    if 6 < iEnd - escStart then
      .error ⟨.tooLargeCodepoint, st.line, st.lineStart, (escStart, escStart + 7), none⟩
    else if input[iEnd]? ≠ some 125 then
      if input[iEnd]? = some 34 ∨ input[iEnd]? = some 39 then
        .error ⟨.missingInEscape, st.line, st.lineStart, (sequenceStart, iEnd), some 125⟩
      else
        .error ⟨.hexDigitExpected, st.line, st.lineStart, (iEnd, iEnd + 1), none⟩
    else
      match (if escStart = iEnd then none
             else encodeUTF8 (parseHexNat (sliceCodes input escStart iEnd))) with
      | none =>
        .error ⟨.tooLargeCodepoint, st.line, st.lineStart, (sequenceStart + 2, iEnd), none⟩
      | some codepoint => .ok (codepoint, { st with index := iEnd + 1 })

/-- A successful unicode escape moves the index forward. -/
theorem readUnicodeEscapeSequence_gt (input : List Nat) (st : St) (s : List Nat) (st2 : St)
    (h : readUnicodeEscapeSequence input st = .ok (s, st2)) : st.index < st2.index := by
  simp only [readUnicodeEscapeSequence] at h
  have h1 := skipWhile_ge (fun c => c = 48) input (st.index + 2)
  have h2 := skipWhile_ge isHexDigit input (skipWhile (fun c => decide (c = 48)) input (st.index + 2))
  split at h
  · exact Except.noConfusion h
  split at h
  · exact Except.noConfusion h
  split at h
  · exact Except.noConfusion h
  split at h
  · split at h <;> exact Except.noConfusion h
  split at h
  · exact Except.noConfusion h
  · injection h with h3; injection h3 with h4 h5; subst h5
    simp only [St.index] at h1 h2 ⊢
    omega

/-- The switch fall-through chain case z, case x, case u, default of
readEscapeSequence, rendered as a guarded chain preserving the source
order: the z body under skipWhitespaceEscape, the x body under hexEscapes,
the u body under unicodeEscapes, the strict-escape check, and the literal
emission that the default falls into. -/
def readEscapeFallThrough (f : Features) (input : List Nat) (st : St) :
    Except LexErr (List Nat × St) :=
  let sequenceStart := st.index
  let c := input[st.index]?
  if c = some 122 ∧ f.skipWhitespaceEscape then
    .ok ([], skipWhiteSpace input { st with index := st.index + 1 })
  else if (c = some 122 ∨ c = some 120) ∧ f.hexEscapes then
    if testO isHexDigit input[st.index + 1]? ∧ testO isHexDigit input[st.index + 2]? then
      .ok ([parseHexNat (sliceCodes input (sequenceStart + 1) (st.index + 3))],
           { st with index := st.index + 3 })
    else
      let nonHex := if testO isHexDigit input[st.index + 1]? then st.index + 2 else st.index + 1
      .error ⟨.hexDigitExpected, st.line, st.lineStart, (nonHex, nonHex + 1), none⟩
  else if (c = some 122 ∨ c = some 120 ∨ c = some 117) ∧ f.unicodeEscapes then
    readUnicodeEscapeSequence input st
  else if f.strictEscapes then
    .error ⟨.invalidEscape, st.line, st.lineStart, (sequenceStart, sequenceStart + 1), none⟩
  else
    .ok (c.toList, { st with index := st.index + 1 })

/-- readEscapeSequence: dispatch on the character after the backslash.
The backslash and quote cases are matched directly by the switch, never by
the default, so they precede the fall-through chain here. -/
def readEscapeSequence (f : Features) (input : List Nat) (st : St) :
    Except LexErr (List Nat × St) :=
  let sequenceStart := st.index
  let c := input[st.index]?
  if c = some 97 then .ok ([7], { st with index := st.index + 1 })
  else if c = some 110 then .ok ([10], { st with index := st.index + 1 })
  else if c = some 114 then .ok ([13], { st with index := st.index + 1 })
  else if c = some 116 then .ok ([9], { st with index := st.index + 1 })
  else if c = some 118 then .ok ([11], { st with index := st.index + 1 })
  else if c = some 98 then .ok ([8], { st with index := st.index + 1 })
  else if c = some 102 then .ok ([12], { st with index := st.index + 1 })
  else if c = some 13 ∨ c = some 10 then
    .ok ([10], (consumeEOL input st).getD st)
  else if testO isDecDigit c then
    let iEnd := min (skipWhile isDecDigit input sequenceStart) (sequenceStart + 3)
    let ddd := parseDecNat (sliceCodes input sequenceStart iEnd)
    if 255 < ddd then
      .error ⟨.decimalEscapeTooLarge, st.line, st.lineStart, (sequenceStart, iEnd), none⟩
    else .ok ([ddd], { st with index := iEnd })
  else if c = some 92 ∨ c = some 34 ∨ c = some 39 then
    .ok (c.toList, { st with index := st.index + 1 })
  else readEscapeFallThrough f input st

/-- A successful fall-through escape never moves the index backwards. -/
theorem readEscapeFallThrough_ge (f : Features) (input : List Nat) (st : St)
    (s : List Nat) (st2 : St)
    (h : readEscapeFallThrough f input st = .ok (s, st2)) : st.index ≤ st2.index := by
  simp only [readEscapeFallThrough] at h
  split at h
  · -- whitespace-skipping escape
    injection h with h3; injection h3 with h4 h5; subst h5
    have hw := skipWhiteSpace_ge input { st with index := st.index + 1 }
    simp only [St.index] at hw ⊢
    omega
  split at h
  · -- hex escape
    split at h
    · injection h with h3; injection h3 with h4 h5; subst h5
      exact Nat.le_add_right st.index 3
    · exact Except.noConfusion h
  split at h
  · -- unicode escape
    exact le_of_lt (readUnicodeEscapeSequence_gt input st s st2 h)
  split at h
  · -- strict escape error
    exact Except.noConfusion h
  · -- literal fall-through
    injection h with h3; injection h3 with h4 h5; subst h5; exact Nat.le_succ _

/-- A successful escape never moves the index backwards. -/
theorem readEscapeSequence_ge (f : Features) (input : List Nat) (st : St)
    (s : List Nat) (st2 : St)
    (h : readEscapeSequence f input st = .ok (s, st2)) : st.index ≤ st2.index := by
  have hd := skipWhile_ge isDecDigit input st.index
  simp only [readEscapeSequence] at h
  by_cases h1 : input[st.index]? = some 97
  · rw [if_pos h1] at h
    injection h with h3; injection h3 with h4 h5; subst h5; exact Nat.le_succ _
  rw [if_neg h1] at h
  by_cases h2 : input[st.index]? = some 110
  · rw [if_pos h2] at h
    injection h with h3; injection h3 with h4 h5; subst h5; exact Nat.le_succ _
  rw [if_neg h2] at h
  by_cases h3 : input[st.index]? = some 114
  · rw [if_pos h3] at h
    injection h with h3; injection h3 with h4 h5; subst h5; exact Nat.le_succ _
  rw [if_neg h3] at h
  by_cases h4 : input[st.index]? = some 116
  · rw [if_pos h4] at h
    injection h with h3; injection h3 with h4 h5; subst h5; exact Nat.le_succ _
  rw [if_neg h4] at h
  by_cases h5 : input[st.index]? = some 118
  · rw [if_pos h5] at h
    injection h with h3; injection h3 with h4 h5; subst h5; exact Nat.le_succ _
  rw [if_neg h5] at h
  by_cases h6 : input[st.index]? = some 98
  · rw [if_pos h6] at h
    injection h with h3; injection h3 with h4 h5; subst h5; exact Nat.le_succ _
  rw [if_neg h6] at h
  by_cases h7 : input[st.index]? = some 102
  · rw [if_pos h7] at h
    injection h with h3; injection h3 with h4 h5; subst h5; exact Nat.le_succ _
  rw [if_neg h7] at h
  by_cases h8 : input[st.index]? = some 13 ∨ input[st.index]? = some 10
  · -- line terminator escape
    rw [if_pos h8] at h
    injection h with h3; injection h3 with h4 h5; subst h5
    rcases h9 : consumeEOL input st with _ | st3
    · simp [h9]
    · have h6 := consumeEOL_index input st st3 h9
      simp only [h9, Option.getD_some]
      omega
  rw [if_neg h8] at h
  by_cases h9 : testO isDecDigit input[st.index]? = true
  · -- decimal escape
    rw [if_pos h9] at h
    split at h
    · exact Except.noConfusion h
    · injection h with h3; injection h3 with h4 h5; subst h5
      show st.index ≤ min (skipWhile isDecDigit input st.index) (st.index + 3)
      omega
  rw [if_neg h9] at h
  by_cases h10 : input[st.index]? = some 92 ∨ input[st.index]? = some 34
      ∨ input[st.index]? = some 39
  · -- backslash and quotes
    rw [if_pos h10] at h
    injection h with h3; injection h3 with h4 h5; subst h5; exact Nat.le_succ _
  rw [if_neg h10] at h
  exact readEscapeFallThrough_ge f input st s st2 h

/-- The scanning loop of scanStringLiteral.  Each iteration consumes one
character; on a backslash the escape decoder output is appended and the
literal slice restarts after it; the end-of-input and line-terminator check
runs after the escape handling with the consumed character.  Falling out of
the loop, which the source reaches on break and also when the loop guard
fails at entry, produces the token from the pending slice. -/
def scanStringLoop (f : Features) (input : List Nat) (delimiter : Option Nat)
    (tokenStart beginLine beginLineStart : Nat) (st : St) (stringStart : Nat)
    (acc : List Nat) : Except LexErr (Token × St) :=
  if h : st.index < input.length then
    if input[st.index]? = delimiter then
      .ok (⟨.stringLit,
            .str (acc ++ fixupHighCharacters (sliceCodes input stringStart st.index)),
            beginLine, beginLineStart, (tokenStart, st.index + 1),
            some st.line, some st.lineStart⟩, { st with index := st.index + 1 })
    else if input[st.index]? = some 92 then
      match hesc : readEscapeSequence f input { st with index := st.index + 1 } with
      | .error e => .error e
      | .ok (esc, st2) =>
        if input.length ≤ st2.index ∨ testO isLineTerminator input[st.index]? then
          .error ⟨.unfinishedString, beginLine, beginLineStart,
                  (st2.index - 1, st2.index - 1), none⟩
        else
          scanStringLoop f input delimiter tokenStart beginLine beginLineStart st2 st2.index
            (acc ++ fixupHighCharacters (sliceCodes input stringStart st.index) ++ esc)
    else if input.length ≤ st.index + 1 ∨ testO isLineTerminator input[st.index]? then
      .error ⟨.unfinishedString, beginLine, beginLineStart, (stringStart - 1, st.index), none⟩
    else
      scanStringLoop f input delimiter tokenStart beginLine beginLineStart
        { st with index := st.index + 1 } stringStart acc
  else
    .ok (⟨.stringLit,
          .str (acc ++ fixupHighCharacters (sliceCodes input stringStart (st.index - 1))),
          beginLine, beginLineStart, (tokenStart, st.index),
          some st.line, some st.lineStart⟩, st)
termination_by input.length - st.index
decreasing_by
  · have := readEscapeSequence_ge f input { st with index := st.index + 1 } esc st2 hesc
    simp only [St.index] at this
    omega
  · omega

/-- scanStringLiteral: record the delimiter, step past it, and run the
scanning loop. -/
def scanStringLiteral (f : Features) (input : List Nat) (st : St) :
    Except LexErr (Token × St) :=
  let tokenStart := st.index
  let delimiter := input[st.index]?
  scanStringLoop f input delimiter tokenStart st.line st.lineStart
    { st with index := st.index + 1 } (st.index + 1) []

/-- The loop of readLongString: track line terminators, and stop at a ]
followed by exactly level equals signs and another ]. -/
def longLoop (isComment : Bool) (input : List Nat)
    (firstLine firstLineStart from_ level stringStart : Nat) (st : St) :
    Except LexErr (Option (List Nat) × St) :=
  if h : st.index < input.length then
    if hterm : testO isLineTerminator input[st.index]? then
      longLoop isComment input firstLine firstLineStart from_ level stringStart
        ((consumeEOL input st).getD st)
    else if input[st.index]? = some 93
        ∧ (∀ i < level, input[st.index + 1 + i]? = some 61)
        ∧ input[st.index + 1 + level]? = some 93 then
      .ok (some (sliceCodes input stringStart st.index),
           { st with index := st.index + 1 + level + 1 })
    else
      longLoop isComment input firstLine firstLineStart from_ level stringStart
        { st with index := st.index + 1 }
  else
    .error ⟨if isComment then .unfinishedLongComment else .unfinishedLongString,
            firstLine, firstLineStart, (from_, from_ + level + 1), none⟩
termination_by input.length - st.index
decreasing_by
  · rcases h2 : consumeEOL input st with _ | st3
    · simp only [consumeEOL] at h2
      rw [if_pos hterm] at h2
      split at h2 <;> exact Option.noConfusion h2
    · have := consumeEOL_index input st st3 h2
      simp only [h2, Option.getD_some]
      omega
  · omega

/-- readLongString: count the level of equals signs after the opening
bracket; none signals that this is not a long bracket after all.  A line
terminator directly after the opening bracket sequence is skipped. -/
def readLongString (isComment : Bool) (input : List Nat) (st : St) :
    Except LexErr (Option (List Nat) × St) :=
  let firstLine := st.line
  let firstLineStart := st.lineStart
  let from_ := st.index
  let level := skipWhile (fun c => c = 61) input (from_ + 1) - (from_ + 1)
  if input[from_ + 1 + level]? ≠ some 91 then
    .ok (none, { st with index := from_ + 1 })
  else
    let st1 : St := { st with index := from_ + 1 + level + 1 }
    let st2 := if testO isLineTerminator input[st1.index]? then (consumeEOL input st1).getD st1 else st1
    longLoop isComment input firstLine firstLineStart from_ level st2.index st2

/-- scanLongStringLiteral: a long string token, or the invalid-delimiter
error when the equals run is not followed by a second opening bracket. -/
def scanLongStringLiteral (input : List Nat) (st : St) : Except LexErr (Token × St) :=
  let tokenStart := st.index
  let beginLine := st.line
  let beginLineStart := st.lineStart
  match readLongString false input st with
  | .error e => .error e
  | .ok (none, st1) =>
    let delim := skipWhile (fun c => c = 61) input st1.index
    .error ⟨.invalidDelimiter, beginLine, beginLineStart, (delim, delim + 1), none⟩
  | .ok (some s, st1) =>
    .ok (⟨.stringLit, .str (fixupHighCharacters s), beginLine, beginLineStart,
          (tokenStart, st1.index), some st1.line, some st1.lineStart⟩, st1)

/-- scanIdentifierOrKeyword: consume the identifier-part run, apply the
encoding fixup, and classify as keyword, boolean, nil or identifier. -/
def scanIdentifierOrKeyword (cfg : Config) (input : List Nat) (st : St) : Token × St :=
  let tokenStart := st.index
  let iEnd := skipWhile (isIdentifierPart cfg) input (st.index + 1)
  let value := fixupHighCharacters (sliceCodes input tokenStart iEnd)
  let st2 : St := { st with index := iEnd }
  let tok : Token :=
    if isKeyword cfg.features value then
      ⟨.keyword, .str value, st.line, st.lineStart, (tokenStart, iEnd), none, none⟩
    else if value = strCodes "true" ∨ value = strCodes "false" then
      ⟨.booleanLit, .bool (value = strCodes "true"), st.line, st.lineStart,
       (tokenStart, iEnd), none, none⟩
    else if value = strCodes "nil" then
      ⟨.nilLit, .nil, st.line, st.lineStart, (tokenStart, iEnd), none, none⟩
    else
      ⟨.identifier, .str value, st.line, st.lineStart, (tokenStart, iEnd), none, none⟩
  (tok, st2)

/-- scanPunctuator: emit an already validated punctuator. -/
def scanPunctuator (input : List Nat) (st : St) (value : List Nat) : Token × St :=
  let st2 : St := { st with index := st.index + value.length }
  (⟨.punctuator, .str value, st.line, st.lineStart, (st.index, st2.index), none, none⟩, st2)

/-- scanVarargLiteral: three dots. -/
def scanVarargLiteral (input : List Nat) (st : St) : Token × St :=
  let st2 : St := { st with index := st.index + 3 }
  (⟨.varargLit, .str (strCodes "..."), st.line, st.lineStart, (st.index, st2.index),
    none, none⟩, st2)

/-- scanComment: skip the two dashes, try a long bracket, and otherwise
consume to the end of the line.  The comment record is built only when the
comments option is set; scanning is identical either way. -/
def scanComment (cfg : Config) (input : List Nat) (st : St) :
    Except LexErr (Option Comment × St) :=
  let tokenStart := st.index
  let st0 : St := { st with index := st.index + 2 }
  let commentStart := st0.index
  match (if input[st0.index]? = some 91 then readLongString true input st0
         else .ok (none, st0)) with
  | .error e => .error e
  | .ok (some lc, st1) =>
    -- a long comment
    let com : Option Comment :=
      if cfg.collectComments then
        some ⟨lc, sliceCodes input tokenStart st1.index, st1.line,
              tokenStart - st1.lineStart, st1.line, st1.index - st1.lineStart,
              (tokenStart, st1.index)⟩
      else none
    .ok (com, st1)
  | .ok (none, st1) =>
    -- a line comment: scan to the line terminator
    let iEnd := skipWhile (fun c => ! isLineTerminator c) input st1.index
    let st2 : St := { st1 with index := iEnd }
    let com : Option Comment :=
      if cfg.collectComments then
        some ⟨sliceCodes input commentStart iEnd, sliceCodes input tokenStart iEnd,
              st2.line, tokenStart - st2.lineStart, st2.line, iEnd - st2.lineStart,
              (tokenStart, iEnd)⟩
      else none
    .ok (com, st2)

/-- A character satisfying a classifier exists, so its position is in range. -/
theorem lt_of_testO (p : Nat → Bool) (input : List Nat) (i : Nat)
    (h : testO p input[i]? = true) : i < input.length := by
  by_contra hc
  push_neg at hc
  rw [List.getElem?_eq_none hc] at h
  simp [testO] at h

/-- skipWhile stops immediately on a failing or absent character. -/
theorem skipWhile_stop (p : Nat → Bool) (input : List Nat) (i : Nat)
    (h : testO p input[i]? = false) : skipWhile p input i = i := by
  rw [skipWhile]
  split
  · rename_i hlt
    rw [List.getElem?_eq_getElem hlt] at h
    simp only [testO] at h
    simp [h]
  · rfl

/-- skipWhile steps over a satisfying character. -/
theorem skipWhile_succ (p : Nat → Bool) (input : List Nat) (i : Nat)
    (h : testO p input[i]? = true) : skipWhile p input i = skipWhile p input (i + 1) := by
  have hlt := lt_of_testO p input i h
  rw [List.getElem?_eq_getElem hlt] at h
  simp only [testO] at h
  rw [skipWhile, dif_pos hlt, if_pos h]

/-- skipWhile passes a satisfying first character. -/
theorem skipWhile_gt (p : Nat → Bool) (input : List Nat) (i : Nat)
    (h : testO p input[i]? = true) : i + 1 ≤ skipWhile p input i := by
  rw [skipWhile_succ p input i h]
  exact skipWhile_ge p input (i + 1)

/-- A position holding a known character is in range. -/
theorem lt_of_getElem?_eq_some (input : List Nat) (i c : Nat)
    (h : input[i]? = some c) : i < input.length := by
  by_contra hc
  push_neg at hc
  rw [List.getElem?_eq_none hc] at h
  exact Option.noConfusion h

/-- A successful hexadecimal read ends past the two prefix characters. -/
theorem readHexLiteral_index (input : List Nat) (st : St) (v : ℚ) (st2 : St)
    (h : readHexLiteral input st = .ok (v, st2)) : st.index + 2 ≤ st2.index := by
  simp only [readHexLiteral] at h
  set i1 := skipWhile isHexDigit input (st.index + 2) with hi1
  set i2 := (hexFraction input i1).2 with hi2
  set es := expDigitStart input i2 with hes
  set i4 := skipWhile isDecDigit input es with hi4
  have g1 : st.index + 2 ≤ i1 := skipWhile_ge isHexDigit input (st.index + 2)
  have g2 : i1 ≤ i2 := hexFraction_ge input i1
  have g3 : i2 + 1 ≤ es := expDigitStart_ge input i2
  have g4 : es ≤ i4 := skipWhile_ge isDecDigit input es
  split at h
  · exact Except.noConfusion h
  split at h
  · split at h
    · exact Except.noConfusion h
    · injection h with h3; injection h3 with h4 h5; subst h5
      show st.index + 2 ≤ i4
      omega
  · injection h with h3; injection h3 with h4 h5; subst h5
    show st.index + 2 ≤ i2
    omega

/-- A successful decimal read never moves the index backwards, and moves it
strictly forward when entered on a decimal digit or on a dot followed by a
decimal digit. -/
theorem readDecLiteral_index (input : List Nat) (st : St) (v : ℚ) (st2 : St)
    (hd : testO isDecDigit input[st.index]? = true
      ∨ (input[st.index]? = some 46 ∧ testO isDecDigit input[st.index + 1]? = true))
    (h : readDecLiteral input st = .ok (v, st2)) : st.index < st2.index := by
  simp only [readDecLiteral] at h
  set i1 := skipWhile isDecDigit input st.index with hi1
  set i2 := decFracEnd input i1 with hi2
  set i3 := expDigitStart input i2 with hi3
  set i4 := skipWhile isDecDigit input i3 with hi4
  have g2 : i1 ≤ i2 := decFracEnd_ge input i1
  have g3 : i2 + 1 ≤ i3 := expDigitStart_ge input i2
  have g4 : i3 ≤ i4 := skipWhile_ge isDecDigit input i3
  have g1 : st.index < i2 := by
    rcases hd with hd | ⟨hd1, hd2⟩
    · have := skipWhile_gt isDecDigit input st.index hd
      omega
    · have h5 : i1 = st.index := by
        rw [hi1, skipWhile_stop]
        rw [hd1]
        simp [testO, isDecDigit]
      rw [hi2, decFracEnd, h5, hd1] at g2 ⊢
      simp only [if_pos]
      have := skipWhile_gt isDecDigit input (st.index + 1) hd2
      omega
  split at h
  · split at h
    · exact Except.noConfusion h
    · injection h with h3; injection h3 with h4 h5; subst h5
      show st.index < i4
      omega
  · injection h with h3; injection h3 with h4 h5; subst h5
    show st.index < i2
    omega

/-- A successful numeric scan moves the index forward when entered on a
decimal digit or on a dot followed by a decimal digit, the two conditions
under which the dispatcher enters it. -/
theorem scanNumericLiteral_gt (input : List Nat) (st : St) (t : Token) (st2 : St)
    (hd : testO isDecDigit input[st.index]? = true
      ∨ (input[st.index]? = some 46 ∧ testO isDecDigit input[st.index + 1]? = true))
    (h : scanNumericLiteral input st = .ok (t, st2)) : st.index < st2.index := by
  simp only [scanNumericLiteral] at h
  split at h
  · exact Except.noConfusion h
  · rename_i vq stq heq
    injection h with h3; injection h3 with h4 h5; subst h5
    split at heq
    · have := readHexLiteral_index input st vq stq heq
      omega
    · exact readDecLiteral_index input st vq stq hd heq

/-- On a line terminator, consumeEOL succeeds. -/
theorem consumeEOL_isSome (input : List Nat) (st : St)
    (h : testO isLineTerminator input[st.index]? = true) :
    ∃ st3, consumeEOL input st = some st3 := by
  unfold consumeEOL
  rw [if_pos h]
  split <;> exact ⟨_, rfl⟩

/-- The long-bracket loop moves the index strictly forward on success. -/
theorem longLoop_gt (isComment : Bool) (input : List Nat)
    (firstLine firstLineStart from_ level stringStart : Nat) (st : St)
    (c : Option (List Nat)) (st2 : St)
    (h : longLoop isComment input firstLine firstLineStart from_ level stringStart st
      = .ok (c, st2)) : st.index < st2.index := by
  induction st using longLoop.induct isComment input firstLine firstLineStart from_ level
      stringStart with
  | case1 st hlt hterm ih =>
    rw [longLoop, dif_pos hlt, dif_pos hterm] at h
    rcases h2 : consumeEOL input st with _ | st3
    · obtain ⟨st4, h4⟩ := consumeEOL_isSome input st hterm
      rw [h2] at h4
      exact Option.noConfusion h4
    · rw [h2] at h ih
      simp only [Option.getD_some] at h ih
      have h5 := consumeEOL_index input st st3 h2
      have h6 := ih h
      omega
  | case2 st hlt hterm hcond =>
    rw [longLoop, dif_pos hlt, dif_neg hterm, if_pos hcond] at h
    injection h with h3
    injection h3 with h4 h5
    subst h5
    show st.index < st.index + 1 + level + 1
    omega
  | case3 st hlt hterm hcond ih =>
    rw [longLoop, dif_pos hlt, dif_neg hterm, if_neg hcond] at h
    have h6 := ih h
    simp only [St.index] at h6
    omega
  | case4 st hlt =>
    rw [longLoop, dif_neg hlt] at h
    exact Except.noConfusion h

/-- Skipping an optional end-of-line sequence never moves the index
backwards. -/
theorem skipEOLopt_ge (input : List Nat) (stX : St) :
    stX.index ≤ (if testO isLineTerminator input[stX.index]? then
      (consumeEOL input stX).getD stX else stX).index := by
  split
  · rcases h9 : consumeEOL input stX with _ | st3
    · simp
    · have := consumeEOL_index input stX st3 h9
      simp only [Option.getD_some]
      omega
  · exact Nat.le_refl _

/-- A successful readLongString moves the index strictly forward. -/
theorem readLongString_gt (isComment : Bool) (input : List Nat) (st : St)
    (c : Option (List Nat)) (st2 : St)
    (h : readLongString isComment input st = .ok (c, st2)) : st.index < st2.index := by
  simp only [readLongString] at h
  split at h
  · injection h with h3
    injection h3 with h4 h5
    subst h5
    show st.index < st.index + 1
    omega
  · have h9 := longLoop_gt _ _ _ _ _ _ _ _ _ _ h
    have h8 := skipEOLopt_ge input
      { st with index := st.index + 1
          + (skipWhile (fun c => c = 61) input (st.index + 1) - (st.index + 1)) + 1 }
    simp only [St.index] at h8 h9 ⊢
    omega

/-- A successful scanComment moves the index strictly forward. -/
theorem scanComment_gt (cfg : Config) (input : List Nat) (st : St)
    (c : Option Comment) (st2 : St)
    (h : scanComment cfg input st = .ok (c, st2)) : st.index < st2.index := by
  simp only [scanComment] at h
  set st0 : St := { st with index := st.index + 2 } with hst0
  split at h
  · exact Except.noConfusion h
  · -- long comment
    rename_i lc st1 heq
    injection h with h3
    injection h3 with h4 h5
    subst h5
    have h6 : st0.index < st1.index := by
      split at heq
      · exact readLongString_gt true input st0 (some lc) st1 heq
      · exact absurd heq (by simp)
    simp only [St.index] at h6
    omega
  · -- line comment
    rename_i st1 heq
    injection h with h3
    injection h3 with h4 h5
    subst h5
    have h6 : st0.index ≤ st1.index := by
      split at heq
      · exact le_of_lt (readLongString_gt true input st0 none st1 heq)
      · injection heq with h7
        injection h7 with h8 h9
        subst h9
        exact Nat.le_refl _
    have h7 := skipWhile_ge (fun c => ! isLineTerminator c) input st1.index
    simp only [St.index] at h6 ⊢
    omega

/-- The string-scanning loop never moves the index backwards on success. -/
theorem scanStringLoop_ge (f : Features) (input : List Nat) (delimiter : Option Nat)
    (tokenStart beginLine beginLineStart : Nat) (st : St) (stringStart : Nat)
    (acc : List Nat) (t : Token) (st2 : St)
    (h : scanStringLoop f input delimiter tokenStart beginLine beginLineStart st
      stringStart acc = .ok (t, st2)) : st.index ≤ st2.index := by
  induction st, stringStart, acc
    using scanStringLoop.induct f input delimiter tokenStart beginLine beginLineStart with
  | case1 st stringStart acc hlt hdel =>
    rw [scanStringLoop, dif_pos hlt, if_pos hdel] at h
    injection h with h3
    injection h3 with h4 h5
    subst h5
    exact Nat.le_succ _
  | case2 st stringStart acc hlt hdel hbs e hesc =>
    rw [scanStringLoop, dif_pos hlt, if_neg hdel, if_pos hbs] at h
    split at h
    · exact Except.noConfusion h
    · rename_i esc2 st4 heq
      rw [hesc] at heq
      exact Except.noConfusion heq
  | case3 st stringStart acc hlt hdel hbs esc st3 hesc hend =>
    rw [scanStringLoop, dif_pos hlt, if_neg hdel, if_pos hbs] at h
    split at h
    · exact Except.noConfusion h
    · rename_i esc2 st4 heq
      rw [hesc] at heq
      injection heq with heq2
      injection heq2 with ha hb
      subst ha; subst hb
      rw [if_pos hend] at h
      exact Except.noConfusion h
  | case4 st stringStart acc hlt hdel hbs esc st3 hesc hend ih =>
    rw [scanStringLoop, dif_pos hlt, if_neg hdel, if_pos hbs] at h
    split at h
    · exact Except.noConfusion h
    · rename_i esc2 st4 heq
      rw [hesc] at heq
      injection heq with heq2
      injection heq2 with ha hb
      subst ha; subst hb
      rw [if_neg hend] at h
      have h6 := ih h
      have h7 := readEscapeSequence_ge f input { st with index := st.index + 1 } esc st3 hesc
      simp only [St.index] at h7
      omega
  | case5 st stringStart acc hlt hdel hbs hend =>
    rw [scanStringLoop, dif_pos hlt, if_neg hdel, if_neg hbs, if_pos hend] at h
    exact Except.noConfusion h
  | case6 st stringStart acc hlt hdel hbs hend ih =>
    rw [scanStringLoop, dif_pos hlt, if_neg hdel, if_neg hbs, if_neg hend] at h
    have h6 := ih h
    simp only [St.index] at h6
    omega
  | case7 st stringStart acc hlt =>
    rw [scanStringLoop, dif_neg hlt] at h
    injection h with h3
    injection h3 with h4 h5
    subst h5
    exact Nat.le_refl _

/-- A successful scanStringLiteral moves the index strictly forward. -/
theorem scanStringLiteral_gt (f : Features) (input : List Nat) (st : St)
    (t : Token) (st2 : St)
    (h : scanStringLiteral f input st = .ok (t, st2)) : st.index < st2.index := by
  simp only [scanStringLiteral] at h
  have h6 := scanStringLoop_ge f input input[st.index]? st.index st.line st.lineStart
    { st with index := st.index + 1 } (st.index + 1) [] t st2 h
  simp only [St.index] at h6
  omega

/-- A successful scanLongStringLiteral moves the index strictly forward. -/
theorem scanLongStringLiteral_gt (input : List Nat) (st : St) (t : Token) (st2 : St)
    (h : scanLongStringLiteral input st = .ok (t, st2)) : st.index < st2.index := by
  simp only [scanLongStringLiteral] at h
  split at h
  · exact Except.noConfusion h
  · exact Except.noConfusion h
  · rename_i s st3 heq
    injection h with h3
    injection h3 with h4 h5
    subst h5
    exact readLongString_gt false input st s st3 heq

/-- The index after an identifier scan is the end of the identifier run. -/
theorem scanIdentifierOrKeyword_index (cfg : Config) (input : List Nat) (st : St) :
    (scanIdentifierOrKeyword cfg input st).2.index
      = skipWhile (isIdentifierPart cfg) input (st.index + 1) := rfl

/-- The index after a punctuator scan. -/
theorem scanPunctuator_index (input : List Nat) (st : St) (v : List Nat) :
    (scanPunctuator input st v).2.index = st.index + v.length := rfl

/-- The index after a vararg scan. -/
theorem scanVarargLiteral_index (input : List Nat) (st : St) :
    (scanVarargLiteral input st).2.index = st.index + 3 := rfl

/-- lexSkip: the whitespace skipping and the comment-skipping loop that lex
performs before dispatching, collecting any comment records. -/
def lexSkip (cfg : Config) (input : List Nat) (st : St) :
    Except LexErr (List Comment × St) :=
  if hc : input[(skipWhiteSpace input st).index]? = some 45
      ∧ input[(skipWhiteSpace input st).index + 1]? = some 45 then
    match hcom : scanComment cfg input (skipWhiteSpace input st) with
    | .error e => .error e
    | .ok (oc, st2) =>
      match lexSkip cfg input st2 with
      | .error e => .error e
      | .ok (cs, st3) => .ok (oc.toList ++ cs, st3)
  else .ok ([], skipWhiteSpace input st)
termination_by input.length - st.index
decreasing_by
  have g1 := skipWhiteSpace_ge input st
  have g2 := scanComment_gt cfg input (skipWhiteSpace input st) oc st2 hcom
  have g3 := lt_of_getElem?_eq_some input (skipWhiteSpace input st).index 45 hc.1
  omega

/-- lexSkip never moves the index backwards on success. -/
theorem lexSkip_ge (cfg : Config) (input : List Nat) (st : St) :
    ∀ (cs : List Comment) (st2 : St),
    lexSkip cfg input st = .ok (cs, st2) → st.index ≤ st2.index := by
  induction st using lexSkip.induct cfg input with
  | case1 st hc e hcom =>
    intro cs st2 h
    rw [lexSkip, dif_pos hc] at h
    split at h
    · exact Except.noConfusion h
    · rename_i oc st3 heq
      rw [hcom] at heq
      exact Except.noConfusion heq
  | case2 st hc oc st3 hcom e hrec ih =>
    intro cs st2 h
    rw [lexSkip, dif_pos hc] at h
    split at h
    · rename_i e2 heq
      rw [hcom] at heq
      exact Except.noConfusion heq
    · rename_i oc2 st4 heq
      rw [hcom] at heq
      injection heq with heq2
      injection heq2 with ha hb
      subst ha; subst hb
      split at h
      · exact Except.noConfusion h
      · rename_i cs2 st5 heq2
        rw [hrec] at heq2
        exact Except.noConfusion heq2
  | case3 st hc oc st3 hcom cs2 st4 hrec ih =>
    intro cs st2 h
    rw [lexSkip, dif_pos hc] at h
    split at h
    · rename_i e2 heq
      rw [hcom] at heq
      exact Except.noConfusion heq
    · rename_i oc2 st5 heq
      rw [hcom] at heq
      injection heq with heq2
      injection heq2 with ha hb
      subst ha; subst hb
      split at h
      · rename_i e2 heq2
        rw [hrec] at heq2
        exact Except.noConfusion heq2
      · rename_i cs3 st6 heq2
        rw [hrec] at heq2
        injection heq2 with heq3
        injection heq3 with hc2 hd2
        subst hc2; subst hd2
        injection h with h3
        injection h3 with h4 h5
        subst h5
        have g1 := skipWhiteSpace_ge input st
        have g2 := scanComment_gt cfg input (skipWhiteSpace input st) oc st3 hcom
        have g3 := ih cs2 st4 hrec
        omega
  | case4 st hc =>
    intro cs st2 h
    rw [lexSkip, dif_neg hc] at h
    injection h with h3
    injection h3 with h4 h5
    subst h5
    exact skipWhiteSpace_ge input st

/-- The switch of lex: given that the end of input is not reached, decide
the token category from the next one or two code units, run the chosen
scanner, and otherwise raise unexpectedSymbol. -/
def dispatch (cfg : Config) (input : List Nat) (st1 : St) : Except LexErr (Token × St) :=
  if testO (isIdentifierStart cfg) input[st1.index]? then
    .ok (scanIdentifierOrKeyword cfg input st1)
  else if input[st1.index]? = some 39 ∨ input[st1.index]? = some 34 then
    scanStringLiteral cfg.features input st1
  else if testO isDecDigit input[st1.index]? then
    scanNumericLiteral input st1
  else if input[st1.index]? = some 46 then
    (if testO isDecDigit input[st1.index + 1]? then
      scanNumericLiteral input st1
    else if input[st1.index + 1]? = some 46 then
      (if input[st1.index + 2]? = some 46 then .ok (scanVarargLiteral input st1)
       else .ok (scanPunctuator input st1 [46, 46]))
    else .ok (scanPunctuator input st1 [46]))
  else if input[st1.index]? = some 61 then
    (if input[st1.index + 1]? = some 61 then .ok (scanPunctuator input st1 [61, 61])
     else if input[st1.index + 1]? = some 62 then .ok (scanPunctuator input st1 [61, 62])
     else .ok (scanPunctuator input st1 [61]))
  else if input[st1.index]? = some 62 then
    (if cfg.features.bitwiseOperators ∧ input[st1.index + 1]? = some 62 then
      .ok (scanPunctuator input st1 [62, 62])
    else if input[st1.index + 1]? = some 61 then .ok (scanPunctuator input st1 [62, 61])
    else .ok (scanPunctuator input st1 [62]))
  else if input[st1.index]? = some 60 then
    (if cfg.features.bitwiseOperators ∧ input[st1.index + 1]? = some 60 then
      .ok (scanPunctuator input st1 [60, 60])
    else if input[st1.index + 1]? = some 61 then .ok (scanPunctuator input st1 [60, 61])
    else .ok (scanPunctuator input st1 [60]))
  else if input[st1.index]? = some 126 then
    (if input[st1.index + 1]? = some 61 then .ok (scanPunctuator input st1 [126, 61])
     else if cfg.features.bitwiseOperators then .ok (scanPunctuator input st1 [126])
     else .error ⟨.unexpectedSymbol, st1.line, st1.lineStart,
                  (st1.index, st1.index + 1), none⟩)
  else if input[st1.index]? = some 58 then
    (if cfg.features.labels ∧ input[st1.index + 1]? = some 58 then
      .ok (scanPunctuator input st1 [58, 58])
    else .ok (scanPunctuator input st1 [58]))
  else if input[st1.index]? = some 91 then
    (if input[st1.index + 1]? = some 91 ∨ input[st1.index + 1]? = some 61 then
      scanLongStringLiteral input st1
    else .ok (scanPunctuator input st1 [91]))
  else if input[st1.index]? = some 47 then
    (if cfg.features.integerDivision ∧ input[st1.index + 1]? = some 47 then
      .ok (scanPunctuator input st1 [47, 47])
    else .ok (scanPunctuator input st1 [47]))
  else if input[st1.index]? = some 38 then
    (if cfg.features.bitwiseOperators then .ok (scanPunctuator input st1 [38])
     else .error ⟨.unexpectedSymbol, st1.line, st1.lineStart,
                  (st1.index, st1.index + 1), none⟩)
  else if input[st1.index]? = some 42 ∨ input[st1.index]? = some 94
      ∨ input[st1.index]? = some 37 ∨ input[st1.index]? = some 44
      ∨ input[st1.index]? = some 123 ∨ input[st1.index]? = some 125
      ∨ input[st1.index]? = some 93 ∨ input[st1.index]? = some 40
      ∨ input[st1.index]? = some 41 ∨ input[st1.index]? = some 59
      ∨ input[st1.index]? = some 35 ∨ input[st1.index]? = some 45
      ∨ input[st1.index]? = some 43 ∨ input[st1.index]? = some 124 then
    .ok (scanPunctuator input st1 (input[st1.index]?).toList)
  else
    .error ⟨.unexpectedSymbol, st1.line, st1.lineStart, (st1.index, st1.index + 1), none⟩

/-- lex: skip whitespace and comments, stop at end of input, and dispatch
otherwise. -/
def lex (cfg : Config) (input : List Nat) (st : St) :
    Except LexErr (Option Token × List Comment × St) :=
  match lexSkip cfg input st with
  | .error e => .error e
  | .ok (cs, st1) =>
    if input.length ≤ st1.index then .ok (none, cs, st1)
    else
      match dispatch cfg input st1 with
      | .error e => .error e
      | .ok (t, st2) => .ok (some t, cs, st2)

/-- Unpacking the state component of an ok-wrapped scanner pair. -/
theorem okPairSnd {α : Type} {X : α × St} {t : α} {st2 : St}
    (h : (Except.ok X : Except LexErr (α × St)) = .ok (t, st2)) : st2 = X.2 := by
  injection h with h3
  rw [h3]

/-- A successful dispatch moves the index strictly forward. -/
theorem dispatch_gt (cfg : Config) (input : List Nat) (st1 : St) (t : Token) (st2 : St)
    (h : dispatch cfg input st1 = .ok (t, st2)) : st1.index < st2.index := by
  simp only [dispatch] at h
  by_cases h1 : testO (isIdentifierStart cfg) input[st1.index]? = true
  · rw [if_pos h1] at h
    rw [okPairSnd h, scanIdentifierOrKeyword_index]
    have := skipWhile_ge (isIdentifierPart cfg) input (st1.index + 1)
    omega
  rw [if_neg h1] at h
  by_cases h2 : input[st1.index]? = some 39 ∨ input[st1.index]? = some 34
  · rw [if_pos h2] at h
    exact scanStringLiteral_gt cfg.features input st1 t st2 h
  rw [if_neg h2] at h
  by_cases h3 : testO isDecDigit input[st1.index]? = true
  · rw [if_pos h3] at h
    exact scanNumericLiteral_gt input st1 t st2 (Or.inl h3) h
  rw [if_neg h3] at h
  by_cases h4 : input[st1.index]? = some 46
  · rw [if_pos h4] at h
    by_cases h5 : testO isDecDigit input[st1.index + 1]? = true
    · rw [if_pos h5] at h
      exact scanNumericLiteral_gt input st1 t st2 (Or.inr ⟨h4, h5⟩) h
    rw [if_neg h5] at h
    by_cases h6 : input[st1.index + 1]? = some 46
    · rw [if_pos h6] at h
      by_cases h7 : input[st1.index + 2]? = some 46
      · rw [if_pos h7] at h
        rw [okPairSnd h, scanVarargLiteral_index]
        omega
      · rw [if_neg h7] at h
        rw [okPairSnd h, scanPunctuator_index]
        simp
    · rw [if_neg h6] at h
      rw [okPairSnd h, scanPunctuator_index]
      simp
  rw [if_neg h4] at h
  by_cases h8 : input[st1.index]? = some 61
  · rw [if_pos h8] at h
    by_cases h9 : input[st1.index + 1]? = some 61
    · rw [if_pos h9] at h; rw [okPairSnd h, scanPunctuator_index]; simp
    rw [if_neg h9] at h
    by_cases h10 : input[st1.index + 1]? = some 62
    · rw [if_pos h10] at h; rw [okPairSnd h, scanPunctuator_index]; simp
    · rw [if_neg h10] at h; rw [okPairSnd h, scanPunctuator_index]; simp
  rw [if_neg h8] at h
  by_cases h11 : input[st1.index]? = some 62
  · rw [if_pos h11] at h
    by_cases h12 : cfg.features.bitwiseOperators = true ∧ input[st1.index + 1]? = some 62
    · rw [if_pos h12] at h; rw [okPairSnd h, scanPunctuator_index]; simp
    rw [if_neg h12] at h
    by_cases h13 : input[st1.index + 1]? = some 61
    · rw [if_pos h13] at h; rw [okPairSnd h, scanPunctuator_index]; simp
    · rw [if_neg h13] at h; rw [okPairSnd h, scanPunctuator_index]; simp
  rw [if_neg h11] at h
  by_cases h14 : input[st1.index]? = some 60
  · rw [if_pos h14] at h
    by_cases h15 : cfg.features.bitwiseOperators = true ∧ input[st1.index + 1]? = some 60
    · rw [if_pos h15] at h; rw [okPairSnd h, scanPunctuator_index]; simp
    rw [if_neg h15] at h
    by_cases h16 : input[st1.index + 1]? = some 61
    · rw [if_pos h16] at h; rw [okPairSnd h, scanPunctuator_index]; simp
    · rw [if_neg h16] at h; rw [okPairSnd h, scanPunctuator_index]; simp
  rw [if_neg h14] at h
  by_cases h17 : input[st1.index]? = some 126
  · rw [if_pos h17] at h
    by_cases h18 : input[st1.index + 1]? = some 61
    · rw [if_pos h18] at h; rw [okPairSnd h, scanPunctuator_index]; simp
    rw [if_neg h18] at h
    by_cases h19 : cfg.features.bitwiseOperators = true
    · rw [if_pos h19] at h; rw [okPairSnd h, scanPunctuator_index]; simp
    · rw [if_neg h19] at h; exact Except.noConfusion h
  rw [if_neg h17] at h
  by_cases h20 : input[st1.index]? = some 58
  · rw [if_pos h20] at h
    by_cases h21 : cfg.features.labels = true ∧ input[st1.index + 1]? = some 58
    · rw [if_pos h21] at h; rw [okPairSnd h, scanPunctuator_index]; simp
    · rw [if_neg h21] at h; rw [okPairSnd h, scanPunctuator_index]; simp
  rw [if_neg h20] at h
  by_cases h22 : input[st1.index]? = some 91
  · rw [if_pos h22] at h
    by_cases h23 : input[st1.index + 1]? = some 91 ∨ input[st1.index + 1]? = some 61
    · rw [if_pos h23] at h
      exact scanLongStringLiteral_gt input st1 t st2 h
    · rw [if_neg h23] at h; rw [okPairSnd h, scanPunctuator_index]; simp
  rw [if_neg h22] at h
  by_cases h24 : input[st1.index]? = some 47
  · rw [if_pos h24] at h
    by_cases h25 : cfg.features.integerDivision = true ∧ input[st1.index + 1]? = some 47
    · rw [if_pos h25] at h; rw [okPairSnd h, scanPunctuator_index]; simp
    · rw [if_neg h25] at h; rw [okPairSnd h, scanPunctuator_index]; simp
  rw [if_neg h24] at h
  by_cases h26 : input[st1.index]? = some 38
  · rw [if_pos h26] at h
    by_cases h27 : cfg.features.bitwiseOperators = true
    · rw [if_pos h27] at h; rw [okPairSnd h, scanPunctuator_index]; simp
    · rw [if_neg h27] at h; exact Except.noConfusion h
  rw [if_neg h26] at h
  by_cases h28 : input[st1.index]? = some 42 ∨ input[st1.index]? = some 94
      ∨ input[st1.index]? = some 37 ∨ input[st1.index]? = some 44
      ∨ input[st1.index]? = some 123 ∨ input[st1.index]? = some 125
      ∨ input[st1.index]? = some 93 ∨ input[st1.index]? = some 40
      ∨ input[st1.index]? = some 41 ∨ input[st1.index]? = some 59
      ∨ input[st1.index]? = some 35 ∨ input[st1.index]? = some 45
      ∨ input[st1.index]? = some 43 ∨ input[st1.index]? = some 124
  · rw [if_pos h28] at h
    rw [okPairSnd h, scanPunctuator_index]
    have h29 : (input[st1.index]?).toList.length = 1 := by
      rcases h28 with h | h | h | h | h | h | h | h | h | h | h | h | h | h <;> rw [h] <;> rfl
    omega
  · rw [if_neg h28] at h
    exact Except.noConfusion h

/-- A lex call yielding a token moves the index strictly forward, from a
position inside the input. -/
theorem lex_some (cfg : Config) (input : List Nat) (st : St) (t : Token)
    (cs : List Comment) (st2 : St)
    (h : lex cfg input st = .ok (some t, cs, st2)) :
    st.index < st2.index ∧ st.index < input.length := by
  simp only [lex] at h
  split at h
  · exact Except.noConfusion h
  · rename_i cs1 st1 heq
    split at h
    · rename_i hend
      injection h with h3
      injection h3 with h4 h5
      exact Option.noConfusion h4
    · rename_i hend
      split at h
      · exact Except.noConfusion h
      · rename_i t2 st3 heq2
        injection h with h3
        injection h3 with h4 h5
        injection h5 with h6 h7
        subst h7
        have g1 := lexSkip_ge cfg input st cs1 st1 heq
        have g2 := dispatch_gt cfg input st1 t2 st3 heq2
        push_neg at hend
        omega

/-- The generator loop at the bottom of tokenize: pull lex until it yields
nothing, collecting tokens and comments, and recording the error that ends
the stream abnormally. -/
def mainLoop (cfg : Config) (input : List Nat) (st : St) :
    List Token × List Comment × Option LexErr :=
  match hl : lex cfg input st with
  | .error e => ([], [], some e)
  | .ok (none, cs, _) => ([], cs, none)
  | .ok (some t, cs, st2) =>
    match mainLoop cfg input st2 with
    | (ts, cs2, er) => (t :: ts, cs ++ cs2, er)
termination_by input.length + 1 - st.index
decreasing_by
  have := lex_some cfg input st t cs st2 hl
  omega

/-- The shebang-skipping loop while (not consumeEOL()) index++, which scans
for a line terminator one position at a time.  The loop has no end-of-input
test, so it is modelled with fuel: none means the loop did not finish
within the given number of iterations. -/
def shebangLoop (input : List Nat) : St → Nat → Option St
  | _, 0 => none
  | st, fuel + 1 =>
    match consumeEOL input st with
    | some st2 => some st2
    | none => shebangLoop input { st with index := st.index + 1 } fuel

/-- tokenize: resolve options, skip a shebang line when configured, and run
the token loop.  The outer none marks the case in which the shebang loop
never terminates. -/
def tokenize (cfg : Config) (input : List Nat) :
    Option (List Token × List Comment × Option LexErr) :=
  if cfg.ignoreShebang ∧ input[0]? = some 35 ∧ input[1]? = some 33 then
    match shebangLoop input ⟨0, 1, 0⟩ (input.length + 1) with
    | none => none
    | some st1 => some (mainLoop cfg input st1)
  else some (mainLoop cfg input ⟨0, 1, 0⟩)

/-- Convenience projections: the tokens of a terminating run. -/
def tokensOf (cfg : Config) (input : List Nat) : Option (List Token) :=
  (tokenize cfg input).map (·.1)

/-- The error of a terminating run, when one is raised. -/
def errorOf (cfg : Config) (input : List Nat) : Option (Option LexErr) :=
  (tokenize cfg input).map (·.2.2)

/-- consumeEOL fails on anything but a line terminator. -/
theorem consumeEOL_none (input : List Nat) (st : St)
    (h : testO isLineTerminator input[st.index]? = false) :
    consumeEOL input st = none := by
  unfold consumeEOL
  rw [h]
  simp

/-- skipWhiteSpace stops immediately on a character that is neither
whitespace nor a line terminator. -/
theorem skipWhiteSpace_stop (input : List Nat) (st : St)
    (hw : testO isWhiteSpace input[st.index]? = false)
    (ht : testO isLineTerminator input[st.index]? = false) :
    skipWhiteSpace input st = st := by
  rw [skipWhiteSpace]
  split
  · rename_i hlt
    rw [List.getElem?_eq_getElem hlt] at hw
    simp only [testO] at hw
    rw [if_neg (by simp [hw])]
    split
    · rename_i st3 h3
      rw [consumeEOL_none input st ht] at h3
      exact Option.noConfusion h3
    · rfl
  · rfl

/-- lexSkip is the identity when the next character is neither whitespace,
a line terminator, nor a dash. -/
theorem lexSkip_stop (cfg : Config) (input : List Nat) (st : St)
    (hw : testO isWhiteSpace input[st.index]? = false)
    (ht : testO isLineTerminator input[st.index]? = false)
    (hd : input[st.index]? ≠ some 45) :
    lexSkip cfg input st = .ok ([], st) := by
  have hss := skipWhiteSpace_stop input st hw ht
  rw [lexSkip]
  rw [dif_neg]
  · rw [hss]
  · rw [hss]
    intro hc
    exact hd hc.1

unseal skipWhile skipWhiteSpace scanStringLoop longLoop lexSkip mainLoop in
/-- C7: the keyword set resolved at session start is the base Lua keyword
set (do, if, in, or, and, end, for, not, else, then, break, local, until,
while, elseif, repeat, return, function), plus goto exactly when the labels
feature is enabled and contextualGoto is disabled, plus declare exactly
when typeCheck is set, plus const exactly when const_ is set; consequently
the word goto tokenizes to an Identifier under 5.1 and under JIT and to a
Keyword under 5.2 and 5.3. -/
theorem C7_keywords :
    (∀ (f : Features) (w : List Nat),
      isKeyword f w = true ↔
        (w ∈ baseKeywords
          ∨ (w = strCodes "goto" ∧ f.labels = true ∧ f.contextualGoto = false)
          ∨ (w = strCodes "declare" ∧ f.typeCheck = true)
          ∨ (w = strCodes "const" ∧ f.const_ = true)))
    ∧ tokensOf (configOf .v51) (strCodes "goto")
        = some [⟨.identifier, .str (strCodes "goto"), 1, 0, (0, 4), none, none⟩]
    ∧ tokensOf (configOf .jit) (strCodes "goto")
        = some [⟨.identifier, .str (strCodes "goto"), 1, 0, (0, 4), none, none⟩]
    ∧ tokensOf (configOf .v52) (strCodes "goto")
        = some [⟨.keyword, .str (strCodes "goto"), 1, 0, (0, 4), none, none⟩]
    ∧ tokensOf (configOf .v53) (strCodes "goto")
        = some [⟨.keyword, .str (strCodes "goto"), 1, 0, (0, 4), none, none⟩] := by
  refine ⟨?_, by rfl, by rfl, by rfl, by rfl⟩
  intro f w
  simp only [isKeyword, keywordList, decide_eq_true_eq, List.mem_append]
  rcases f with ⟨l, g, _, _, _, _, _, _, c, t⟩
  cases l <;> cases g <;> cases c <;> cases t <;> simp [or_assoc]

/-- A punctuator token of the given text starting at the current state. -/
def punctTok (st : St) (v : List Nat) : Token × St :=
  (⟨.punctuator, .str v, st.line, st.lineStart, (st.index, st.index + v.length), none, none⟩,
   { st with index := st.index + v.length })

/-- The unexpectedSymbol error at the current position. -/
def unexpectedAt (st : St) : LexErr :=
  ⟨.unexpectedSymbol, st.line, st.lineStart, (st.index, st.index + 1), none⟩

/-- C8: multi-character punctuator recognition peeks exactly one code unit
ahead and is feature-gated: a double angle bracket is recognized only under
bitwiseOperators and otherwise the single bracket applies, double slash
only under integerDivision, double colon only under labels; the pairs ==,
=>, >=, <=, ~= are recognized unconditionally; a tilde not followed by an
equals sign is a punctuator only under bitwiseOperators and otherwise
raises unexpectedSymbol, and likewise an ampersand. -/
theorem C8_punctuators (cfg : Config) (input : List Nat) (st : St) :
    (input[st.index]? = some 62 → input[st.index + 1]? = some 62 →
      dispatch cfg input st = .ok (punctTok st
        (if cfg.features.bitwiseOperators then [62, 62] else [62])))
    ∧ (input[st.index]? = some 60 → input[st.index + 1]? = some 60 →
      dispatch cfg input st = .ok (punctTok st
        (if cfg.features.bitwiseOperators then [60, 60] else [60])))
    ∧ (input[st.index]? = some 62 → input[st.index + 1]? = some 61 →
      dispatch cfg input st = .ok (punctTok st [62, 61]))
    ∧ (input[st.index]? = some 60 → input[st.index + 1]? = some 61 →
      dispatch cfg input st = .ok (punctTok st [60, 61]))
    ∧ (input[st.index]? = some 61 → input[st.index + 1]? = some 61 →
      dispatch cfg input st = .ok (punctTok st [61, 61]))
    ∧ (input[st.index]? = some 61 → input[st.index + 1]? = some 62 →
      dispatch cfg input st = .ok (punctTok st [61, 62]))
    ∧ (input[st.index]? = some 126 → input[st.index + 1]? = some 61 →
      dispatch cfg input st = .ok (punctTok st [126, 61]))
    ∧ (input[st.index]? = some 126 → input[st.index + 1]? ≠ some 61 →
      dispatch cfg input st =
        (if cfg.features.bitwiseOperators then .ok (punctTok st [126])
         else .error (unexpectedAt st)))
    ∧ (input[st.index]? = some 58 → input[st.index + 1]? = some 58 →
      dispatch cfg input st = .ok (punctTok st
        (if cfg.features.labels then [58, 58] else [58])))
    ∧ (input[st.index]? = some 47 → input[st.index + 1]? = some 47 →
      dispatch cfg input st = .ok (punctTok st
        (if cfg.features.integerDivision then [47, 47] else [47])))
    ∧ (input[st.index]? = some 38 →
      dispatch cfg input st =
        (if cfg.features.bitwiseOperators then .ok (punctTok st [38])
         else .error (unexpectedAt st))) := by
  refine ⟨?_, ?_, ?_, ?_, ?_, ?_, ?_, ?_, ?_, ?_, ?_⟩ <;> intro h1 <;>
    first
    | (intro h2
       cases hb : cfg.features.bitwiseOperators <;>
       cases hl : cfg.features.labels <;>
       cases hi : cfg.features.integerDivision <;>
       simp [dispatch, h1, h2, hb, hl, hi, testO, isIdentifierStart, isDecDigit,
             scanPunctuator, punctTok, unexpectedAt])
    | (cases hb : cfg.features.bitwiseOperators <;>
       simp [dispatch, h1, hb, testO, isIdentifierStart, isDecDigit,
             scanPunctuator, punctTok, unexpectedAt])

/-- Witness for C8: the gated and ungated outcomes at concrete inputs. -/
theorem C8_punctuators_witness :
    dispatch (configOf .v53) [62, 62] ⟨0, 1, 0⟩ = .ok (punctTok ⟨0, 1, 0⟩ [62, 62])
    ∧ dispatch (configOf .v51) [62, 62] ⟨0, 1, 0⟩ = .ok (punctTok ⟨0, 1, 0⟩ [62])
    ∧ dispatch (configOf .v53) [60, 60] ⟨0, 1, 0⟩ = .ok (punctTok ⟨0, 1, 0⟩ [60, 60])
    ∧ dispatch (configOf .v51) [62, 61] ⟨0, 1, 0⟩ = .ok (punctTok ⟨0, 1, 0⟩ [62, 61])
    ∧ dispatch (configOf .v51) [60, 61] ⟨0, 1, 0⟩ = .ok (punctTok ⟨0, 1, 0⟩ [60, 61])
    ∧ dispatch (configOf .v51) [61, 61] ⟨0, 1, 0⟩ = .ok (punctTok ⟨0, 1, 0⟩ [61, 61])
    ∧ dispatch (configOf .v51) [61, 62] ⟨0, 1, 0⟩ = .ok (punctTok ⟨0, 1, 0⟩ [61, 62])
    ∧ dispatch (configOf .v51) [126, 61] ⟨0, 1, 0⟩ = .ok (punctTok ⟨0, 1, 0⟩ [126, 61])
    ∧ dispatch (configOf .v51) [126, 40] ⟨0, 1, 0⟩ = .error (unexpectedAt ⟨0, 1, 0⟩)
    ∧ dispatch (configOf .v53) [126, 40] ⟨0, 1, 0⟩ = .ok (punctTok ⟨0, 1, 0⟩ [126])
    ∧ dispatch (configOf .v52) [58, 58] ⟨0, 1, 0⟩ = .ok (punctTok ⟨0, 1, 0⟩ [58, 58])
    ∧ dispatch (configOf .v51) [58, 58] ⟨0, 1, 0⟩ = .ok (punctTok ⟨0, 1, 0⟩ [58])
    ∧ dispatch (configOf .v53) [47, 47] ⟨0, 1, 0⟩ = .ok (punctTok ⟨0, 1, 0⟩ [47, 47])
    ∧ dispatch (configOf .v51) [47, 47] ⟨0, 1, 0⟩ = .ok (punctTok ⟨0, 1, 0⟩ [47])
    ∧ dispatch (configOf .v53) [38] ⟨0, 1, 0⟩ = .ok (punctTok ⟨0, 1, 0⟩ [38])
    ∧ dispatch (configOf .v51) [38] ⟨0, 1, 0⟩ = .error (unexpectedAt ⟨0, 1, 0⟩) :=
  ⟨(C8_punctuators _ _ _).1 rfl rfl,
   (C8_punctuators _ _ _).1 rfl rfl,
   (C8_punctuators _ _ _).2.1 rfl rfl,
   (C8_punctuators _ _ _).2.2.1 rfl rfl,
   (C8_punctuators _ _ _).2.2.2.1 rfl rfl,
   (C8_punctuators _ _ _).2.2.2.2.1 rfl rfl,
   (C8_punctuators _ _ _).2.2.2.2.2.1 rfl rfl,
   (C8_punctuators _ _ _).2.2.2.2.2.2.1 rfl rfl,
   (C8_punctuators _ _ _).2.2.2.2.2.2.2.1 rfl (by decide),
   (C8_punctuators _ _ _).2.2.2.2.2.2.2.1 rfl (by decide),
   (C8_punctuators _ _ _).2.2.2.2.2.2.2.2.1 rfl rfl,
   (C8_punctuators _ _ _).2.2.2.2.2.2.2.2.1 rfl rfl,
   (C8_punctuators _ _ _).2.2.2.2.2.2.2.2.2.1 rfl rfl,
   (C8_punctuators _ _ _).2.2.2.2.2.2.2.2.2.1 rfl rfl,
   (C8_punctuators _ _ _).2.2.2.2.2.2.2.2.2.2 rfl,
   (C8_punctuators _ _ _).2.2.2.2.2.2.2.2.2.2 rfl⟩

unseal skipWhile skipWhiteSpace scanStringLoop longLoop lexSkip mainLoop in
/-- C3: the claim requires every input whose final character is an opening
quote to raise unfinishedString; the code instead emits an empty
StringLiteral token there, because the scanning loop checks for the end of
input only after consuming at least one character.  On an input that ends
inside the string body the error is raised as claimed, anchored at the
line and lineStart of the start of the string. -/
theorem C3_unfinished_string :
    tokenize (configOf .v51) [34]
      = some ([⟨.stringLit, .str [], 1, 0, (0, 1), some 1, some 0⟩], [], none)
    ∧ tokenize (configOf .v51) [34, 97, 98]
      = some ([], [], some ⟨.unfinishedString, 1, 0, (0, 2), none⟩)
    ∧ tokenize (configOf .v51) [120, 32, 61, 32, 34]
      = some ([⟨.identifier, .str [120], 1, 0, (0, 1), none, none⟩,
               ⟨.punctuator, .str [61], 1, 0, (2, 3), none, none⟩,
               ⟨.stringLit, .str [], 1, 0, (4, 5), some 1, some 0⟩], [], none) :=
  ⟨rfl, rfl, rfl⟩

/-- C9: the token stream is not always finite.  When ignoreShebang is on
and the input starts with a shebang but contains no line terminator, the
loop while not consumeEOL() index++ never terminates: no fuel bound makes
the modelled loop finish, and tokenize diverges (modelled as none) instead
of producing a finite stream. -/
theorem C9_shebang_divergence :
    (∀ (input : List Nat) (st : St), (∀ c ∈ input, isLineTerminator c = false) →
      ∀ fuel, shebangLoop input st fuel = none)
    ∧ tokenize (configOf .v51) (strCodes "#!") = none
    ∧ tokenize (configOf .v51) (strCodes "#!/bin/lua") = none := by
  refine ⟨?_, rfl, rfl⟩
  intro input st hterm fuel
  induction fuel generalizing st with
  | zero => rfl
  | succ fuel ih =>
    rw [shebangLoop]
    have hc : consumeEOL input st = none := by
      apply consumeEOL_none
      rcases hg : input[st.index]? with _ | c
      · rfl
      · simp only [testO]
        obtain ⟨hlt, heq⟩ := List.getElem?_eq_some.mp hg
        rw [← heq]
        exact hterm _ (List.getElem_mem hlt)
    rw [hc]
    exact ih _

/-- Witness for C9: no amount of fuel lets the shebang loop finish on the
two-character input of a bare shebang. -/
theorem C9_shebang_divergence_witness :
    shebangLoop (strCodes "#!") ⟨0, 1, 0⟩ 100 = none :=
  C9_shebang_divergence.1 (strCodes "#!") ⟨0, 1, 0⟩ (by decide) 100

/-- An empty slice. -/
theorem sliceCodes_eq_nil (input : List Nat) (a b : Nat) (h : b ≤ a) :
    sliceCodes input a b = [] := by
  unfold sliceCodes
  rw [List.drop_eq_nil_iff]
  have := List.length_take b input
  omega

/-- A slice starting past the end of the input. -/
theorem sliceCodes_eq_nil_of_len (input : List Nat) (a b : Nat) (h : input.length ≤ a) :
    sliceCodes input a b = [] := by
  unfold sliceCodes
  rw [List.drop_eq_nil_iff]
  have := List.length_take b input
  omega

/-- Peeling the first character off a slice. -/
theorem sliceCodes_cons (input : List Nat) (a b c : Nat)
    (hc : input[a]? = some c) (hab : a < b) :
    sliceCodes input a b = c :: sliceCodes input (a + 1) b := by
  unfold sliceCodes
  have hlt : a < input.length := lt_of_getElem?_eq_some input a c hc
  have hlt2 : a < (input.take b).length := by
    rw [List.length_take]
    omega
  rw [List.drop_eq_getElem_cons hlt2]
  have h2 : (input.take b)[a]? = some c := by
    rw [List.getElem?_take_of_lt hab]
    exact hc
  rw [List.getElem?_eq_getElem hlt2] at h2
  injection h2 with h3
  rw [h3]

unseal skipWhile skipWhiteSpace scanStringLoop longLoop lexSkip mainLoop in
/-- C2: the escape decoder dispatches on the character after the backslash
with the precedence z, x, u, strict-check, literal: backslash-z consumes
whitespace and emits nothing only under skipWhitespaceEscape; backslash-x
requires exactly two hex digits and emits that byte only under hexEscapes,
raising hexDigitExpected when a digit is missing; backslash-u delegates to
the codepoint escape only under unicodeEscapes; with the later gates also
disabled each falls through, so that an unrecognized escape raises
invalidEscape exactly under strictEscapes and is otherwise emitted
literally, while backslash, double quote and single quote are always
emitted literally; hence the short string backslash-x41 decodes to the
three characters x, 4, 1 under 5.1 and to A under 5.3. -/
theorem C2_escape_dispatch :
    (∀ (f : Features) (input : List Nat) (st : St),
      input[st.index]? = some 122 → f.skipWhitespaceEscape = true →
      readEscapeSequence f input st
        = .ok ([], skipWhiteSpace input { st with index := st.index + 1 }))
    ∧ (∀ (f : Features) (input : List Nat) (st : St) (d1 d2 : Nat),
      input[st.index]? = some 120 → f.hexEscapes = true →
      input[st.index + 1]? = some d1 → input[st.index + 2]? = some d2 →
      isHexDigit d1 = true → isHexDigit d2 = true →
      readEscapeSequence f input st
        = .ok ([parseHexNat [d1, d2]], { st with index := st.index + 3 }))
    ∧ (∀ (f : Features) (input : List Nat) (st : St),
      input[st.index]? = some 120 → f.hexEscapes = true →
      testO isHexDigit input[st.index + 1]? = false →
      readEscapeSequence f input st
        = .error ⟨.hexDigitExpected, st.line, st.lineStart,
            (st.index + 1, st.index + 2), none⟩)
    ∧ (∀ (f : Features) (input : List Nat) (st : St),
      input[st.index]? = some 120 → f.hexEscapes = true →
      testO isHexDigit input[st.index + 1]? = true →
      testO isHexDigit input[st.index + 2]? = false →
      readEscapeSequence f input st
        = .error ⟨.hexDigitExpected, st.line, st.lineStart,
            (st.index + 2, st.index + 3), none⟩)
    ∧ (∀ (f : Features) (input : List Nat) (st : St),
      input[st.index]? = some 117 → f.unicodeEscapes = true →
      readEscapeSequence f input st = readUnicodeEscapeSequence input st)
    ∧ (∀ (f : Features) (input : List Nat) (st : St) (c : Nat),
      input[st.index]? = some c →
      ((c = 122 ∧ f.skipWhitespaceEscape = false ∧ f.hexEscapes = false
          ∧ f.unicodeEscapes = false)
        ∨ (c = 120 ∧ f.hexEscapes = false ∧ f.unicodeEscapes = false)
        ∨ (c = 117 ∧ f.unicodeEscapes = false)) →
      readEscapeSequence f input st
        = (if f.strictEscapes then
            .error ⟨.invalidEscape, st.line, st.lineStart, (st.index, st.index + 1), none⟩
          else .ok ([c], { st with index := st.index + 1 })))
    ∧ (∀ (f : Features) (input : List Nat) (st : St) (c : Nat),
      input[st.index]? = some c →
      c ∉ ([97, 110, 114, 116, 118, 98, 102, 13, 10, 92, 34, 39, 122, 120, 117] : List Nat) →
      isDecDigit c = false →
      readEscapeSequence f input st
        = (if f.strictEscapes then
            .error ⟨.invalidEscape, st.line, st.lineStart, (st.index, st.index + 1), none⟩
          else .ok ([c], { st with index := st.index + 1 })))
    ∧ (∀ (f : Features) (input : List Nat) (st : St) (c : Nat),
      input[st.index]? = some c → (c = 92 ∨ c = 34 ∨ c = 39) →
      readEscapeSequence f input st = .ok ([c], { st with index := st.index + 1 }))
    ∧ tokensOf (configOf .v51) (strCodes "\"\\x41\"")
        = some [⟨.stringLit, .str [120, 52, 49], 1, 0, (0, 6), some 1, some 0⟩]
    ∧ tokensOf (configOf .v53) (strCodes "\"\\x41\"")
        = some [⟨.stringLit, .str [65], 1, 0, (0, 6), some 1, some 0⟩] := by
  refine ⟨?_, ?_, ?_, ?_, ?_, ?_, ?_, ?_, by rfl, by rfl⟩
  · intro f input st h1 h2
    simp [readEscapeSequence, readEscapeFallThrough, h1, h2, testO, isDecDigit]
  · intro f input st d1 d2 h1 h2 hg1 hg2 hh1 hh2
    have e1 : sliceCodes input (st.index + 1) (st.index + 3)
        = d1 :: sliceCodes input (st.index + 2) (st.index + 3) :=
      sliceCodes_cons input _ _ d1 hg1 (by omega)
    have e2 : sliceCodes input (st.index + 2) (st.index + 3)
        = d2 :: sliceCodes input (st.index + 3) (st.index + 3) :=
      sliceCodes_cons input _ _ d2 hg2 (by omega)
    have e3 : sliceCodes input (st.index + 3) (st.index + 3) = [] :=
      sliceCodes_eq_nil input _ _ (Nat.le_refl _)
    simp [readEscapeSequence, readEscapeFallThrough, h1, h2, hg1, hg2, hh1, hh2,
      testO, isDecDigit, e1, e2, e3]
  · intro f input st h1 h2 hg1
    simp only [testO] at hg1
    simp [readEscapeSequence, readEscapeFallThrough, h1, h2, hg1, testO, isDecDigit]
  · intro f input st h1 h2 hg1 hg2
    simp only [testO] at hg1 hg2
    simp [readEscapeSequence, readEscapeFallThrough, h1, h2, hg1, hg2, testO, isDecDigit]
  · intro f input st h1 h2
    simp [readEscapeSequence, readEscapeFallThrough, h1, h2, testO, isDecDigit]
  · intro f input st c h1 h2
    rcases h2 with ⟨hc, ha, hb, hu⟩ | ⟨hc, hb, hu⟩ | ⟨hc, hu⟩
    · subst hc
      cases hs : f.strictEscapes <;>
        simp [readEscapeSequence, readEscapeFallThrough, h1, ha, hb, hu, hs, testO, isDecDigit]
    · subst hc
      cases hs : f.strictEscapes <;>
        simp [readEscapeSequence, readEscapeFallThrough, h1, hb, hu, hs, testO, isDecDigit]
    · subst hc
      cases hs : f.strictEscapes <;>
        simp [readEscapeSequence, readEscapeFallThrough, h1, hu, hs, testO, isDecDigit]
  · intro f input st c h1 hns hd
    simp only [List.mem_cons, List.not_mem_nil, or_false, not_or] at hns
    obtain ⟨e97, e110, e114, e116, e118, e98, e102, e13, e10, e92, e34, e39,
      e122, e120, e117⟩ := hns
    cases hs : f.strictEscapes <;>
      simp [readEscapeSequence, readEscapeFallThrough, h1, testO, hd, hs,
        e97, e110, e114, e116, e118, e98, e102, e13, e10, e92, e34, e39, e122, e120, e117]
  · intro f input st c h1 h2
    rcases h2 with hc | hc | hc <;> subst hc <;>
      simp [readEscapeSequence, readEscapeFallThrough, h1, testO, isDecDigit]

unseal skipWhile skipWhiteSpace in
/-- Witness for C2: each escape-dispatch statement at a concrete input. -/
theorem C2_escape_dispatch_witness :
    readEscapeSequence (resolveFeatures .v52 false false) [122, 32, 97] ⟨0, 1, 0⟩
      = .ok ([], ⟨2, 1, 0⟩)
    ∧ readEscapeSequence (resolveFeatures .v52 false false) [120, 52, 49] ⟨0, 1, 0⟩
      = .ok ([65], ⟨3, 1, 0⟩)
    ∧ readEscapeSequence (resolveFeatures .v52 false false) [120] ⟨0, 1, 0⟩
      = .error ⟨.hexDigitExpected, 1, 0, (1, 2), none⟩
    ∧ readEscapeSequence (resolveFeatures .v52 false false) [120, 52] ⟨0, 1, 0⟩
      = .error ⟨.hexDigitExpected, 1, 0, (2, 3), none⟩
    ∧ readEscapeSequence (resolveFeatures .jit false false) [117, 97] ⟨0, 1, 0⟩
      = .error ⟨.missingInEscape, 1, 0, (1, 2), some 123⟩
    ∧ readEscapeSequence (versionFeatures .v51) [120] ⟨0, 1, 0⟩
      = .ok ([120], ⟨1, 1, 0⟩)
    ∧ readEscapeSequence ⟨false, false, false, false, true, false, false, false, false, false⟩
        [122] ⟨0, 1, 0⟩
      = .error ⟨.invalidEscape, 1, 0, (0, 1), none⟩
    ∧ readEscapeSequence (versionFeatures .v51) [113] ⟨0, 1, 0⟩
      = .ok ([113], ⟨1, 1, 0⟩)
    ∧ readEscapeSequence (resolveFeatures .v52 false false) [113] ⟨0, 1, 0⟩
      = .error ⟨.invalidEscape, 1, 0, (0, 1), none⟩
    ∧ readEscapeSequence (resolveFeatures .v52 false false) [34] ⟨0, 1, 0⟩
      = .ok ([34], ⟨1, 1, 0⟩) :=
  ⟨C2_escape_dispatch.1 _ _ _ rfl rfl,
   C2_escape_dispatch.2.1 _ _ _ 52 49 rfl rfl rfl rfl rfl rfl,
   C2_escape_dispatch.2.2.1 _ _ _ rfl rfl rfl,
   C2_escape_dispatch.2.2.2.1 _ _ _ rfl rfl rfl rfl,
   (C2_escape_dispatch.2.2.2.2.1 _ _ _ rfl rfl).trans (by rfl),
   C2_escape_dispatch.2.2.2.2.2.1 _ _ _ 120 rfl
     (Or.inr (Or.inl ⟨rfl, rfl, rfl⟩)),
   C2_escape_dispatch.2.2.2.2.2.1 _ _ _ 122 rfl
     (Or.inl ⟨rfl, rfl, rfl, rfl⟩),
   C2_escape_dispatch.2.2.2.2.2.2.1 _ _ _ 113 rfl (by decide) rfl,
   C2_escape_dispatch.2.2.2.2.2.2.1 _ _ _ 113 rfl (by decide) rfl,
   C2_escape_dispatch.2.2.2.2.2.2.2.1 _ _ _ 34 rfl (Or.inr (Or.inl rfl))⟩

unseal skipWhile skipWhiteSpace scanStringLoop longLoop lexSkip mainLoop in
/-- C5: the codepoint escape requires an opening brace (else
missingInEscape) and at least one hex digit (else hexDigitExpected); it
skips leading zero digits, raises tooLargeCodepoint past six significant
digits, raises missingInEscape when a quote stands in place of the closing
brace and hexDigitExpected otherwise, emits the UTF-8 encoding of the
digit value, and raises tooLargeCodepoint above the codepoint limit; the
two quoted codepoint escapes for H and I decode to HI and the escape for
codepoint 0x110000 raises tooLargeCodepoint.  The claim however also
covers an all-zero digit run, where the code raises tooLargeCodepoint for
the codepoint zero: the significant-digit run is empty, parseInt of the
empty string is NaN, and encodeUTF8 rejects NaN, although the claim
requires the NUL byte to be emitted. -/
theorem C5_unicode_escape :
    (∀ (input : List Nat) (st : St),
      input[st.index + 1]? ≠ some 123 →
      readUnicodeEscapeSequence input st
        = .error ⟨.missingInEscape, st.line, st.lineStart,
            (st.index + 1, st.index + 2), some 123⟩)
    ∧ (∀ (input : List Nat) (st : St),
      input[st.index + 1]? = some 123 →
      testO isHexDigit input[st.index + 2]? = false →
      readUnicodeEscapeSequence input st
        = .error ⟨.hexDigitExpected, st.line, st.lineStart,
            (st.index + 2, st.index + 3), none⟩)
    ∧ (∀ (input : List Nat) (st : St) (escStart iEnd : Nat),
      input[st.index + 1]? = some 123 →
      testO isHexDigit input[st.index + 2]? = true →
      escStart = skipWhile (fun c => c = 48) input (st.index + 2) →
      iEnd = skipWhile isHexDigit input escStart →
      6 < iEnd - escStart →
      readUnicodeEscapeSequence input st
        = .error ⟨.tooLargeCodepoint, st.line, st.lineStart,
            (escStart, escStart + 7), none⟩)
    ∧ (∀ (input : List Nat) (st : St) (escStart iEnd : Nat),
      input[st.index + 1]? = some 123 →
      testO isHexDigit input[st.index + 2]? = true →
      escStart = skipWhile (fun c => c = 48) input (st.index + 2) →
      iEnd = skipWhile isHexDigit input escStart →
      iEnd - escStart ≤ 6 →
      (input[iEnd]? = some 34 ∨ input[iEnd]? = some 39) →
      readUnicodeEscapeSequence input st
        = .error ⟨.missingInEscape, st.line, st.lineStart,
            (st.index, iEnd), some 125⟩)
    ∧ (∀ (input : List Nat) (st : St) (escStart iEnd : Nat),
      input[st.index + 1]? = some 123 →
      testO isHexDigit input[st.index + 2]? = true →
      escStart = skipWhile (fun c => c = 48) input (st.index + 2) →
      iEnd = skipWhile isHexDigit input escStart →
      iEnd - escStart ≤ 6 →
      input[iEnd]? ≠ some 125 → input[iEnd]? ≠ some 34 → input[iEnd]? ≠ some 39 →
      readUnicodeEscapeSequence input st
        = .error ⟨.hexDigitExpected, st.line, st.lineStart, (iEnd, iEnd + 1), none⟩)
    ∧ (∀ (input : List Nat) (st : St) (escStart iEnd : Nat) (bytes : List Nat),
      input[st.index + 1]? = some 123 →
      testO isHexDigit input[st.index + 2]? = true →
      escStart = skipWhile (fun c => c = 48) input (st.index + 2) →
      iEnd = skipWhile isHexDigit input escStart →
      iEnd - escStart ≤ 6 →
      input[iEnd]? = some 125 →
      escStart < iEnd →
      encodeUTF8 (parseHexNat (sliceCodes input escStart iEnd)) = some bytes →
      readUnicodeEscapeSequence input st = .ok (bytes, { st with index := iEnd + 1 }))
    ∧ (∀ (input : List Nat) (st : St) (escStart iEnd : Nat),
      input[st.index + 1]? = some 123 →
      testO isHexDigit input[st.index + 2]? = true →
      escStart = skipWhile (fun c => c = 48) input (st.index + 2) →
      iEnd = skipWhile isHexDigit input escStart →
      iEnd - escStart ≤ 6 →
      input[iEnd]? = some 125 →
      escStart < iEnd →
      encodeUTF8 (parseHexNat (sliceCodes input escStart iEnd)) = none →
      readUnicodeEscapeSequence input st
        = .error ⟨.tooLargeCodepoint, st.line, st.lineStart, (st.index + 2, iEnd), none⟩)
    ∧ tokensOf (configOf .v53) (strCodes "\"\\u{48}\\u{49}\"")
        = some [⟨.stringLit, .str [72, 73], 1, 0, (0, 14), some 1, some 0⟩]
    ∧ errorOf (configOf .v53) (strCodes "\"\\u{110000}\"")
        = some (some ⟨.tooLargeCodepoint, 1, 0, (4, 10), none⟩)
    ∧ tokenize (configOf .v53) (strCodes "\"\\u{0}\"")
        = some ([], [], some ⟨.tooLargeCodepoint, 1, 0, (4, 5), none⟩) := by
  refine ⟨?_, ?_, ?_, ?_, ?_, ?_, ?_, by rfl, by rfl, by rfl⟩
  · intro input st h1
    simp only [readUnicodeEscapeSequence]
    rw [if_pos h1]
  · intro input st h1 h2
    simp only [readUnicodeEscapeSequence]
    rw [if_neg (by simp [h1]), if_pos (by simp [h2])]
  · intro input st escStart iEnd h1 h2 he hi h5
    subst he; subst hi
    simp only [readUnicodeEscapeSequence]
    rw [if_neg (by simp [h1]), if_neg (by simp [h2]), if_pos h5]
  · intro input st escStart iEnd h1 h2 he hi h5 h6
    subst he; subst hi
    simp only [readUnicodeEscapeSequence]
    rw [if_neg (by simp [h1]), if_neg (by simp [h2]), if_neg (by omega),
        if_pos (by rcases h6 with h | h <;> simp [h]), if_pos h6]
  · intro input st escStart iEnd h1 h2 he hi h5 h6 h7 h8
    subst he; subst hi
    simp only [readUnicodeEscapeSequence]
    rw [if_neg (by simp [h1]), if_neg (by simp [h2]), if_neg (by omega),
        if_pos h6, if_neg (by simp [h7, h8])]
  · intro input st escStart iEnd bytes h1 h2 he hi h5 h6 h7 h8
    subst he; subst hi
    simp only [readUnicodeEscapeSequence]
    rw [if_neg (by simp [h1]), if_neg (by simp [h2]), if_neg (by omega),
        if_neg (by simp [h6])]
    rw [if_neg (by omega)]
    simp [h8]
  · intro input st escStart iEnd h1 h2 he hi h5 h6 h7 h8
    subst he; subst hi
    simp only [readUnicodeEscapeSequence]
    rw [if_neg (by simp [h1]), if_neg (by simp [h2]), if_neg (by omega),
        if_neg (by simp [h6])]
    rw [if_neg (by omega)]
    simp [h8]

unseal skipWhile in
/-- Witness for C5: each codepoint-escape statement at a concrete input. -/
theorem C5_unicode_escape_witness :
    readUnicodeEscapeSequence [117, 97] ⟨0, 1, 0⟩
      = .error ⟨.missingInEscape, 1, 0, (1, 2), some 123⟩
    ∧ readUnicodeEscapeSequence [117, 123, 125] ⟨0, 1, 0⟩
      = .error ⟨.hexDigitExpected, 1, 0, (2, 3), none⟩
    ∧ readUnicodeEscapeSequence [117, 123, 49, 50, 51, 52, 53, 54, 55, 125] ⟨0, 1, 0⟩
      = .error ⟨.tooLargeCodepoint, 1, 0, (2, 9), none⟩
    ∧ readUnicodeEscapeSequence [117, 123, 52, 56, 34] ⟨0, 1, 0⟩
      = .error ⟨.missingInEscape, 1, 0, (0, 4), some 125⟩
    ∧ readUnicodeEscapeSequence [117, 123, 52, 56, 32] ⟨0, 1, 0⟩
      = .error ⟨.hexDigitExpected, 1, 0, (4, 5), none⟩
    ∧ readUnicodeEscapeSequence [117, 123, 52, 56, 125] ⟨0, 1, 0⟩ = .ok ([72], ⟨5, 1, 0⟩)
    ∧ readUnicodeEscapeSequence [117, 123, 49, 49, 48, 48, 48, 48, 125] ⟨0, 1, 0⟩
      = .error ⟨.tooLargeCodepoint, 1, 0, (2, 8), none⟩ :=
  ⟨C5_unicode_escape.1 _ _ (by decide),
   C5_unicode_escape.2.1 _ _ rfl (by decide),
   C5_unicode_escape.2.2.1 _ _ 2 9 rfl (by decide) (by rfl) (by rfl) (by decide),
   C5_unicode_escape.2.2.2.1 _ _ 2 4 rfl (by decide) (by rfl) (by rfl) (by decide)
     (Or.inl rfl),
   C5_unicode_escape.2.2.2.2.1 _ _ 2 4 rfl (by decide) (by rfl) (by rfl) (by decide)
     (by decide) (by decide) (by decide),
   C5_unicode_escape.2.2.2.2.2.1 _ _ 2 4 [72] rfl (by decide) (by rfl) (by rfl)
     (by decide) rfl (by decide) (by rfl),
   C5_unicode_escape.2.2.2.2.2.2.1 _ _ 2 8 rfl (by decide) (by rfl) (by rfl)
     (by decide) rfl (by decide) (by rfl)⟩

/-- Indexing past a known prefix. -/
theorem getElem?_run (pre rest : List Nat) (k : Nat) :
    (pre ++ rest)[pre.length + k]? = rest[k]? := by
  rw [List.getElem?_append_right (by omega)]
  congr 1
  omega

/-- Indexing at the start of the suffix. -/
theorem getElem?_run0 (pre rest : List Nat) : (pre ++ rest)[pre.length]? = rest[0]? := by
  rw [List.getElem?_append_right (Nat.le_refl _)]
  congr 1
  omega

/-- A while loop started at a run of satisfying characters stops right
after the run. -/
theorem skipWhile_run (p : Nat → Bool) (pre ds rest : List Nat)
    (hds : ∀ c ∈ ds, p c = true) (hrest : testO p rest[0]? = false) :
    skipWhile p (pre ++ ds ++ rest) pre.length = pre.length + ds.length := by
  induction ds generalizing pre with
  | nil =>
    rw [skipWhile_stop]
    · simp
    · have h0 : (pre ++ [] ++ rest)[pre.length]? = rest[0]? := by
        rw [show pre ++ [] ++ rest = pre ++ rest from by simp, getElem?_run0]
      rw [h0]
      exact hrest
  | cons d ds' ih =>
    have hd : (pre ++ (d :: ds') ++ rest)[pre.length]? = some d := by
      rw [List.append_assoc, getElem?_run0]
      simp
    rw [skipWhile_succ p _ _ (by rw [hd]; simp only [testO]; exact hds d (by simp))]
    have hre : pre ++ (d :: ds') ++ rest = (pre ++ [d]) ++ ds' ++ rest := by simp
    rw [hre, show pre.length + 1 = (pre ++ [d]).length from by simp]
    rw [ih (pre ++ [d]) (fun c hc => hds c (by simp [hc]))]
    simp
    omega

/-- The slice of a run between a known prefix and suffix. -/
theorem sliceCodes_run (pre mid rest : List Nat) :
    sliceCodes (pre ++ mid ++ rest) pre.length (pre.length + mid.length) = mid := by
  unfold sliceCodes
  rw [show pre ++ mid ++ rest = (pre ++ mid) ++ rest from by simp]
  rw [List.take_left' (by simp)]
  exact List.drop_left pre mid

/-- Position form of getElem?_run0, applicable under any bracketing. -/
theorem getElem?_at (input pre rest : List Nat) (k : Nat)
    (hin : input = pre ++ rest) (hk : k = pre.length) :
    input[k]? = rest[0]? := by
  subst hin; subst hk
  exact getElem?_run0 pre rest

/-- Position form of skipWhile_run, applicable under any bracketing. -/
theorem skipWhile_at (p : Nat → Bool) (input pre ds rest : List Nat) (k : Nat)
    (hin : input = pre ++ (ds ++ rest)) (hk : k = pre.length)
    (hds : ∀ c ∈ ds, p c = true) (hrest : testO p rest[0]? = false) :
    skipWhile p input k = k + ds.length := by
  subst hin; subst hk
  rw [← List.append_assoc]
  exact skipWhile_run p pre ds rest hds hrest

/-- Position form of sliceCodes_run, applicable under any bracketing. -/
theorem sliceCodes_at (input pre mid rest : List Nat) (a b : Nat)
    (hin : input = pre ++ (mid ++ rest)) (ha : a = pre.length)
    (hb : b = pre.length + mid.length) :
    sliceCodes input a b = mid := by
  subst hin; subst ha; subst hb
  rw [← List.append_assoc]
  exact sliceCodes_run pre mid rest


theorem readHexLiteral_plain (input pre ds rest : List Nat) (x : Nat) (st : St)
    (hidx : st.index = pre.length)
    (hin : input = pre ++ [48, x] ++ ds ++ rest)
    (hne : ds ≠ []) (hds : ∀ c ∈ ds, isHexDigit c = true)
    (hr1 : testO isHexDigit rest[0]? = false)
    (hr2 : rest[0]? ≠ some 46) (hr3 : rest[0]? ≠ some 112) (hr4 : rest[0]? ≠ some 80) :
    readHexLiteral input st
      = .ok ((parseHexNat ds : ℚ), { st with index := pre.length + 2 + ds.length }) := by
  obtain ⟨d, ds', rfl⟩ := List.exists_cons_of_ne_nil hne
  have F0 : input[st.index + 2]? = some d := by
    rw [getElem?_at input (pre ++ [48, x]) ((d :: ds') ++ rest) _ (by rw [hin] <;> simp)
      (by simp [hidx] <;> omega)]
    simp
  have F1 : skipWhile isHexDigit input (st.index + 2) = st.index + 2 + (d :: ds').length :=
    skipWhile_at _ input (pre ++ [48, x]) (d :: ds') rest _ (by rw [hin] <;> simp)
      (by simp [hidx] <;> omega)
      hds hr1
  have F2 : sliceCodes input (st.index + 2) (st.index + 2 + (d :: ds').length) = d :: ds' :=
    sliceCodes_at input (pre ++ [48, x]) (d :: ds') rest _ _ (by rw [hin] <;> simp)
      (by simp [hidx] <;> omega)
      (by simp [hidx] <;> omega)
  have F3 : input[st.index + 2 + (d :: ds').length]? = rest[0]? :=
    getElem?_at input (pre ++ [48, x] ++ (d :: ds')) rest _ (by rw [hin] <;> simp)
      (by simp [hidx] <;> omega)
  have F4 : hexFraction input (st.index + 2 + (d :: ds').length)
      = (0, st.index + 2 + (d :: ds').length) := by
    rw [hexFraction, if_neg (by rw [F3]; exact hr2)]
  simp only [readHexLiteral]
  rw [if_neg (by rw [F0]; simp [testO, hds d (by simp)])]
  rw [F1, F2, F4]
  rw [if_neg (by simp only; rw [F3]; rintro (h | h); exact hr3 h; exact hr4 h)]
  rw [hidx]
  norm_num

theorem readHexLiteral_frac (input pre ds fs rest : List Nat) (x : Nat) (st : St)
    (hidx : st.index = pre.length)
    (hin : input = pre ++ [48, x] ++ ds ++ (46 :: fs) ++ rest)
    (hne : ds ≠ []) (hds : ∀ c ∈ ds, isHexDigit c = true)
    (hfs : ∀ c ∈ fs, isHexDigit c = true)
    (hr1 : testO isHexDigit rest[0]? = false)
    (hr3 : rest[0]? ≠ some 112) (hr4 : rest[0]? ≠ some 80) :
    readHexLiteral input st
      = .ok ((parseHexNat ds : ℚ) + hexFracVal fs,
             { st with index := pre.length + 2 + ds.length + 1 + fs.length }) := by
  obtain ⟨d, ds', rfl⟩ := List.exists_cons_of_ne_nil hne
  have F0 : input[st.index + 2]? = some d := by
    rw [getElem?_at input (pre ++ [48, x]) ((d :: ds') ++ ((46 :: fs) ++ rest)) _
      (by rw [hin] <;> simp) (by simp [hidx] <;> omega)]
    simp
  have F1 : skipWhile isHexDigit input (st.index + 2) = st.index + 2 + (d :: ds').length :=
    skipWhile_at _ input (pre ++ [48, x]) (d :: ds') ((46 :: fs) ++ rest) _
      (by rw [hin] <;> simp) (by simp [hidx] <;> omega) hds (by simp [testO, isHexDigit])
  have F2 : sliceCodes input (st.index + 2) (st.index + 2 + (d :: ds').length) = d :: ds' :=
    sliceCodes_at input (pre ++ [48, x]) (d :: ds') ((46 :: fs) ++ rest) _ _
      (by rw [hin] <;> simp) (by simp [hidx] <;> omega) (by simp [hidx] <;> omega)
  have F3 : input[st.index + 2 + (d :: ds').length]? = some 46 := by
    rw [getElem?_at input (pre ++ [48, x] ++ (d :: ds')) ((46 :: fs) ++ rest) _
      (by rw [hin] <;> simp) (by simp [hidx] <;> omega)]
    simp
  have F5 : skipWhile isHexDigit input (st.index + 2 + (d :: ds').length + 1)
      = st.index + 2 + (d :: ds').length + 1 + fs.length :=
    skipWhile_at _ input (pre ++ [48, x] ++ (d :: ds') ++ [46]) fs rest _
      (by rw [hin] <;> simp) (by simp [hidx] <;> omega) hfs hr1
  have F6 : sliceCodes input (st.index + 2 + (d :: ds').length + 1)
      (st.index + 2 + (d :: ds').length + 1 + fs.length) = fs :=
    sliceCodes_at input (pre ++ [48, x] ++ (d :: ds') ++ [46]) fs rest _ _
      (by rw [hin] <;> simp) (by simp [hidx] <;> omega) (by simp [hidx] <;> omega)
  have F4 : hexFraction input (st.index + 2 + (d :: ds').length)
      = (hexFracVal fs, st.index + 2 + (d :: ds').length + 1 + fs.length) := by
    rw [hexFraction, if_pos F3]
    simp only [F5, F6]
    rcases eq_or_ne fs [] with hfse | hfse
    · subst hfse
      simp [hexFracVal]
    · have hlen : fs.length ≠ 0 := fun h => hfse (List.length_eq_zero.mp h)
      rw [if_neg (by omega), hexFracVal, if_neg hfse, Nat.add_sub_cancel_left]
  have F7 : input[st.index + 2 + (d :: ds').length + 1 + fs.length]? = rest[0]? :=
    getElem?_at input (pre ++ [48, x] ++ (d :: ds') ++ (46 :: fs)) rest _
      (by rw [hin] <;> simp) (by simp [hidx] <;> omega)
  simp only [readHexLiteral]
  rw [if_neg (by rw [F0]; simp [testO, hds d (by simp)])]
  rw [F1, F2, F4]
  rw [if_neg (by simp only; rw [F7]; rintro (h | h); exact hr3 h; exact hr4 h)]
  rw [hidx]
  norm_num

theorem readHexLiteral_fracExp (input pre ds fs sgnList es rest : List Nat) (x p : Nat) (st : St)
    (hidx : st.index = pre.length)
    (hin : input = pre ++ [48, x] ++ ds ++ (46 :: fs) ++ (p :: sgnList) ++ es ++ rest)
    (hne : ds ≠ []) (hds : ∀ c ∈ ds, isHexDigit c = true)
    (hfs : ∀ c ∈ fs, isHexDigit c = true)
    (hp : p = 112 ∨ p = 80)
    (hsgn : sgnList = [] ∨ sgnList = [43] ∨ sgnList = [45])
    (hese : es ≠ []) (hes : ∀ c ∈ es, isDecDigit c = true)
    (hr : testO isDecDigit rest[0]? = false) :
    readHexLiteral input st
      = .ok (((parseHexNat ds : ℚ) + hexFracVal fs)
               * (2 : ℚ) ^ (expSgnVal sgnList * (parseDecNat es : ℤ)),
             { st with index :=
                pre.length + 2 + ds.length + 1 + fs.length + 1 + sgnList.length + es.length }) := by
  obtain ⟨d, ds', rfl⟩ := List.exists_cons_of_ne_nil hne
  have hpnh : testO isHexDigit (some p) = false := by
    rcases hp with rfl | rfl <;> decide
  have F0 : input[st.index + 2]? = some d := by
    rw [getElem?_at input (pre ++ [48, x])
      ((d :: ds') ++ ((46 :: fs) ++ ((p :: sgnList) ++ (es ++ rest)))) _
      (by rw [hin] <;> simp) (by simp [hidx] <;> omega)]
    simp
  have F1 : skipWhile isHexDigit input (st.index + 2) = st.index + 2 + (d :: ds').length :=
    skipWhile_at _ input (pre ++ [48, x]) (d :: ds')
      ((46 :: fs) ++ ((p :: sgnList) ++ (es ++ rest))) _
      (by rw [hin] <;> simp) (by simp [hidx] <;> omega) hds (by simp [testO, isHexDigit])
  have F2 : sliceCodes input (st.index + 2) (st.index + 2 + (d :: ds').length) = d :: ds' :=
    sliceCodes_at input (pre ++ [48, x]) (d :: ds')
      ((46 :: fs) ++ ((p :: sgnList) ++ (es ++ rest))) _ _
      (by rw [hin] <;> simp) (by simp [hidx] <;> omega) (by simp [hidx] <;> omega)
  have F3 : input[st.index + 2 + (d :: ds').length]? = some 46 := by
    rw [getElem?_at input (pre ++ [48, x] ++ (d :: ds'))
      ((46 :: fs) ++ ((p :: sgnList) ++ (es ++ rest))) _
      (by rw [hin] <;> simp) (by simp [hidx] <;> omega)]
    simp
  have F5 : skipWhile isHexDigit input (st.index + 2 + (d :: ds').length + 1)
      = st.index + 2 + (d :: ds').length + 1 + fs.length :=
    skipWhile_at _ input (pre ++ [48, x] ++ (d :: ds') ++ [46]) fs
      ((p :: sgnList) ++ (es ++ rest)) _
      (by rw [hin] <;> simp) (by simp [hidx] <;> omega) hfs (by simp [testO]; rcases hp with rfl | rfl <;> decide)
  have F6 : sliceCodes input (st.index + 2 + (d :: ds').length + 1)
      (st.index + 2 + (d :: ds').length + 1 + fs.length) = fs :=
    sliceCodes_at input (pre ++ [48, x] ++ (d :: ds') ++ [46]) fs
      ((p :: sgnList) ++ (es ++ rest)) _ _
      (by rw [hin] <;> simp) (by simp [hidx] <;> omega) (by simp [hidx] <;> omega)
  have F4 : hexFraction input (st.index + 2 + (d :: ds').length)
      = (hexFracVal fs, st.index + 2 + (d :: ds').length + 1 + fs.length) := by
    rw [hexFraction, if_pos F3]
    simp only [F5, F6]
    rcases eq_or_ne fs [] with hfse | hfse
    · subst hfse
      simp [hexFracVal]
    · have hlen : fs.length ≠ 0 := fun h => hfse (List.length_eq_zero.mp h)
      rw [if_neg (by omega), hexFracVal, if_neg hfse, Nat.add_sub_cancel_left]
  have F7 : input[st.index + 2 + (d :: ds').length + 1 + fs.length]? = some p := by
    rw [getElem?_at input (pre ++ [48, x] ++ (d :: ds') ++ (46 :: fs))
      ((p :: sgnList) ++ (es ++ rest)) _
      (by rw [hin] <;> simp) (by simp [hidx] <;> omega)]
    simp
  obtain ⟨e, es', rfl⟩ := List.exists_cons_of_ne_nil hese
  have hed : isDecDigit e = true := hes e (by simp)
  have hedb : 48 ≤ e ∧ e ≤ 57 := by simpa [isDecDigit] using hed
  simp only [readHexLiteral]
  rw [if_neg (by rw [F0]; simp [testO, hds d (by simp)])]
  rw [F1, F2, F4]
  rw [if_pos (by simp only; rw [F7]; rcases hp with rfl | rfl; exact Or.inl rfl; exact Or.inr rfl)]
  rcases hsgn with hs | hs | hs <;> subst hs
  · -- no explicit sign
    have FE : input[st.index + 2 + (d :: ds').length + 1 + fs.length + 1]? = some e := by
      rw [getElem?_at input (pre ++ [48, x] ++ (d :: ds') ++ (46 :: fs) ++ [p])
        ((e :: es') ++ rest) _ (by rw [hin] <;> simp) (by simp [hidx] <;> omega)]
      simp
    have F8 : expDigitStart input (st.index + 2 + (d :: ds').length + 1 + fs.length)
        = st.index + 2 + (d :: ds').length + 1 + fs.length + 1 := by
      rw [expDigitStart, if_neg (by
        rw [FE]
        rintro (h | h) <;> (injection h with h; omega))]
    have F11 : skipWhile isDecDigit input (st.index + 2 + (d :: ds').length + 1 + fs.length + 1)
        = st.index + 2 + (d :: ds').length + 1 + fs.length + 1 + (e :: es').length :=
      skipWhile_at _ input (pre ++ [48, x] ++ (d :: ds') ++ (46 :: fs) ++ [p]) (e :: es') rest _
        (by rw [hin] <;> simp) (by simp [hidx] <;> omega) hes hr
    have F12 : sliceCodes input (st.index + 2 + (d :: ds').length + 1 + fs.length + 1)
        (st.index + 2 + (d :: ds').length + 1 + fs.length + 1 + (e :: es').length) = e :: es' :=
      sliceCodes_at input (pre ++ [48, x] ++ (d :: ds') ++ (46 :: fs) ++ [p]) (e :: es') rest _ _
        (by rw [hin] <;> simp) (by simp [hidx] <;> omega) (by simp [hidx] <;> omega)
    have F9 : expSign input (st.index + 2 + (d :: ds').length + 1 + fs.length) = 1 := by
      rw [expSign, if_neg (by
        rw [FE]
        rintro (h | h) <;> (injection h with h; omega))]
    rw [F8]
    rw [if_neg (by rw [FE]; simp [testO, hed])]
    rw [F11, F12, F9, hidx]
    simp only [expSgnVal]
    norm_num
  · -- plus sign
    have FE : input[st.index + 2 + (d :: ds').length + 1 + fs.length + 1]? = some 43 := by
      rw [getElem?_at input (pre ++ [48, x] ++ (d :: ds') ++ (46 :: fs) ++ [p])
        ([43] ++ ((e :: es') ++ rest)) _ (by rw [hin] <;> simp) (by simp [hidx] <;> omega)]
      simp
    have FE2 : input[st.index + 2 + (d :: ds').length + 1 + fs.length + 2]? = some e := by
      rw [getElem?_at input (pre ++ [48, x] ++ (d :: ds') ++ (46 :: fs) ++ [p, 43])
        ((e :: es') ++ rest) _ (by rw [hin] <;> simp) (by simp [hidx] <;> omega)]
      simp
    have F8 : expDigitStart input (st.index + 2 + (d :: ds').length + 1 + fs.length)
        = st.index + 2 + (d :: ds').length + 1 + fs.length + 2 := by
      rw [expDigitStart, if_pos (by rw [FE]; exact Or.inl rfl)]
    have F11 : skipWhile isDecDigit input (st.index + 2 + (d :: ds').length + 1 + fs.length + 2)
        = st.index + 2 + (d :: ds').length + 1 + fs.length + 2 + (e :: es').length :=
      skipWhile_at _ input (pre ++ [48, x] ++ (d :: ds') ++ (46 :: fs) ++ [p, 43]) (e :: es') rest _
        (by rw [hin] <;> simp) (by simp [hidx] <;> omega) hes hr
    have F12 : sliceCodes input (st.index + 2 + (d :: ds').length + 1 + fs.length + 2)
        (st.index + 2 + (d :: ds').length + 1 + fs.length + 2 + (e :: es').length) = e :: es' :=
      sliceCodes_at input (pre ++ [48, x] ++ (d :: ds') ++ (46 :: fs) ++ [p, 43]) (e :: es') rest _ _
        (by rw [hin] <;> simp) (by simp [hidx] <;> omega) (by simp [hidx] <;> omega)
    have F9 : expSign input (st.index + 2 + (d :: ds').length + 1 + fs.length) = 1 := by
      rw [expSign, if_pos (by rw [FE]; exact Or.inl rfl), if_pos (by rw [FE])]
    rw [F8]
    rw [if_neg (by rw [FE2]; simp [testO, hed])]
    rw [F11, F12, F9, hidx]
    simp only [expSgnVal]
    norm_num
  · -- minus sign
    have FE : input[st.index + 2 + (d :: ds').length + 1 + fs.length + 1]? = some 45 := by
      rw [getElem?_at input (pre ++ [48, x] ++ (d :: ds') ++ (46 :: fs) ++ [p])
        ([45] ++ ((e :: es') ++ rest)) _ (by rw [hin] <;> simp) (by simp [hidx] <;> omega)]
      simp
    have FE2 : input[st.index + 2 + (d :: ds').length + 1 + fs.length + 2]? = some e := by
      rw [getElem?_at input (pre ++ [48, x] ++ (d :: ds') ++ (46 :: fs) ++ [p, 45])
        ((e :: es') ++ rest) _ (by rw [hin] <;> simp) (by simp [hidx] <;> omega)]
      simp
    have F8 : expDigitStart input (st.index + 2 + (d :: ds').length + 1 + fs.length)
        = st.index + 2 + (d :: ds').length + 1 + fs.length + 2 := by
      rw [expDigitStart, if_pos (by rw [FE]; exact Or.inr rfl)]
    have F11 : skipWhile isDecDigit input (st.index + 2 + (d :: ds').length + 1 + fs.length + 2)
        = st.index + 2 + (d :: ds').length + 1 + fs.length + 2 + (e :: es').length :=
      skipWhile_at _ input (pre ++ [48, x] ++ (d :: ds') ++ (46 :: fs) ++ [p, 45]) (e :: es') rest _
        (by rw [hin] <;> simp) (by simp [hidx] <;> omega) hes hr
    have F12 : sliceCodes input (st.index + 2 + (d :: ds').length + 1 + fs.length + 2)
        (st.index + 2 + (d :: ds').length + 1 + fs.length + 2 + (e :: es').length) = e :: es' :=
      sliceCodes_at input (pre ++ [48, x] ++ (d :: ds') ++ (46 :: fs) ++ [p, 45]) (e :: es') rest _ _
        (by rw [hin] <;> simp) (by simp [hidx] <;> omega) (by simp [hidx] <;> omega)
    have F9 : expSign input (st.index + 2 + (d :: ds').length + 1 + fs.length) = -1 := by
      rw [expSign, if_pos (by rw [FE]; exact Or.inr rfl), if_neg (by rw [FE]; intro h; injection h with h; omega)]
    rw [F8]
    rw [if_neg (by rw [FE2]; simp [testO, hed])]
    rw [F11, F12, F9, hidx]
    simp only [expSgnVal]
    norm_num

theorem readHexLiteral_exp (input pre ds sgnList es rest : List Nat) (x p : Nat) (st : St)
    (hidx : st.index = pre.length)
    (hin : input = pre ++ [48, x] ++ ds ++ (p :: sgnList) ++ es ++ rest)
    (hne : ds ≠ []) (hds : ∀ c ∈ ds, isHexDigit c = true)
    (hp : p = 112 ∨ p = 80)
    (hsgn : sgnList = [] ∨ sgnList = [43] ∨ sgnList = [45])
    (hese : es ≠ []) (hes : ∀ c ∈ es, isDecDigit c = true)
    (hr : testO isDecDigit rest[0]? = false) :
    readHexLiteral input st
      = .ok ((parseHexNat ds : ℚ)
               * (2 : ℚ) ^ (expSgnVal sgnList * (parseDecNat es : ℤ)),
             { st with index :=
                pre.length + 2 + ds.length + 1 + sgnList.length + es.length }) := by
  obtain ⟨d, ds', rfl⟩ := List.exists_cons_of_ne_nil hne
  have F0 : input[st.index + 2]? = some d := by
    rw [getElem?_at input (pre ++ [48, x])
      ((d :: ds') ++ ((p :: sgnList) ++ (es ++ rest))) _
      (by rw [hin] <;> simp) (by simp [hidx] <;> omega)]
    simp
  have F1 : skipWhile isHexDigit input (st.index + 2) = st.index + 2 + (d :: ds').length :=
    skipWhile_at _ input (pre ++ [48, x]) (d :: ds')
      ((p :: sgnList) ++ (es ++ rest)) _
      (by rw [hin] <;> simp) (by simp [hidx] <;> omega) hds
      (by simp [testO]; rcases hp with rfl | rfl <;> decide)
  have F2 : sliceCodes input (st.index + 2) (st.index + 2 + (d :: ds').length) = d :: ds' :=
    sliceCodes_at input (pre ++ [48, x]) (d :: ds')
      ((p :: sgnList) ++ (es ++ rest)) _ _
      (by rw [hin] <;> simp) (by simp [hidx] <;> omega) (by simp [hidx] <;> omega)
  have F3 : input[st.index + 2 + (d :: ds').length]? = some p := by
    rw [getElem?_at input (pre ++ [48, x] ++ (d :: ds'))
      ((p :: sgnList) ++ (es ++ rest)) _
      (by rw [hin] <;> simp) (by simp [hidx] <;> omega)]
    simp
  have F4 : hexFraction input (st.index + 2 + (d :: ds').length)
      = (0, st.index + 2 + (d :: ds').length) := by
    rw [hexFraction, if_neg (by rw [F3]; rcases hp with rfl | rfl <;> (intro h; injection h with h; omega))]
  obtain ⟨e, es', rfl⟩ := List.exists_cons_of_ne_nil hese
  have hed : isDecDigit e = true := hes e (by simp)
  have hedb : 48 ≤ e ∧ e ≤ 57 := by simpa [isDecDigit] using hed
  simp only [readHexLiteral]
  rw [if_neg (by rw [F0]; simp [testO, hds d (by simp)])]
  rw [F1, F2, F4]
  rw [if_pos (by simp only; rw [F3]; rcases hp with rfl | rfl; exact Or.inl rfl; exact Or.inr rfl)]
  rcases hsgn with hs | hs | hs <;> subst hs
  · have FE : input[st.index + 2 + (d :: ds').length + 1]? = some e := by
      rw [getElem?_at input (pre ++ [48, x] ++ (d :: ds') ++ [p])
        ((e :: es') ++ rest) _ (by rw [hin] <;> simp) (by simp [hidx] <;> omega)]
      simp
    have F8 : expDigitStart input (st.index + 2 + (d :: ds').length)
        = st.index + 2 + (d :: ds').length + 1 := by
      rw [expDigitStart, if_neg (by
        rw [FE]
        rintro (h | h) <;> (injection h with h; omega))]
    have F11 : skipWhile isDecDigit input (st.index + 2 + (d :: ds').length + 1)
        = st.index + 2 + (d :: ds').length + 1 + (e :: es').length :=
      skipWhile_at _ input (pre ++ [48, x] ++ (d :: ds') ++ [p]) (e :: es') rest _
        (by rw [hin] <;> simp) (by simp [hidx] <;> omega) hes hr
    have F12 : sliceCodes input (st.index + 2 + (d :: ds').length + 1)
        (st.index + 2 + (d :: ds').length + 1 + (e :: es').length) = e :: es' :=
      sliceCodes_at input (pre ++ [48, x] ++ (d :: ds') ++ [p]) (e :: es') rest _ _
        (by rw [hin] <;> simp) (by simp [hidx] <;> omega) (by simp [hidx] <;> omega)
    have F9 : expSign input (st.index + 2 + (d :: ds').length) = 1 := by
      rw [expSign, if_neg (by
        rw [FE]
        rintro (h | h) <;> (injection h with h; omega))]
    rw [F8]
    rw [if_neg (by rw [FE]; simp [testO, hed])]
    rw [F11, F12, F9, hidx]
    simp only [expSgnVal]
    norm_num
  · have FE : input[st.index + 2 + (d :: ds').length + 1]? = some 43 := by
      rw [getElem?_at input (pre ++ [48, x] ++ (d :: ds') ++ [p])
        ([43] ++ ((e :: es') ++ rest)) _ (by rw [hin] <;> simp) (by simp [hidx] <;> omega)]
      simp
    have FE2 : input[st.index + 2 + (d :: ds').length + 2]? = some e := by
      rw [getElem?_at input (pre ++ [48, x] ++ (d :: ds') ++ [p, 43])
        ((e :: es') ++ rest) _ (by rw [hin] <;> simp) (by simp [hidx] <;> omega)]
      simp
    have F8 : expDigitStart input (st.index + 2 + (d :: ds').length)
        = st.index + 2 + (d :: ds').length + 2 := by
      rw [expDigitStart, if_pos (by rw [FE]; exact Or.inl rfl)]
    have F11 : skipWhile isDecDigit input (st.index + 2 + (d :: ds').length + 2)
        = st.index + 2 + (d :: ds').length + 2 + (e :: es').length :=
      skipWhile_at _ input (pre ++ [48, x] ++ (d :: ds') ++ [p, 43]) (e :: es') rest _
        (by rw [hin] <;> simp) (by simp [hidx] <;> omega) hes hr
    have F12 : sliceCodes input (st.index + 2 + (d :: ds').length + 2)
        (st.index + 2 + (d :: ds').length + 2 + (e :: es').length) = e :: es' :=
      sliceCodes_at input (pre ++ [48, x] ++ (d :: ds') ++ [p, 43]) (e :: es') rest _ _
        (by rw [hin] <;> simp) (by simp [hidx] <;> omega) (by simp [hidx] <;> omega)
    have F9 : expSign input (st.index + 2 + (d :: ds').length) = 1 := by
      rw [expSign, if_pos (by rw [FE]; exact Or.inl rfl), if_pos (by rw [FE])]
    rw [F8]
    rw [if_neg (by rw [FE2]; simp [testO, hed])]
    rw [F11, F12, F9, hidx]
    simp only [expSgnVal]
    norm_num
  · have FE : input[st.index + 2 + (d :: ds').length + 1]? = some 45 := by
      rw [getElem?_at input (pre ++ [48, x] ++ (d :: ds') ++ [p])
        ([45] ++ ((e :: es') ++ rest)) _ (by rw [hin] <;> simp) (by simp [hidx] <;> omega)]
      simp
    have FE2 : input[st.index + 2 + (d :: ds').length + 2]? = some e := by
      rw [getElem?_at input (pre ++ [48, x] ++ (d :: ds') ++ [p, 45])
        ((e :: es') ++ rest) _ (by rw [hin] <;> simp) (by simp [hidx] <;> omega)]
      simp
    have F8 : expDigitStart input (st.index + 2 + (d :: ds').length)
        = st.index + 2 + (d :: ds').length + 2 := by
      rw [expDigitStart, if_pos (by rw [FE]; exact Or.inr rfl)]
    have F11 : skipWhile isDecDigit input (st.index + 2 + (d :: ds').length + 2)
        = st.index + 2 + (d :: ds').length + 2 + (e :: es').length :=
      skipWhile_at _ input (pre ++ [48, x] ++ (d :: ds') ++ [p, 45]) (e :: es') rest _
        (by rw [hin] <;> simp) (by simp [hidx] <;> omega) hes hr
    have F12 : sliceCodes input (st.index + 2 + (d :: ds').length + 2)
        (st.index + 2 + (d :: ds').length + 2 + (e :: es').length) = e :: es' :=
      sliceCodes_at input (pre ++ [48, x] ++ (d :: ds') ++ [p, 45]) (e :: es') rest _ _
        (by rw [hin] <;> simp) (by simp [hidx] <;> omega) (by simp [hidx] <;> omega)
    have F9 : expSign input (st.index + 2 + (d :: ds').length) = -1 := by
      rw [expSign, if_pos (by rw [FE]; exact Or.inr rfl), if_neg (by rw [FE]; intro h; injection h with h; omega)]
    rw [F8]
    rw [if_neg (by rw [FE2]; simp [testO, hed])]
    rw [F11, F12, F9, hidx]
    simp only [expSgnVal]
    norm_num

theorem readHexLiteral_noDigit (input : List Nat) (st : St)
    (h : testO isHexDigit input[st.index + 2]? = false) :
    readHexLiteral input st
      = .error ⟨.malformedNumber, st.line, st.lineStart, (st.index, st.index + 2), none⟩ := by
  simp only [readHexLiteral]
  rw [if_pos (by simp [h])]

theorem readHexLiteral_noExpDigit (input pre ds sgnList rest : List Nat) (x p : Nat) (st : St)
    (hidx : st.index = pre.length)
    (hin : input = pre ++ [48, x] ++ ds ++ (p :: sgnList) ++ rest)
    (hne : ds ≠ []) (hds : ∀ c ∈ ds, isHexDigit c = true)
    (hp : p = 112 ∨ p = 80)
    (hsgn : sgnList = [] ∨ sgnList = [43] ∨ sgnList = [45])
    (hr : testO isDecDigit rest[0]? = false)
    (hr43 : rest[0]? ≠ some 43) (hr45 : rest[0]? ≠ some 45) :
    readHexLiteral input st
      = .error ⟨.malformedNumber, st.line, st.lineStart,
          (st.index, pre.length + 2 + ds.length + 1 + sgnList.length + 1), none⟩ := by
  obtain ⟨d, ds', rfl⟩ := List.exists_cons_of_ne_nil hne
  have F0 : input[st.index + 2]? = some d := by
    rw [getElem?_at input (pre ++ [48, x])
      ((d :: ds') ++ ((p :: sgnList) ++ rest)) _
      (by rw [hin] <;> simp) (by simp [hidx] <;> omega)]
    simp
  have F1 : skipWhile isHexDigit input (st.index + 2) = st.index + 2 + (d :: ds').length :=
    skipWhile_at _ input (pre ++ [48, x]) (d :: ds')
      ((p :: sgnList) ++ rest) _
      (by rw [hin] <;> simp) (by simp [hidx] <;> omega) hds
      (by simp [testO]; rcases hp with rfl | rfl <;> decide)
  have F3 : input[st.index + 2 + (d :: ds').length]? = some p := by
    rw [getElem?_at input (pre ++ [48, x] ++ (d :: ds'))
      ((p :: sgnList) ++ rest) _
      (by rw [hin] <;> simp) (by simp [hidx] <;> omega)]
    simp
  have F4 : hexFraction input (st.index + 2 + (d :: ds').length)
      = (0, st.index + 2 + (d :: ds').length) := by
    rw [hexFraction, if_neg (by rw [F3]; rcases hp with rfl | rfl <;> (intro h; injection h with h; omega))]
  simp only [readHexLiteral]
  rw [if_neg (by rw [F0]; simp [testO, hds d (by simp)])]
  rw [F1, F4]
  rw [if_pos (by simp only; rw [F3]; rcases hp with rfl | rfl; exact Or.inl rfl; exact Or.inr rfl)]
  rcases hsgn with hs | hs | hs <;> subst hs
  · have FE : input[st.index + 2 + (d :: ds').length + 1]? = rest[0]? := by
      rw [getElem?_at input (pre ++ [48, x] ++ (d :: ds') ++ [p]) rest _
        (by rw [hin] <;> simp) (by simp [hidx] <;> omega)]
    have F8 : expDigitStart input (st.index + 2 + (d :: ds').length)
        = st.index + 2 + (d :: ds').length + 1 := by
      rw [expDigitStart, if_neg (by rw [FE]; rintro (h | h); exact hr43 h; exact hr45 h)]
    rw [F8]
    rw [if_pos (by rw [FE]; simp [hr])]
    rw [hidx]
    norm_num
  · have FE : input[st.index + 2 + (d :: ds').length + 1]? = some 43 := by
      rw [getElem?_at input (pre ++ [48, x] ++ (d :: ds') ++ [p])
        ([43] ++ rest) _ (by rw [hin] <;> simp) (by simp [hidx] <;> omega)]
      simp
    have FE2 : input[st.index + 2 + (d :: ds').length + 2]? = rest[0]? := by
      rw [getElem?_at input (pre ++ [48, x] ++ (d :: ds') ++ [p, 43]) rest _
        (by rw [hin] <;> simp) (by simp [hidx] <;> omega)]
    have F8 : expDigitStart input (st.index + 2 + (d :: ds').length)
        = st.index + 2 + (d :: ds').length + 2 := by
      rw [expDigitStart, if_pos (by rw [FE]; exact Or.inl rfl)]
    rw [F8]
    rw [if_pos (by rw [FE2]; simp [hr])]
    rw [hidx]
    norm_num
  · have FE : input[st.index + 2 + (d :: ds').length + 1]? = some 45 := by
      rw [getElem?_at input (pre ++ [48, x] ++ (d :: ds') ++ [p])
        ([45] ++ rest) _ (by rw [hin] <;> simp) (by simp [hidx] <;> omega)]
      simp
    have FE2 : input[st.index + 2 + (d :: ds').length + 2]? = rest[0]? := by
      rw [getElem?_at input (pre ++ [48, x] ++ (d :: ds') ++ [p, 45]) rest _
        (by rw [hin] <;> simp) (by simp [hidx] <;> omega)]
    have F8 : expDigitStart input (st.index + 2 + (d :: ds').length)
        = st.index + 2 + (d :: ds').length + 2 := by
      rw [expDigitStart, if_pos (by rw [FE]; exact Or.inr rfl)]
    rw [F8]
    rw [if_pos (by rw [FE2]; simp [hr])]
    rw [hidx]
    norm_num

unseal skipWhile skipWhiteSpace scanStringLoop longLoop lexSkip mainLoop in
/-- C1: hexadecimal literal decoding.  A recognized hex literal (0x or 0X
prefix, a nonempty integer hex-digit run, an optional fraction after a
dot, an optional binary exponent p or P with optional sign and a nonempty
decimal digit run) decodes to (Digit + Fraction) * 2 ^ (sign * exponent),
where Digit is the integer run read base 16 and Fraction the fractional
run divided by 16 ^ (its length), zero when absent or empty; the factor
is 1 when no exponent part is present.  A missing hex digit after the
prefix, or a missing decimal digit after p or P and its optional sign,
raises malformedNumber.  The claim's examples 0x1p4 = 16 and 0x1.8p1 = 3
are confirmed, and 0x0.8p0 = 1/2; but the claim's example 0x.8p0 = 0.5 is
wrong: the integer hex-digit run is mandatory (the code checks the first
character after the prefix before reading the fraction), so 0x.8p0
raises malformedNumber with range (0, 2), as the final conjunct shows. -/
theorem C1_hex_value :
    (∀ (input pre ds rest : List Nat) (x : Nat) (st : St),
      st.index = pre.length →
      input = pre ++ [48, x] ++ ds ++ rest →
      ds ≠ [] → (∀ c ∈ ds, isHexDigit c = true) →
      testO isHexDigit rest[0]? = false →
      rest[0]? ≠ some 46 → rest[0]? ≠ some 112 → rest[0]? ≠ some 80 →
      readHexLiteral input st
        = .ok ((parseHexNat ds : ℚ), { st with index := pre.length + 2 + ds.length }))
    ∧ (∀ (input pre ds fs rest : List Nat) (x : Nat) (st : St),
      st.index = pre.length →
      input = pre ++ [48, x] ++ ds ++ (46 :: fs) ++ rest →
      ds ≠ [] → (∀ c ∈ ds, isHexDigit c = true) →
      (∀ c ∈ fs, isHexDigit c = true) →
      testO isHexDigit rest[0]? = false →
      rest[0]? ≠ some 112 → rest[0]? ≠ some 80 →
      readHexLiteral input st
        = .ok ((parseHexNat ds : ℚ) + hexFracVal fs,
               { st with index := pre.length + 2 + ds.length + 1 + fs.length }))
    ∧ (∀ (input pre ds fs sgnList es rest : List Nat) (x p : Nat) (st : St),
      st.index = pre.length →
      input = pre ++ [48, x] ++ ds ++ (46 :: fs) ++ (p :: sgnList) ++ es ++ rest →
      ds ≠ [] → (∀ c ∈ ds, isHexDigit c = true) →
      (∀ c ∈ fs, isHexDigit c = true) →
      p = 112 ∨ p = 80 →
      sgnList = [] ∨ sgnList = [43] ∨ sgnList = [45] →
      es ≠ [] → (∀ c ∈ es, isDecDigit c = true) →
      testO isDecDigit rest[0]? = false →
      readHexLiteral input st
        = .ok (((parseHexNat ds : ℚ) + hexFracVal fs)
                 * (2 : ℚ) ^ (expSgnVal sgnList * (parseDecNat es : ℤ)),
               { st with index :=
                  pre.length + 2 + ds.length + 1 + fs.length + 1 + sgnList.length + es.length }))
    ∧ (∀ (input pre ds sgnList es rest : List Nat) (x p : Nat) (st : St),
      st.index = pre.length →
      input = pre ++ [48, x] ++ ds ++ (p :: sgnList) ++ es ++ rest →
      ds ≠ [] → (∀ c ∈ ds, isHexDigit c = true) →
      p = 112 ∨ p = 80 →
      sgnList = [] ∨ sgnList = [43] ∨ sgnList = [45] →
      es ≠ [] → (∀ c ∈ es, isDecDigit c = true) →
      testO isDecDigit rest[0]? = false →
      readHexLiteral input st
        = .ok ((parseHexNat ds : ℚ)
                 * (2 : ℚ) ^ (expSgnVal sgnList * (parseDecNat es : ℤ)),
               { st with index :=
                  pre.length + 2 + ds.length + 1 + sgnList.length + es.length }))
    ∧ (∀ (input : List Nat) (st : St),
      testO isHexDigit input[st.index + 2]? = false →
      readHexLiteral input st
        = .error ⟨.malformedNumber, st.line, st.lineStart, (st.index, st.index + 2), none⟩)
    ∧ (∀ (input pre ds sgnList rest : List Nat) (x p : Nat) (st : St),
      st.index = pre.length →
      input = pre ++ [48, x] ++ ds ++ (p :: sgnList) ++ rest →
      ds ≠ [] → (∀ c ∈ ds, isHexDigit c = true) →
      p = 112 ∨ p = 80 →
      sgnList = [] ∨ sgnList = [43] ∨ sgnList = [45] →
      testO isDecDigit rest[0]? = false →
      rest[0]? ≠ some 43 → rest[0]? ≠ some 45 →
      readHexLiteral input st
        = .error ⟨.malformedNumber, st.line, st.lineStart,
            (st.index, pre.length + 2 + ds.length + 1 + sgnList.length + 1), none⟩)
    ∧ readHexLiteral (strCodes "0x1p4") ⟨0, 1, 0⟩ = .ok ((16 : ℚ), ⟨5, 1, 0⟩)
    ∧ readHexLiteral (strCodes "0x1.8p1") ⟨0, 1, 0⟩ = .ok ((3 : ℚ), ⟨7, 1, 0⟩)
    ∧ readHexLiteral (strCodes "0x0.8p0") ⟨0, 1, 0⟩ = .ok ((1 / 2 : ℚ), ⟨7, 1, 0⟩)
    ∧ tokenize (configOf .v51) (strCodes "0x.8p0")
        = some ([], [], some ⟨.malformedNumber, 1, 0, (0, 2), none⟩) := by
  refine ⟨readHexLiteral_plain, readHexLiteral_frac, readHexLiteral_fracExp, readHexLiteral_exp,
    readHexLiteral_noDigit, readHexLiteral_noExpDigit, ?_, ?_, ?_, rfl⟩
  · rw [readHexLiteral_exp (strCodes "0x1p4") [] [49] [] [52] [] 120 112 ⟨0, 1, 0⟩ rfl rfl
      (by decide) (by decide) (Or.inl rfl) (Or.inl rfl) (by decide) (by decide) (by decide)]
    norm_num [show parseHexNat [49] = 1 from rfl, show parseDecNat [52] = 4 from rfl, expSgnVal]
  · rw [readHexLiteral_fracExp (strCodes "0x1.8p1") [] [49] [56] [] [49] [] 120 112 ⟨0, 1, 0⟩
      rfl rfl (by decide) (by decide) (by decide) (Or.inl rfl) (Or.inl rfl) (by decide)
      (by decide) (by decide)]
    norm_num [show parseHexNat [49] = 1 from rfl, show parseHexNat [56] = 8 from rfl,
      show parseDecNat [49] = 1 from rfl, expSgnVal, hexFracVal]
  · rw [readHexLiteral_fracExp (strCodes "0x0.8p0") [] [48] [56] [] [48] [] 120 112 ⟨0, 1, 0⟩
      rfl rfl (by decide) (by decide) (by decide) (Or.inl rfl) (Or.inl rfl) (by decide)
      (by decide) (by decide)]
    norm_num [show parseHexNat [48] = 0 from rfl, show parseHexNat [56] = 8 from rfl,
      show parseDecNat [48] = 0 from rfl, expSgnVal, hexFracVal]

theorem C1_hex_value_witness :
    readHexLiteral [48, 120, 102, 102] ⟨0, 1, 0⟩ = .ok ((255 : ℚ), ⟨4, 1, 0⟩)
    ∧ readHexLiteral [48, 120, 49, 112, 52] ⟨0, 1, 0⟩ = .ok ((16 : ℚ), ⟨5, 1, 0⟩)
    ∧ readHexLiteral [48, 120] ⟨0, 1, 0⟩
        = .error ⟨.malformedNumber, 1, 0, (0, 2), none⟩
    ∧ readHexLiteral [48, 120, 49, 112] ⟨0, 1, 0⟩
        = .error ⟨.malformedNumber, 1, 0, (0, 5), none⟩ := by
  refine ⟨?_, ?_, ?_, ?_⟩
  · rw [C1_hex_value.1 [48, 120, 102, 102] [] [102, 102] [] 120 ⟨0, 1, 0⟩ rfl rfl
      (by decide) (by decide) (by decide) (by decide) (by decide) (by decide)]
    norm_num [show parseHexNat [102, 102] = 255 from rfl]
  · rw [C1_hex_value.2.2.2.1 [48, 120, 49, 112, 52] [] [49] [] [52] [] 120 112 ⟨0, 1, 0⟩ rfl rfl
      (by decide) (by decide) (Or.inl rfl) (Or.inl rfl) (by decide) (by decide) (by decide)]
    norm_num [show parseHexNat [49] = 1 from rfl, show parseDecNat [52] = 4 from rfl, expSgnVal]
  · rw [C1_hex_value.2.2.2.2.1 [48, 120] ⟨0, 1, 0⟩ (by decide)]
  · rw [C1_hex_value.2.2.2.2.2.1 [48, 120, 49, 112] [] [49] [] [] 120 112 ⟨0, 1, 0⟩ rfl rfl
      (by decide) (by decide) (Or.inl rfl) (Or.inl rfl) (by decide) (by decide) (by decide)]
    rfl

unseal skipWhile skipWhiteSpace scanStringLoop longLoop lexSkip mainLoop in
/-- The claim's example 0x.8p0 = 0.5 is refuted: with no hex digit between
the 0x prefix and the dot, the tokenizer raises malformedNumber over the
prefix instead of emitting a NumericLiteral 0.5 token. -/
theorem C1_hex_value_counterexample :
    tokenize (configOf .v51) (strCodes "0x.8p0")
      = some ([], [], some ⟨.malformedNumber, 1, 0, (0, 2), none⟩) := rfl


theorem longLoop_eof (isComment : Bool) (input : List Nat)
    (fl fls from_ level stringStart : Nat) (st : St)
    (hall : ∀ j, st.index ≤ j → j < input.length →
      input[j]? ≠ some 93 ∧ testO isLineTerminator input[j]? = false) :
    longLoop isComment input fl fls from_ level stringStart st
      = .error ⟨if isComment then .unfinishedLongComment else .unfinishedLongString,
                fl, fls, (from_, from_ + level + 1), none⟩ := by
  induction st using longLoop.induct isComment input fl fls from_ level stringStart with
  | case1 st h hterm ih =>
    exact absurd hterm (by simp [(hall st.index (Nat.le_refl _) h).2])
  | case2 st h hterm hcl =>
    exact absurd hcl.1 (hall st.index (Nat.le_refl _) h).1
  | case3 st h hterm hcl ih =>
    rw [longLoop]
    rw [dif_pos h, dif_neg hterm, if_neg hcl]
    exact ih (fun j hj hlt => hall j (by simp at hj ⊢; omega) hlt)
  | case4 st h =>
    rw [longLoop, dif_neg h]

theorem getElem?_at2 (input pre rest : List Nat) (k i : Nat)
    (hin : input = pre ++ rest) (hk : k = pre.length + i) :
    input[k]? = rest[i]? := by
  subst hin; subst hk
  rw [List.getElem?_append_right (by omega)]
  congr 1
  omega

theorem longLoop_close (isComment : Bool) (input pre cs eqs rest : List Nat)
    (fl fls from_ stringStart : Nat) (st : St)
    (hidx : st.index = pre.length)
    (hin : input = pre ++ cs ++ [93] ++ eqs ++ [93] ++ rest)
    (hcs : ∀ c ∈ cs, c ≠ 93 ∧ isLineTerminator c = false)
    (heqs : ∀ c ∈ eqs, c = 61) :
    longLoop isComment input fl fls from_ eqs.length stringStart st
      = .ok (sliceCodes input stringStart (pre.length + cs.length),
             { st with index := pre.length + cs.length + eqs.length + 2 }) := by
  induction cs generalizing pre st with
  | nil =>
    have hb : input[st.index]? = some 93 := by
      rw [getElem?_at input pre ([93] ++ (eqs ++ ([93] ++ rest))) _
        (by rw [hin] <;> simp) (by omega)]
      simp
    have hlen : st.index < input.length := by
      have := List.getElem?_eq_some.mp hb
      exact this.1
    have heq : ∀ i < eqs.length, input[st.index + 1 + i]? = some 61 := by
      intro i hi
      rw [getElem?_at2 input (pre ++ [93]) (eqs ++ ([93] ++ rest)) _ i
        (by rw [hin] <;> simp) (by simp [hidx] <;> omega)]
      rw [List.getElem?_append, if_pos hi, List.getElem?_eq_getElem hi]
      exact congrArg some (heqs _ (List.getElem_mem hi))
    have hb2 : input[st.index + 1 + eqs.length]? = some 93 := by
      rw [getElem?_at input (pre ++ [93] ++ eqs) ([93] ++ rest) _
        (by rw [hin] <;> simp) (by simp [hidx] <;> omega)]
      simp
    rw [longLoop, dif_pos hlen, dif_neg (by rw [hb]; decide), if_pos ⟨hb, heq, hb2⟩]
    rw [hidx]
    simp only [List.length_nil]
    norm_num
    omega
  | cons c cs' ih =>
    have hb : input[st.index]? = some c := by
      rw [getElem?_at input pre ((c :: cs') ++ ([93] ++ (eqs ++ ([93] ++ rest)))) _
        (by rw [hin] <;> simp) (by omega)]
      simp
    have hlen : st.index < input.length := by
      have := List.getElem?_eq_some.mp hb
      exact this.1
    have hcne : c ≠ 93 := (hcs c (by simp)).1
    have hcnl : isLineTerminator c = false := (hcs c (by simp)).2
    rw [longLoop, dif_pos hlen, dif_neg (by rw [hb]; simp [testO, hcnl])]
    rw [if_neg (by rintro ⟨h1, -, -⟩; rw [hb] at h1; injection h1 with h1; exact hcne h1)]
    rw [ih (pre ++ [c]) _ (by simp [hidx])
      (by rw [hin] <;> simp)
      (fun x hx => hcs x (by simp [hx]))]
    have h1 : (pre ++ [c]).length + cs'.length = pre.length + (c :: cs').length := by
      simp [List.length_append, List.length_cons] <;> omega
    rw [h1]

theorem readLongString_ok (isComment : Bool) (input pre eqs cs rest : List Nat) (st : St)
    (hidx : st.index = pre.length)
    (hin : input = pre ++ [91] ++ eqs ++ [91] ++ cs ++ [93] ++ eqs ++ [93] ++ rest)
    (heqs : ∀ c ∈ eqs, c = 61)
    (hcs : ∀ c ∈ cs, c ≠ 93 ∧ isLineTerminator c = false) :
    readLongString isComment input st
      = .ok (some cs, { st with index := pre.length + cs.length + 2 * eqs.length + 4 }) := by
  have F1 : skipWhile (fun c => c = 61) input (st.index + 1)
      = st.index + 1 + eqs.length :=
    skipWhile_at _ input (pre ++ [91]) eqs ([91] ++ (cs ++ ([93] ++ (eqs ++ ([93] ++ rest))))) _
      (by rw [hin] <;> simp) (by simp [hidx] <;> omega)
      (fun c hc => by simp [heqs c hc]) (by simp [testO])
  have F2 : input[st.index + 1 + eqs.length]? = some 91 := by
    rw [getElem?_at input (pre ++ [91] ++ eqs) ([91] ++ (cs ++ ([93] ++ (eqs ++ ([93] ++ rest))))) _
      (by rw [hin] <;> simp) (by simp [hidx] <;> omega)]
    simp
  have F3 : input[st.index + 1 + eqs.length + 1]? = (cs ++ ([93] ++ (eqs ++ ([93] ++ rest))))[0]? := by
    exact getElem?_at input (pre ++ [91] ++ eqs ++ [91]) _ _
      (by rw [hin] <;> simp) (by simp [hidx] <;> omega)
  have hterm : testO isLineTerminator input[st.index + 1 + eqs.length + 1]? = false := by
    rw [F3]
    cases cs with
    | nil => simp [testO, isLineTerminator]
    | cons c cs' => simp [testO, (hcs c (by simp)).2]
  have hlev : skipWhile (fun c => c = 61) input (st.index + 1) - (st.index + 1) = eqs.length := by
    rw [F1]; omega
  simp only [readLongString]
  rw [hlev, F2]
  rw [if_neg (by simp)]
  simp only [hterm, Bool.false_eq_true, if_false]
  rw [longLoop_close isComment input (pre ++ [91] ++ eqs ++ [91]) cs eqs rest _ _ _ _ _
    (by simp [hidx] <;> omega) (by rw [hin] <;> simp) hcs heqs]
  have hs : sliceCodes input (st.index + 1 + eqs.length + 1)
      ((pre ++ [91] ++ eqs ++ [91]).length + cs.length) = cs :=
    sliceCodes_at input (pre ++ [91] ++ eqs ++ [91]) cs ([93] ++ (eqs ++ ([93] ++ rest))) _ _
      (by rw [hin] <;> simp) (by simp [hidx] <;> omega) (by simp [hidx] <;> omega)
  rw [hs]
  simp only [List.length_append, List.length_cons, List.length_nil]
  simp only [Except.ok.injEq, Prod.mk.injEq, St.mk.injEq]
  exact ⟨trivial, by omega, trivial, trivial⟩

theorem readLongString_eof (isComment : Bool) (input pre eqs cs : List Nat) (st : St)
    (hidx : st.index = pre.length)
    (hin : input = pre ++ [91] ++ eqs ++ [91] ++ cs)
    (heqs : ∀ c ∈ eqs, c = 61)
    (hcs : ∀ c ∈ cs, c ≠ 93 ∧ isLineTerminator c = false) :
    readLongString isComment input st
      = .error ⟨if isComment then .unfinishedLongComment else .unfinishedLongString,
                st.line, st.lineStart, (st.index, st.index + eqs.length + 1), none⟩ := by
  have F1 : skipWhile (fun c => c = 61) input (st.index + 1)
      = st.index + 1 + eqs.length :=
    skipWhile_at _ input (pre ++ [91]) eqs ([91] ++ cs) _
      (by rw [hin] <;> simp) (by simp [hidx] <;> omega)
      (fun c hc => by simp [heqs c hc]) (by simp [testO])
  have F2 : input[st.index + 1 + eqs.length]? = some 91 := by
    rw [getElem?_at input (pre ++ [91] ++ eqs) ([91] ++ cs) _
      (by rw [hin] <;> simp) (by simp [hidx] <;> omega)]
    simp
  have F3 : input[st.index + 1 + eqs.length + 1]? = cs[0]? := by
    exact getElem?_at input (pre ++ [91] ++ eqs ++ [91]) _ _
      (by rw [hin] <;> simp) (by simp [hidx] <;> omega)
  have hterm : testO isLineTerminator input[st.index + 1 + eqs.length + 1]? = false := by
    rw [F3]
    cases cs with
    | nil => simp [testO]
    | cons c cs' => simp [testO, (hcs c (by simp)).2]
  have hlev : skipWhile (fun c => c = 61) input (st.index + 1) - (st.index + 1) = eqs.length := by
    rw [F1]; omega
  simp only [readLongString]
  rw [hlev, F2]
  rw [if_neg (by simp)]
  simp only [hterm, Bool.false_eq_true, if_false]
  rw [longLoop_eof isComment input st.line st.lineStart st.index eqs.length _ _ ?hall]
  case hall =>
    intro j hj hjl
    have hin2 : input = (pre ++ [91] ++ eqs ++ [91]) ++ cs := by rw [hin] <;> simp
    have hplen : (pre ++ [91] ++ eqs ++ [91]).length = pre.length + eqs.length + 2 := by
      simp <;> omega
    have hjge : (pre ++ [91] ++ eqs ++ [91]).length ≤ j := by
      simp only [hplen]
      simp only [St.index] at hj
      omega
    have hget : input[j]? = cs[j - (pre ++ [91] ++ eqs ++ [91]).length]? :=
      getElem?_at2 input _ cs j _ hin2 (by omega)
    rcases hc : cs[j - (pre ++ [91] ++ eqs ++ [91]).length]? with _ | c
    · rw [hget, hc]
      simp [testO]
    · have hmem : c ∈ cs := by
        have := List.getElem?_eq_some.mp hc
        rcases this with ⟨hlt, hval⟩
        rw [← hval]
        exact List.getElem_mem hlt
      rw [hget, hc]
      exact ⟨by simpa using (hcs c hmem).1, by simp [testO, (hcs c hmem).2]⟩

theorem fixupHighCharacters_id : ∀ (s : List Nat), (∀ c ∈ s, c < 128) →
    fixupHighCharacters s = s
  | [], _ => rfl
  | [c], h => by
    rw [fixupHighCharacters, if_neg (by have := h c (by simp); omega)]
  | c :: c2 :: rest, h => by
    rw [fixupHighCharacters,
      if_neg (by intro hh; have := h c (by simp); omega),
      if_neg (by have := h c (by simp); omega)]
    rw [fixupHighCharacters_id (c2 :: rest) (fun x hx => h x (by simp at hx ⊢; tauto))]

unseal skipWhile skipWhiteSpace scanStringLoop longLoop lexSkip mainLoop in
/-- C6: long bracket bodies.  A body opened by a bracket, level equals
signs and a second bracket is closed by a closing bracket, exactly level
equals signs and another closing bracket; the token value is the content
strictly between the bracket sequences, and an immediately following line
terminator after the opening sequence is skipped and excluded from the
value.  Reaching the end of input before a closing sequence raises
unfinishedLongString, or unfinishedLongComment in comment mode, anchored
at the opening bracket with range over the opening bracket and its equals
run.  Concretely, the large-bracket examples of the claim: level two over
text decodes to text, the level two opener closed by only one equals sign
raises unfinishedLongString, a newline right after the opening double
bracket is excluded from the value, and an unterminated long comment
raises unfinishedLongComment. -/
theorem C6_long_bracket :
    (∀ (input pre eqs cs rest : List Nat) (st : St),
      st.index = pre.length →
      input = pre ++ [91] ++ eqs ++ [91] ++ cs ++ [93] ++ eqs ++ [93] ++ rest →
      (∀ c ∈ eqs, c = 61) →
      (∀ c ∈ cs, c ≠ 93 ∧ isLineTerminator c = false ∧ c < 128) →
      scanLongStringLiteral input st
        = .ok (⟨.stringLit, .str cs, st.line, st.lineStart,
                (st.index, pre.length + cs.length + 2 * eqs.length + 4),
                some st.line, some st.lineStart⟩,
               { st with index := pre.length + cs.length + 2 * eqs.length + 4 }))
    ∧ (∀ (isComment : Bool) (input pre eqs cs : List Nat) (st : St),
      st.index = pre.length →
      input = pre ++ [91] ++ eqs ++ [91] ++ cs →
      (∀ c ∈ eqs, c = 61) →
      (∀ c ∈ cs, c ≠ 93 ∧ isLineTerminator c = false) →
      readLongString isComment input st
        = .error ⟨if isComment then .unfinishedLongComment else .unfinishedLongString,
                  st.line, st.lineStart, (st.index, st.index + eqs.length + 1), none⟩)
    ∧ tokenize (configOf .v51) (strCodes "[==[text]==]")
        = some ([⟨.stringLit, .str (strCodes "text"), 1, 0, (0, 12), some 1, some 0⟩], [], none)
    ∧ tokenize (configOf .v51) (strCodes "[==[text]=]")
        = some ([], [], some ⟨.unfinishedLongString, 1, 0, (0, 3), none⟩)
    ∧ tokenize (configOf .v51) (strCodes "[[\ntext]]")
        = some ([⟨.stringLit, .str (strCodes "text"), 1, 0, (0, 9), some 2, some 3⟩], [], none)
    ∧ tokenize { configOf .v51 with collectComments := true } (strCodes "--[[c")
        = some ([], [], some ⟨.unfinishedLongComment, 1, 0, (2, 3), none⟩) := by
  refine ⟨?_, readLongString_eof, rfl, rfl, rfl, rfl⟩
  intro input pre eqs cs rest st hidx hin heqs hcs
  simp only [scanLongStringLiteral]
  rw [readLongString_ok false input pre eqs cs rest st hidx hin heqs
    (fun c hc => ⟨(hcs c hc).1, (hcs c hc).2.1⟩)]
  simp only
  rw [fixupHighCharacters_id cs (fun c hc => (hcs c hc).2.2)]

theorem C6_long_bracket_witness :
    scanLongStringLiteral (strCodes "[=[ab]=]") ⟨0, 1, 0⟩
      = .ok (⟨.stringLit, .str [97, 98], 1, 0, (0, 8), some 1, some 0⟩, ⟨8, 1, 0⟩)
    ∧ readLongString true (strCodes "[[ab") ⟨0, 1, 0⟩
      = .error ⟨.unfinishedLongComment, 1, 0, (0, 1), none⟩ :=
  ⟨C6_long_bracket.1 (strCodes "[=[ab]=]") [] [61] [97, 98] [] ⟨0, 1, 0⟩ rfl rfl
      (by decide) (by decide),
   C6_long_bracket.2.1 true (strCodes "[[ab") [] [] [97, 98] ⟨0, 1, 0⟩ rfl rfl
      (by decide) (by decide)⟩


theorem dispatch_cc (cfg : Config) (b : Bool) (input : List Nat) (st : St) :
    dispatch { cfg with collectComments := b } input st = dispatch cfg input st := rfl

theorem scanComment_cc (cfg : Config) (b : Bool) (input : List Nat) (st : St) :
    (scanComment { cfg with collectComments := b } input st).map Prod.snd
      = (scanComment cfg input st).map Prod.snd := by
  simp only [scanComment]
  split <;> simp [Except.map]

theorem lexSkip_cc (cfg : Config) (b : Bool) (input : List Nat) (st : St) :
    (lexSkip { cfg with collectComments := b } input st).map Prod.snd
      = (lexSkip cfg input st).map Prod.snd := by
  induction st using lexSkip.induct cfg input with
  | case1 st hc e hcom =>
    have hcom' :
        scanComment { cfg with collectComments := b } input (skipWhiteSpace input st)
          = .error e := by
      have h2 := scanComment_cc cfg b input (skipWhiteSpace input st)
      rw [hcom] at h2
      rcases hx : scanComment { cfg with collectComments := b } input (skipWhiteSpace input st)
        with e' | p
      · rw [hx] at h2
        simp only [Except.map, Except.error.injEq] at h2
        rw [h2]
      · rw [hx] at h2
        simp [Except.map] at h2
    conv_lhs => rw [lexSkip]
    conv_rhs => rw [lexSkip]
    simp only [dif_pos hc]
    split
    · rename_i e1 heq1
      rw [hcom'] at heq1
      injection heq1 with heq1
      subst heq1
      split
      · rename_i e2 heq2
        rw [hcom] at heq2
        injection heq2 with heq2
        subst heq2
        rfl
      · rename_i oc2 st22 heq2
        rw [hcom] at heq2
        exact Except.noConfusion heq2
    · rename_i oc1 st21 heq1
      rw [hcom'] at heq1
      exact Except.noConfusion heq1
  | case2 st hc oc st2 hcom e hrec ih =>
    have h2 := scanComment_cc cfg b input (skipWhiteSpace input st)
    rw [hcom] at h2
    rcases hx : scanComment { cfg with collectComments := b } input (skipWhiteSpace input st)
      with e' | ⟨oc', st2'⟩
    · rw [hx] at h2
      simp [Except.map] at h2
    · rw [hx] at h2
      simp only [Except.map, Except.ok.injEq] at h2
      subst h2
      conv_lhs => rw [lexSkip]
      conv_rhs => rw [lexSkip]
      simp only [dif_pos hc]
      split
      · rename_i e1 heq1
        rw [hx] at heq1
        exact Except.noConfusion heq1
      · rename_i oc1 st21 heq1
        rw [hx] at heq1
        injection heq1 with heq1
        injection heq1 with ho hs
        subst ho
        subst hs
        have hrec' : lexSkip { cfg with collectComments := b } input st2' = .error e := by
          have h3 := ih
          rw [hrec] at h3
          rcases hy : lexSkip { cfg with collectComments := b } input st2' with e3 | p3
          · rw [hy] at h3
            simp only [Except.map, Except.error.injEq] at h3
            rw [h3]
          · rw [hy] at h3
            simp [Except.map] at h3
        split
        · rename_i e2 heq2
          rw [hrec'] at heq2
          injection heq2 with heq2
          subst heq2
          split
          · rename_i e3 heq3
            rw [hcom] at heq3
            exact Except.noConfusion heq3
          · rename_i oc2 st22 heq3
            rw [hcom] at heq3
            injection heq3 with heq3
            injection heq3 with ho2 hs2
            subst ho2
            subst hs2
            rw [hrec]
        · rename_i cs3 st33 heq2
          rw [hrec'] at heq2
          exact Except.noConfusion heq2
  | case3 st hc oc st2 hcom cs st3 hrec ih =>
    have h2 := scanComment_cc cfg b input (skipWhiteSpace input st)
    rw [hcom] at h2
    rcases hx : scanComment { cfg with collectComments := b } input (skipWhiteSpace input st)
      with e' | ⟨oc', st2'⟩
    · rw [hx] at h2
      simp [Except.map] at h2
    · rw [hx] at h2
      simp only [Except.map, Except.ok.injEq] at h2
      subst h2
      conv_lhs => rw [lexSkip]
      conv_rhs => rw [lexSkip]
      simp only [dif_pos hc]
      split
      · rename_i e1 heq1
        rw [hx] at heq1
        exact Except.noConfusion heq1
      · rename_i oc1 st21 heq1
        rw [hx] at heq1
        injection heq1 with heq1
        injection heq1 with ho hs
        subst ho
        subst hs
        have h3 := ih
        rw [hrec] at h3
        split
        · rename_i e2 heq2
          rw [heq2] at h3
          simp [Except.map] at h3
        · rename_i cs3 st33 heq2
          rw [heq2] at h3
          simp only [Except.map, Except.ok.injEq] at h3
          subst h3
          split
          · rename_i e3 heq3
            rw [hcom] at heq3
            exact Except.noConfusion heq3
          · rename_i oc2 st22 heq3
            rw [hcom] at heq3
            injection heq3 with heq3
            injection heq3 with ho2 hs2
            subst ho2
            subst hs2
            rw [hrec]
            rfl
  | case4 st hc =>
    conv_lhs => rw [lexSkip]
    conv_rhs => rw [lexSkip]
    simp only [dif_neg hc]

theorem lex_cc (cfg : Config) (b : Bool) (input : List Nat) (st : St) :
    (lex { cfg with collectComments := b } input st).map (fun p => (p.1, p.2.2))
      = (lex cfg input st).map (fun p => (p.1, p.2.2)) := by
  have hsk := lexSkip_cc cfg b input st
  simp only [lex]
  rcases h2 : lexSkip cfg input st with e2 | ⟨cs2, st21⟩ <;>
    rcases h1 : lexSkip { cfg with collectComments := b } input st with e1 | ⟨cs1, st11⟩ <;>
      rw [h1, h2] at hsk
  · simp only [Except.map, Except.error.injEq] at hsk
    subst hsk
    rfl
  · simp [Except.map] at hsk
  · simp [Except.map] at hsk
  · simp only [Except.map, Except.ok.injEq] at hsk
    subst hsk
    by_cases hlen : input.length ≤ st11.index
    · simp [hlen, Except.map]
    · rcases hd : dispatch cfg input st11 with e | ⟨t, st2⟩ <;>
        simp [hlen, hd, dispatch_cc, Except.map]

theorem mainLoop_cc (cfg : Config) (b : Bool) (input : List Nat) (st : St) :
    (mainLoop { cfg with collectComments := b } input st).1 = (mainLoop cfg input st).1
    ∧ (mainLoop { cfg with collectComments := b } input st).2.2
        = (mainLoop cfg input st).2.2 := by
  induction st using mainLoop.induct cfg input with
  | case1 x e hl =>
    have hl' : lex { cfg with collectComments := b } input x = .error e := by
      have h := lex_cc cfg b input x
      rw [hl] at h
      rcases hy : lex { cfg with collectComments := b } input x with e1 | p1
      · rw [hy] at h
        simp only [Except.map, Except.error.injEq] at h
        rw [h]
      · rw [hy] at h
        simp [Except.map] at h
    rw [mainLoop]
    rw [mainLoop]
    split
    · rename_i e1 heq1
      rw [hl'] at heq1
      injection heq1 with heq1
      subst heq1
      split
      · rename_i e2 heq2
        rw [hl] at heq2
        injection heq2 with heq2
        subst heq2
        exact ⟨rfl, rfl⟩
      · rename_i cs2 snd2 heq2
        rw [hl] at heq2
        exact Except.noConfusion heq2
      · rename_i t2 cs2 st22 heq2
        rw [hl] at heq2
        exact Except.noConfusion heq2
    · rename_i cs1 snd1 heq1
      rw [hl'] at heq1
      exact Except.noConfusion heq1
    · rename_i t1 cs1 st21 heq1
      rw [hl'] at heq1
      exact Except.noConfusion heq1
  | case2 x cs snd hl =>
    have hl' : ∃ cs1, lex { cfg with collectComments := b } input x
        = .ok (none, cs1, snd) := by
      have h := lex_cc cfg b input x
      rw [hl] at h
      rcases hy : lex { cfg with collectComments := b } input x with e1 | ⟨o1, cs1, st1⟩
      · rw [hy] at h
        simp [Except.map] at h
      · rw [hy] at h
        simp only [Except.map, Except.ok.injEq, Prod.mk.injEq] at h
        exact ⟨cs1, by rw [h.1, h.2]⟩
    obtain ⟨cs1, hl'⟩ := hl'
    rw [mainLoop]
    rw [mainLoop]
    split
    · rename_i e1 heq1
      rw [hl'] at heq1
      exact Except.noConfusion heq1
    · rename_i cs1' snd1 heq1
      rw [hl'] at heq1
      injection heq1 with heq1
      injection heq1 with ho heq1
      injection heq1 with hcs hsnd
      subst hsnd
      split
      · rename_i e2 heq2
        rw [hl] at heq2
        exact Except.noConfusion heq2
      · rename_i cs2' snd2 heq2
        rw [hl] at heq2
        injection heq2 with heq2
        injection heq2 with ho2 heq2
        injection heq2 with hcs2 hsnd2
        exact ⟨rfl, rfl⟩
      · rename_i t2 cs2' st22 heq2
        rw [hl] at heq2
        injection heq2 with heq2
        injection heq2 with ho2 heq2
        exact Option.noConfusion ho2
    · rename_i t1 cs1' st21 heq1
      rw [hl'] at heq1
      injection heq1 with heq1
      injection heq1 with ho heq1
      exact Option.noConfusion ho
  | case3 x t cs st2 hl ts cs2 er hm ih =>
    have hl' : ∃ cs1, lex { cfg with collectComments := b } input x
        = .ok (some t, cs1, st2) := by
      have h := lex_cc cfg b input x
      rw [hl] at h
      rcases hy : lex { cfg with collectComments := b } input x with e1 | ⟨o1, cs1, st1⟩
      · rw [hy] at h
        simp [Except.map] at h
      · rw [hy] at h
        simp only [Except.map, Except.ok.injEq, Prod.mk.injEq] at h
        exact ⟨cs1, by rw [h.1, h.2]⟩
    obtain ⟨cs1, hl'⟩ := hl'
    rw [mainLoop]
    rw [mainLoop]
    split
    · rename_i e1 heq1
      rw [hl'] at heq1
      exact Except.noConfusion heq1
    · rename_i cs1' snd1 heq1
      rw [hl'] at heq1
      injection heq1 with heq1
      injection heq1 with ho heq1
      exact Option.noConfusion ho
    · rename_i t1 cs1' st21 heq1
      rw [hl'] at heq1
      injection heq1 with heq1
      injection heq1 with ho heq1
      injection heq1 with hcs hst
      injection ho with ho
      subst ho
      subst hst
      rcases hm' : mainLoop { cfg with collectComments := b } input st2 with ⟨ts', cs3', er'⟩
      simp only [hm']
      split
      · rename_i e2 heq2
        rw [hl] at heq2
        exact Except.noConfusion heq2
      · rename_i cs2' snd2 heq2
        rw [hl] at heq2
        injection heq2 with heq2
        injection heq2 with ho2 heq2
        exact Option.noConfusion ho2
      · rename_i t2 cs2' st22 heq2
        rw [hl] at heq2
        injection heq2 with heq2
        injection heq2 with ho2 heq2
        injection heq2 with hcs2 hst2
        injection ho2 with ho2
        subst ho2
        subst hst2
        simp only [hm]
        rw [hm', hm] at ih
        simp only at ih
        exact ⟨by rw [ih.1], ih.2⟩

unseal skipWhile skipWhiteSpace scanStringLoop longLoop lexSkip mainLoop in
/-- C10: comment collection is inert.  For every configuration and input,
toggling the collectComments option changes neither the token list nor the
lexical error of a run: projecting the comments away, tokenize yields the
same result under either setting of the flag.  The flag is read only when
a comment record is built, never to influence scanning, state, or errors.
Concretely, on a line comment followed by an identifier the two runs yield
the same single identifier token and no error, and differ only in the
collected Comment record. -/
theorem C10_comments_inert :
    (∀ (cfg : Config) (b : Bool) (input : List Nat),
      (tokenize { cfg with collectComments := b } input).map (fun r => (r.1, r.2.2))
        = (tokenize cfg input).map (fun r => (r.1, r.2.2)))
    ∧ tokenize { configOf .v51 with collectComments := true } (strCodes "--c\nx")
        = some ([⟨.identifier, .str [120], 2, 4, (4, 5), none, none⟩],
                [⟨[99], [45, 45, 99], 1, 0, 1, 3, (0, 3)⟩], none)
    ∧ tokenize (configOf .v51) (strCodes "--c\nx")
        = some ([⟨.identifier, .str [120], 2, 4, (4, 5), none, none⟩], [], none) := by
  refine ⟨?_, rfl, rfl⟩
  intro cfg b input
  simp only [tokenize]
  by_cases hsb : cfg.ignoreShebang ∧ input[0]? = some 35 ∧ input[1]? = some 33
  · rw [if_pos hsb, if_pos (by simpa using hsb)]
    rcases hs : shebangLoop input ⟨0, 1, 0⟩ (input.length + 1) with _ | st1
    · rfl
    · simp only [Option.map]
      rw [(mainLoop_cc cfg b input st1).1, (mainLoop_cc cfg b input st1).2]
  · rw [if_neg hsb, if_neg (by simpa using hsb)]
    simp only [Option.map]
    rw [(mainLoop_cc cfg b input ⟨0, 1, 0⟩).1, (mainLoop_cc cfg b input ⟨0, 1, 0⟩).2]


theorem slice_get (input : List Nat) (a b m : Nat) :
    (sliceCodes input a b)[m]? = if a + m < b then input[a + m]? else none := by
  unfold sliceCodes
  rw [List.getElem?_drop]
  split
  · rename_i hlt
    by_cases hl : a + m < input.length
    · rw [List.getElem?_take_of_lt hlt]
    · rw [List.getElem?_eq_none (by simp [List.length_take]; omega),
        List.getElem?_eq_none (by omega)]
  · rename_i hge
    rw [List.getElem?_eq_none (by simp [List.length_take]; omega)]

theorem skipWhile_stop2 (p : Nat → Bool) (input : List Nat) (i : Nat) :
    testO p input[skipWhile p input i]? = false := by
  induction i using skipWhile.induct p input with
  | case1 i hlt hp ih =>
    rw [skipWhile, dif_pos hlt, if_pos hp]
    exact ih
  | case2 i hlt hp =>
    rw [skipWhile, dif_pos hlt, if_neg hp]
    rw [List.getElem?_eq_getElem hlt]
    simpa [testO] using hp
  | case3 i hlt =>
    rw [skipWhile, dif_neg hlt]
    rw [List.getElem?_eq_none (by omega)]
    simp [testO]

theorem skipWhile_mem (p : Nat → Bool) (input : List Nat) (i : Nat) :
    ∀ k, i ≤ k → k < skipWhile p input i → testO p input[k]? = true := by
  induction i using skipWhile.induct p input with
  | case1 i hlt hp ih =>
    intro k hik hk
    rcases Nat.eq_or_lt_of_le hik with rfl | hik2
    · rw [List.getElem?_eq_getElem hlt]
      simpa [testO] using hp
    · rw [skipWhile, dif_pos hlt, if_pos hp] at hk
      exact ih k hik2 hk
  | case2 i hlt hp =>
    intro k hik hk
    rw [skipWhile, dif_pos hlt, if_neg hp] at hk
    omega
  | case3 i hlt =>
    intro k hik hk
    rw [skipWhile, dif_neg hlt] at hk
    omega

theorem skipWhile_eq_of (p : Nat → Bool) (input : List Nat) (i j : Nat)
    (hij : i ≤ j)
    (hin : ∀ k, i ≤ k → k < j → testO p input[k]? = true)
    (hj : testO p input[j]? = false) :
    skipWhile p input i = j := by
  rcases Nat.eq_or_lt_of_le hij with rfl | hlt
  · exact skipWhile_stop p input i hj
  · have hc : testO p input[i]? = true := hin i (Nat.le_refl _) hlt
    rw [skipWhile_succ p input i hc]
    exact skipWhile_eq_of p input (i + 1) j hlt (fun k hk1 hk2 => hin k (by omega) hk2) hj
termination_by j - i

theorem skipWhile_restrict (p : Nat → Bool) (input : List Nat) (a b i : Nat)
    (ha : a ≤ i) (hb : skipWhile p input i ≤ b) :
    skipWhile p (sliceCodes input a b) (i - a) = skipWhile p input i - a := by
  have hgi := skipWhile_ge p input i
  apply skipWhile_eq_of
  · omega
  · intro k hk1 hk2
    rw [slice_get]
    rw [if_pos (by omega)]
    exact skipWhile_mem p input i (a + k) (by omega) (by omega)
  · rw [slice_get]
    split
    · rw [show a + (skipWhile p input i - a) = skipWhile p input i from by omega]
      exact skipWhile_stop2 p input i
    · simp [testO]

theorem sliceCodes_zero_take (s : List Nat) (m : Nat) : sliceCodes s 0 m = s.take m := by
  unfold sliceCodes
  simp

theorem sliceCodes_zero_all (s : List Nat) (m : Nat) (h : s.length ≤ m) :
    sliceCodes s 0 m = s := by
  rw [sliceCodes_zero_take]
  exact List.take_of_length_le h

theorem sliceCodes_len (input : List Nat) (a b : Nat) :
    (sliceCodes input a b).length = min b input.length - a := by
  unfold sliceCodes
  simp [List.length_take]

theorem readDecLiteral_restrict (input : List Nat) (st : St) (q : ℚ) (st2 : St) (l0 ls0 : Nat)
    (h : readDecLiteral input st = .ok (q, st2)) :
    readDecLiteral (sliceCodes input st.index st2.index) ⟨0, l0, ls0⟩
      = .ok (q, ⟨st2.index - st.index, l0, ls0⟩) := by
  simp only [readDecLiteral] at h ⊢
  by_cases he : input[decFracEnd input (skipWhile isDecDigit input st.index)]? = some 101
      ∨ input[decFracEnd input (skipWhile isDecDigit input st.index)]? = some 69
  · rw [if_pos he] at h
    by_cases hd : ¬ testO isDecDigit
        input[expDigitStart input (decFracEnd input (skipWhile isDecDigit input st.index))]? = true
    · rw [if_pos hd] at h
      exact Except.noConfusion h
    · rw [if_neg hd] at h
      push_neg at hd
      injection h with h
      injection h with hq hst
      have hb : st2.index
          = skipWhile isDecDigit input
              (expDigitStart input (decFracEnd input (skipWhile isDecDigit input st.index))) := by
        rw [← hst]
      have hj1ge := skipWhile_ge isDecDigit input st.index
      have hfge := decFracEnd_ge input (skipWhile isDecDigit input st.index)
      have hege := expDigitStart_ge input (decFracEnd input (skipWhile isDecDigit input st.index))
      have hi3lt : expDigitStart input (decFracEnd input (skipWhile isDecDigit input st.index))
          < skipWhile isDecDigit input
              (expDigitStart input (decFracEnd input (skipWhile isDecDigit input st.index))) := by
        have h2 := skipWhile_ge isDecDigit input
          (expDigitStart input (decFracEnd input (skipWhile isDecDigit input st.index)) + 1)
        rw [skipWhile_succ _ input _ hd]
        omega
      obtain ⟨j1, hJ1⟩ : ∃ x, skipWhile isDecDigit input st.index = x := ⟨_, rfl⟩
      rw [hJ1] at hq hst hb hj1ge hfge hege hi3lt hd he
      obtain ⟨i2, hI2⟩ : ∃ x, decFracEnd input j1 = x := ⟨_, rfl⟩
      rw [hI2] at hq hst hb hfge hege hi3lt hd he
      obtain ⟨i3, hI3⟩ : ∃ x, expDigitStart input i2 = x := ⟨_, rfl⟩
      rw [hI3] at hq hst hb hege hi3lt hd
      obtain ⟨i4, hI4⟩ : ∃ x, skipWhile isDecDigit input i3 = x := ⟨_, rfl⟩
      rw [hI4] at hq hst hb hi3lt
      rw [hb]
      have hidx0 : (⟨0, l0, ls0⟩ : St).index = 0 := rfl
      have G1 : skipWhile isDecDigit (sliceCodes input st.index i4) 0 = j1 - st.index := by
        have hr := skipWhile_restrict isDecDigit input st.index i4 st.index (Nat.le_refl _)
          (by rw [hJ1]; omega)
        rw [show st.index - st.index = 0 from by omega, hJ1] at hr
        exact hr
      have Ga : (sliceCodes input st.index i4)[j1 - st.index]? = input[j1]? := by
        rw [slice_get, if_pos (by omega), show st.index + (j1 - st.index) = j1 from by omega]
      have G2 : decFracEnd (sliceCodes input st.index i4) (j1 - st.index) = i2 - st.index := by
        rw [decFracEnd, Ga]
        by_cases hfr : input[j1]? = some 46
        · rw [if_pos hfr]
          rw [decFracEnd, if_pos hfr] at hI2
          have hr := skipWhile_restrict isDecDigit input st.index i4 (j1 + 1) (by omega)
            (by rw [hI2]; omega)
          rw [show j1 + 1 - st.index = j1 - st.index + 1 from by omega, hI2] at hr
          exact hr
        · rw [if_neg hfr]
          rw [decFracEnd, if_neg hfr] at hI2
          omega
      have G3 : (sliceCodes input st.index i4)[i2 - st.index]? = input[i2]? := by
        rw [slice_get, if_pos (by omega), show st.index + (i2 - st.index) = i2 from by omega]
      have Gb : (sliceCodes input st.index i4)[i2 - st.index + 1]? = input[i2 + 1]? := by
        rw [slice_get, if_pos (by omega), show st.index + (i2 - st.index + 1) = i2 + 1 from by omega]
      have G4 : expDigitStart (sliceCodes input st.index i4) (i2 - st.index) = i3 - st.index := by
        rw [expDigitStart, Gb]
        by_cases hs : input[i2 + 1]? = some 43 ∨ input[i2 + 1]? = some 45
        · rw [if_pos hs]
          rw [expDigitStart, if_pos hs] at hI3
          omega
        · rw [if_neg hs]
          rw [expDigitStart, if_neg hs] at hI3
          omega
      have G5 : (sliceCodes input st.index i4)[i3 - st.index]? = input[i3]? := by
        rw [slice_get, if_pos (by omega), show st.index + (i3 - st.index) = i3 from by omega]
      have G6 : skipWhile isDecDigit (sliceCodes input st.index i4) (i3 - st.index)
          = i4 - st.index := by
        have hr := skipWhile_restrict isDecDigit input st.index i4 i3 (by omega)
          (by rw [hI4])
        rw [hI4] at hr
        exact hr
      have G7 : sliceCodes (sliceCodes input st.index i4) 0 (i4 - st.index)
          = sliceCodes input st.index i4 := by
        apply sliceCodes_zero_all
        rw [sliceCodes_len]
        omega
      rw [G1, G2, G3, if_pos he, G4, G5]
      rw [if_neg (by simp [hd])]
      rw [G6, G7, hq]
  · rw [if_neg he] at h
    injection h with h
    injection h with hq hst
    have hb : st2.index = decFracEnd input (skipWhile isDecDigit input st.index) := by
      rw [← hst]
    have hj1ge := skipWhile_ge isDecDigit input st.index
    have hfge := decFracEnd_ge input (skipWhile isDecDigit input st.index)
    obtain ⟨j1, hJ1⟩ : ∃ x, skipWhile isDecDigit input st.index = x := ⟨_, rfl⟩
    rw [hJ1] at hq hst hb hj1ge hfge he
    obtain ⟨i2, hI2⟩ : ∃ x, decFracEnd input j1 = x := ⟨_, rfl⟩
    rw [hI2] at hq hst hb hfge he
    rw [hb]
    have hidx0 : (⟨0, l0, ls0⟩ : St).index = 0 := rfl
    have G1 : skipWhile isDecDigit (sliceCodes input st.index i2) 0 = j1 - st.index := by
      have hr := skipWhile_restrict isDecDigit input st.index i2 st.index (Nat.le_refl _)
        (by rw [hJ1]; omega)
      rw [show st.index - st.index = 0 from by omega, hJ1] at hr
      exact hr
    have G2 : decFracEnd (sliceCodes input st.index i2) (j1 - st.index) = i2 - st.index := by
      by_cases hfr : input[j1]? = some 46
      · rw [decFracEnd, if_pos hfr] at hI2
        have hj1lt : j1 < i2 := by
          have := skipWhile_ge isDecDigit input (j1 + 1)
          omega
        have Ga : (sliceCodes input st.index i2)[j1 - st.index]? = input[j1]? := by
          rw [slice_get, if_pos (by omega), show st.index + (j1 - st.index) = j1 from by omega]
        rw [decFracEnd, Ga, if_pos hfr]
        have hr := skipWhile_restrict isDecDigit input st.index i2 (j1 + 1) (by omega)
          (Nat.le_of_eq hI2)
        rw [show j1 + 1 - st.index = j1 - st.index + 1 from by omega, hI2] at hr
        exact hr
      · rw [decFracEnd, if_neg hfr] at hI2
        have Ga : (sliceCodes input st.index i2)[j1 - st.index]? = none := by
          rw [slice_get, if_neg (by omega)]
        rw [decFracEnd, Ga]
        rw [if_neg (by intro hh; exact Option.noConfusion hh)]
        omega
    have G3 : (sliceCodes input st.index i2)[i2 - st.index]? = none := by
      rw [slice_get, if_neg (by omega)]
    have G7 : sliceCodes (sliceCodes input st.index i2) 0 (i2 - st.index)
        = sliceCodes input st.index i2 := by
      apply sliceCodes_zero_all
      rw [sliceCodes_len]
      omega
    rw [G1, G2, G3]
    rw [if_neg (by rintro (hh | hh) <;> exact Option.noConfusion hh)]
    rw [G7, hq]

theorem sliceCodes_sliceCodes (input : List Nat) (a b c d : Nat) (h : a + d ≤ b) :
    sliceCodes (sliceCodes input a b) c d = sliceCodes input (a + c) (a + d) := by
  apply List.ext_getElem?
  intro m
  rw [slice_get (sliceCodes input a b) c d m, slice_get input (a + c) (a + d) m]
  by_cases h1 : c + m < d
  · rw [if_pos h1, slice_get input a b (c + m), if_pos (by omega), if_pos (by omega),
      show a + (c + m) = a + c + m from by omega]
  · rw [if_neg h1, if_neg (by omega)]

theorem readHexLiteral_restrict (input : List Nat) (st : St) (q : ℚ) (st2 : St) (l0 ls0 : Nat)
    (h : readHexLiteral input st = .ok (q, st2)) :
    readHexLiteral (sliceCodes input st.index st2.index) ⟨0, l0, ls0⟩
      = .ok (q, ⟨st2.index - st.index, l0, ls0⟩) := by
  simp only [readHexLiteral] at h ⊢
  by_cases hd2 : ¬ testO isHexDigit input[st.index + 2]? = true
  · rw [if_pos hd2] at h
    exact Except.noConfusion h
  rw [if_neg hd2] at h
  push_neg at hd2
  have hi1gt : st.index + 2 < skipWhile isHexDigit input (st.index + 2) := by
    have := skipWhile_ge isHexDigit input (st.index + 2 + 1)
    rw [skipWhile_succ _ input _ hd2]
    omega
  obtain ⟨i1, hI1⟩ : ∃ x, skipWhile isHexDigit input (st.index + 2) = x := ⟨_, rfl⟩
  rw [hI1] at h hi1gt
  have hfge := hexFraction_ge input i1
  obtain ⟨p2, hP2⟩ : ∃ x, (hexFraction input i1).2 = x := ⟨_, rfl⟩
  rw [hP2] at h hfge
  by_cases he : input[p2]? = some 112 ∨ input[p2]? = some 80
  · rw [if_pos he] at h
    by_cases hd3 : ¬ testO isDecDigit input[expDigitStart input p2]? = true
    · rw [if_pos hd3] at h
      exact Except.noConfusion h
    rw [if_neg hd3] at h
    push_neg at hd3
    injection h with h
    injection h with hq hst
    obtain ⟨i3, hI3⟩ : ∃ x, expDigitStart input p2 = x := ⟨_, rfl⟩
    rw [hI3] at hq hst hd3
    have hege : p2 + 1 ≤ i3 := by rw [← hI3]; exact expDigitStart_ge input p2
    have hi4gt : i3 < skipWhile isDecDigit input i3 := by
      have := skipWhile_ge isDecDigit input (i3 + 1)
      rw [skipWhile_succ _ input _ hd3]
      omega
    obtain ⟨i4, hI4⟩ : ∃ x, skipWhile isDecDigit input i3 = x := ⟨_, rfl⟩
    rw [hI4] at hq hst hi4gt
    have hb : st2.index = i4 := by rw [← hst]
    rw [hb]
    have T0 : (sliceCodes input st.index i4)[0 + 2]? = input[st.index + 2]? := by
      rw [slice_get, if_pos (by omega)]
    have T1 : skipWhile isHexDigit (sliceCodes input st.index i4) (0 + 2) = i1 - st.index := by
      have hr := skipWhile_restrict isHexDigit input st.index i4 (st.index + 2) (by omega)
        (by rw [hI1]; omega)
      rw [show st.index + 2 - st.index = 0 + 2 from by omega, hI1] at hr
      exact hr
    have TD : sliceCodes (sliceCodes input st.index i4) (0 + 2) (i1 - st.index)
        = sliceCodes input (st.index + 2) i1 := by
      rw [sliceCodes_sliceCodes input st.index i4 (0 + 2) (i1 - st.index) (by omega)]
      rw [show st.index + (0 + 2) = st.index + 2 from by omega,
        show st.index + (i1 - st.index) = i1 from by omega]
    have TF : hexFraction (sliceCodes input st.index i4) (i1 - st.index)
        = ((hexFraction input i1).1, p2 - st.index) := by
      by_cases hf : input[i1]? = some 46
      · have hp2f : skipWhile isHexDigit input (i1 + 1) = p2 := by
          rw [← hP2, hexFraction, if_pos hf]
        have hp2gt : i1 < p2 := by
          have := skipWhile_ge isHexDigit input (i1 + 1)
          omega
        have Ga : (sliceCodes input st.index i4)[i1 - st.index]? = input[i1]? := by
          rw [slice_get, if_pos (by omega), show st.index + (i1 - st.index) = i1 from by omega]
        have hr2 := skipWhile_restrict isHexDigit input st.index i4 (i1 + 1) (by omega)
          (by rw [hp2f]; omega)
        rw [show i1 + 1 - st.index = i1 - st.index + 1 from by omega, hp2f] at hr2
        simp only [hexFraction]
        rw [Ga]
        rw [if_pos hf, if_pos hf]
        dsimp only
        rw [hp2f, hr2]
        by_cases hz : i1 + 1 = p2
        · rw [if_pos (by omega), if_pos hz]
        · rw [if_neg (by omega), if_neg hz]
          rw [sliceCodes_sliceCodes input st.index i4 (i1 - st.index + 1) (p2 - st.index)
            (by omega)]
          rw [show st.index + (i1 - st.index + 1) = i1 + 1 from by omega,
            show st.index + (p2 - st.index) = p2 from by omega,
            show p2 - st.index - (i1 - st.index + 1) = p2 - (i1 + 1) from by omega]
      · have hp2i1 : p2 = i1 := by
          rw [← hP2, hexFraction, if_neg hf]
        have Ga : (sliceCodes input st.index i4)[i1 - st.index]?
            = if i1 < i4 then input[i1]? else none := by
          rw [slice_get]
          by_cases h1 : i1 < i4
          · rw [if_pos (by omega), if_pos h1,
              show st.index + (i1 - st.index) = i1 from by omega]
          · rw [if_neg (by omega), if_neg h1]
        simp only [hexFraction]
        rw [Ga, if_neg hf]
        dsimp only
        rw [hp2i1]
        by_cases h1 : i1 < i4
        · rw [if_pos h1, if_neg hf]
        · rw [if_neg h1, if_neg (by intro hh; exact Option.noConfusion hh)]
    have T3 : (sliceCodes input st.index i4)[p2 - st.index]? = input[p2]? := by
      rw [slice_get, if_pos (by omega), show st.index + (p2 - st.index) = p2 from by omega]
    have Tb : (sliceCodes input st.index i4)[p2 - st.index + 1]? = input[p2 + 1]? := by
      rw [slice_get, if_pos (by omega), show st.index + (p2 - st.index + 1) = p2 + 1 from by omega]
    have T4 : expDigitStart (sliceCodes input st.index i4) (p2 - st.index) = i3 - st.index := by
      rw [expDigitStart, Tb]
      by_cases hs : input[p2 + 1]? = some 43 ∨ input[p2 + 1]? = some 45
      · rw [if_pos hs]
        rw [expDigitStart, if_pos hs] at hI3
        omega
      · rw [if_neg hs]
        rw [expDigitStart, if_neg hs] at hI3
        omega
    have TS : expSign (sliceCodes input st.index i4) (p2 - st.index) = expSign input p2 := by
      rw [expSign, expSign, Tb]
    have T5 : (sliceCodes input st.index i4)[i3 - st.index]? = input[i3]? := by
      rw [slice_get, if_pos (by omega), show st.index + (i3 - st.index) = i3 from by omega]
    have T6 : skipWhile isDecDigit (sliceCodes input st.index i4) (i3 - st.index)
        = i4 - st.index := by
      have hr := skipWhile_restrict isDecDigit input st.index i4 i3 (by omega)
        (by rw [hI4])
      rw [hI4] at hr
      exact hr
    have TE : sliceCodes (sliceCodes input st.index i4) (i3 - st.index) (i4 - st.index)
        = sliceCodes input i3 i4 := by
      rw [sliceCodes_sliceCodes input st.index i4 (i3 - st.index) (i4 - st.index) (by omega)]
      rw [show st.index + (i3 - st.index) = i3 from by omega,
        show st.index + (i4 - st.index) = i4 from by omega]
    rw [if_neg (by rw [T0]; simp [hd2])]
    rw [T1, TD, TF]
    rw [if_pos (by rw [T3]; exact he)]
    rw [T4, T5]
    rw [if_neg (by simp [hd3])]
    rw [T6, TS, TE, hq]
  · rw [if_neg he] at h
    injection h with h
    injection h with hq hst
    have hb : st2.index = p2 := by rw [← hst]
    rw [hb]
    have T0 : (sliceCodes input st.index p2)[0 + 2]? = input[st.index + 2]? := by
      rw [slice_get, if_pos (by omega)]
    have T1 : skipWhile isHexDigit (sliceCodes input st.index p2) (0 + 2) = i1 - st.index := by
      have hr := skipWhile_restrict isHexDigit input st.index p2 (st.index + 2) (by omega)
        (by rw [hI1]; omega)
      rw [show st.index + 2 - st.index = 0 + 2 from by omega, hI1] at hr
      exact hr
    have TD : sliceCodes (sliceCodes input st.index p2) (0 + 2) (i1 - st.index)
        = sliceCodes input (st.index + 2) i1 := by
      rw [sliceCodes_sliceCodes input st.index p2 (0 + 2) (i1 - st.index) (by omega)]
      rw [show st.index + (0 + 2) = st.index + 2 from by omega,
        show st.index + (i1 - st.index) = i1 from by omega]
    have TF : hexFraction (sliceCodes input st.index p2) (i1 - st.index)
        = ((hexFraction input i1).1, p2 - st.index) := by
      by_cases hf : input[i1]? = some 46
      · have hp2f : skipWhile isHexDigit input (i1 + 1) = p2 := by
          rw [← hP2, hexFraction, if_pos hf]
        have hp2gt : i1 < p2 := by
          have := skipWhile_ge isHexDigit input (i1 + 1)
          omega
        have Ga : (sliceCodes input st.index p2)[i1 - st.index]? = input[i1]? := by
          rw [slice_get, if_pos (by omega), show st.index + (i1 - st.index) = i1 from by omega]
        have hr2 := skipWhile_restrict isHexDigit input st.index p2 (i1 + 1) (by omega)
          (Nat.le_of_eq hp2f)
        rw [show i1 + 1 - st.index = i1 - st.index + 1 from by omega, hp2f] at hr2
        simp only [hexFraction]
        rw [Ga]
        rw [if_pos hf, if_pos hf]
        dsimp only
        rw [hp2f, hr2]
        by_cases hz : i1 + 1 = p2
        · rw [if_pos (by omega), if_pos hz]
        · rw [if_neg (by omega), if_neg hz]
          rw [sliceCodes_sliceCodes input st.index p2 (i1 - st.index + 1) (p2 - st.index)
            (by omega)]
          rw [show st.index + (i1 - st.index + 1) = i1 + 1 from by omega,
            show st.index + (p2 - st.index) = p2 from by omega,
            show p2 - st.index - (i1 - st.index + 1) = p2 - (i1 + 1) from by omega]
      · have hp2i1 : p2 = i1 := by
          rw [← hP2, hexFraction, if_neg hf]
        have Ga : (sliceCodes input st.index p2)[i1 - st.index]? = none := by
          rw [slice_get, if_neg (by omega)]
        simp only [hexFraction]
        rw [Ga, if_neg (by intro hh; exact Option.noConfusion hh), if_neg hf]
        dsimp only
        rw [hp2i1]
    have T3 : (sliceCodes input st.index p2)[p2 - st.index]? = none := by
      rw [slice_get, if_neg (by omega)]
    rw [if_neg (by rw [T0]; simp [hd2])]
    rw [T1, TD, TF]
    rw [if_neg (by rw [T3]; rintro (hh | hh) <;> exact Option.noConfusion hh)]
    rw [hq]

theorem decFracEnd_le (input : List Nat) (i1 : Nat) (h : i1 ≤ input.length) :
    decFracEnd input i1 ≤ input.length := by
  rw [decFracEnd]
  split
  · rename_i hf
    have := lt_of_getElem?_eq_some input i1 46 hf
    exact skipWhile_le _ input _ (by omega)
  · exact h

theorem readDecLiteral_le_len (input : List Nat) (st : St) (q : ℚ) (st2 : St)
    (hlen : st.index ≤ input.length)
    (h : readDecLiteral input st = .ok (q, st2)) : st2.index ≤ input.length := by
  simp only [readDecLiteral] at h
  have h1 : skipWhile isDecDigit input st.index ≤ input.length :=
    skipWhile_le _ input _ hlen
  have h2 : decFracEnd input (skipWhile isDecDigit input st.index) ≤ input.length :=
    decFracEnd_le input _ h1
  split at h
  · split at h
    · exact Except.noConfusion h
    · rename_i hd
      push_neg at hd
      injection h with h3
      injection h3 with h4 h5
      rw [← h5]
      have := lt_of_testO _ input _ hd
      exact skipWhile_le _ input _ (by omega)
  · injection h with h3
    injection h3 with h4 h5
    rw [← h5]
    exact h2

theorem readHexLiteral_le_len (input : List Nat) (st : St) (q : ℚ) (st2 : St)
    (hlen : st.index ≤ input.length)
    (h : readHexLiteral input st = .ok (q, st2)) : st2.index ≤ input.length := by
  simp only [readHexLiteral] at h
  split at h
  · exact Except.noConfusion h
  · rename_i hd2
    push_neg at hd2
    have hlt2 := lt_of_testO _ input _ hd2
    have h1 : skipWhile isHexDigit input (st.index + 2) ≤ input.length :=
      skipWhile_le _ input _ (by omega)
    have h2 : (hexFraction input (skipWhile isHexDigit input (st.index + 2))).2
        ≤ input.length := by
      rw [hexFraction]
      split
      · rename_i hf
        have := lt_of_getElem?_eq_some input _ 46 hf
        exact skipWhile_le _ input _ (by omega)
      · exact h1
    split at h
    · split at h
      · exact Except.noConfusion h
      · rename_i hd3
        push_neg at hd3
        injection h with h3
        injection h3 with h4 h5
        rw [← h5]
        have := lt_of_testO _ input _ hd3
        exact skipWhile_le _ input _ (by omega)
    · injection h with h3
      injection h3 with h4 h5
      rw [← h5]
      exact h2

theorem scanNumericLiteral_value (input : List Nat) (st : St) (t : Token) (st2 : St)
    (hlen : st.index ≤ input.length)
    (h : scanNumericLiteral input st = .ok (t, st2)) :
    ∃ q, t.value = .num q ∧ t.type = .numericLit ∧ t.range = (st.index, st2.index)
      ∧ scanNumericLiteral (sliceCodes input st.index st2.index) ⟨0, 1, 0⟩
          = .ok (⟨.numericLit, .num q, 1, 0, (0, st2.index - st.index), none, none⟩,
                 ⟨st2.index - st.index, 1, 0⟩)
      ∧ (sliceCodes input st.index st2.index).length = st2.index - st.index := by
  simp only [scanNumericLiteral] at h
  by_cases hc : input[st.index]? = some 48
      ∧ (input[st.index + 1]? = some 120 ∨ input[st.index + 1]? = some 88)
  · rw [if_pos hc] at h
    rcases hr : readHexLiteral input st with e | ⟨v, stv⟩ <;> rw [hr] at h
    · exact Except.noConfusion h
    · injection h with h3
      injection h3 with h4 h5
      subst stv
      have hgt := readHexLiteral_index input st v st2 hr
      have hle := readHexLiteral_le_len input st v st2 hlen hr
      have hres := readHexLiteral_restrict input st v st2 1 0 hr
      refine ⟨v, by rw [← h4], by rw [← h4], by rw [← h4], ?_, ?_⟩
      · simp only [scanNumericLiteral]
        rw [if_pos ?hcs]
        case hcs =>
          constructor
          · rw [slice_get, if_pos (by omega), show st.index + 0 = st.index from by omega]
            exact hc.1
          · rw [slice_get, if_pos (by omega), show st.index + (0 + 1) = st.index + 1 from by omega]
            exact hc.2
        rw [hres]
      · rw [sliceCodes_len]
        omega
  · rw [if_neg hc] at h
    rcases hr : readDecLiteral input st with e | ⟨v, stv⟩ <;> rw [hr] at h
    · exact Except.noConfusion h
    · injection h with h3
      injection h3 with h4 h5
      subst stv
      have hle := readDecLiteral_le_len input st v st2 hlen hr
      have hres := readDecLiteral_restrict input st v st2 1 0 hr
      refine ⟨v, by rw [← h4], by rw [← h4], by rw [← h4], ?_, ?_⟩
      · simp only [scanNumericLiteral]
        rw [if_neg ?hcs]
        case hcs =>
          intro hcs
          apply hc
          by_cases hab : st.index < st2.index
          · constructor
            · rw [slice_get, if_pos (by omega), show st.index + 0 = st.index from by omega] at hcs
              exact hcs.1
            · rcases hcs with ⟨hcs1, hcs2 | hcs2⟩ <;>
                [left; right] <;>
                (rw [slice_get] at hcs2
                 split at hcs2
                 · rw [show st.index + (0 + 1) = st.index + 1 from by omega] at hcs2
                   exact hcs2
                 · exact Option.noConfusion hcs2)
          · rw [slice_get, if_neg (by omega)] at hcs
            exact absurd hcs.1 (by simp)
        rw [hres]
      · rw [sliceCodes_len]
        omega

theorem okPairFst {α : Type} {X : α × St} {t : α} {st2 : St}
    (h : (Except.ok X : Except LexErr (α × St)) = .ok (t, st2)) : t = X.1 := by
  injection h with h2
  rw [h2]

theorem slice_one (input : List Nat) (i c : Nat) (h : input[i]? = some c) :
    sliceCodes input i (i + 1) = [c] := by
  rw [sliceCodes_cons input i (i + 1) c h (by omega), sliceCodes_eq_nil input _ _ (by omega)]

theorem slice_two (input : List Nat) (i c d : Nat)
    (hc : input[i]? = some c) (hd : input[i + 1]? = some d) :
    sliceCodes input i (i + 2) = [c, d] := by
  rw [sliceCodes_cons input i (i + 2) c hc (by omega),
    sliceCodes_cons input (i + 1) (i + 2) d hd (by omega),
    sliceCodes_eq_nil input _ _ (by omega)]

theorem slice_three (input : List Nat) (i c d e : Nat)
    (hc : input[i]? = some c) (hd : input[i + 1]? = some d) (he : input[i + 2]? = some e) :
    sliceCodes input i (i + 3) = [c, d, e] := by
  rw [sliceCodes_cons input i (i + 3) c hc (by omega),
    sliceCodes_cons input (i + 1) (i + 3) d hd (by omega),
    sliceCodes_cons input (i + 2) (i + 3) e he (by omega),
    sliceCodes_eq_nil input _ _ (by omega)]

/-- The lexeme property of one token: its half-open range slices the input
to the text that spells the token.  Punctuators and varargs slice to their
literal text; identifier-like tokens slice to the written identifier whose
encoding fixup is the decoded value, keywords, booleans and nil among them
spelling their keyword; a numeric literal's slice re-scans as a numeral
consuming the whole slice and decoding to the token's value.  String
literals are exempt (their range includes the delimiters). -/
def lexemeProp (input : List Nat) (t : Token) : Prop :=
  match t.type with
  | .stringLit => True
  | .punctuator => t.value = .str (sliceCodes input t.range.1 t.range.2)
  | .varargLit => sliceCodes input t.range.1 t.range.2 = [46, 46, 46]
  | .keyword => t.value = .str (fixupHighCharacters (sliceCodes input t.range.1 t.range.2))
  | .identifier => t.value = .str (fixupHighCharacters (sliceCodes input t.range.1 t.range.2))
  | .booleanLit =>
      t.value = .bool (fixupHighCharacters (sliceCodes input t.range.1 t.range.2)
        = strCodes "true")
  | .nilLit => fixupHighCharacters (sliceCodes input t.range.1 t.range.2) = strCodes "nil"
  | .numericLit => ∃ q, t.value = .num q
      ∧ scanNumericLiteral (sliceCodes input t.range.1 t.range.2) ⟨0, 1, 0⟩
          = .ok (⟨.numericLit, .num q, 1, 0, (0, t.range.2 - t.range.1), none, none⟩,
                 ⟨t.range.2 - t.range.1, 1, 0⟩)
      ∧ (sliceCodes input t.range.1 t.range.2).length = t.range.2 - t.range.1

theorem scanPunctuator_lexeme (input : List Nat) (st1 : St) (v : List Nat)
    (hv : sliceCodes input st1.index (st1.index + v.length) = v) :
    lexemeProp input (scanPunctuator input st1 v).1 := by
  simp only [scanPunctuator, lexemeProp]
  rw [hv]

theorem scanIdentifierOrKeyword_lexeme (cfg : Config) (input : List Nat) (st : St) :
    lexemeProp input (scanIdentifierOrKeyword cfg input st).1 := by
  simp only [scanIdentifierOrKeyword]
  by_cases hk : isKeyword cfg.features (fixupHighCharacters
      (sliceCodes input st.index (skipWhile (isIdentifierPart cfg) input (st.index + 1))))
      = true
  · rw [if_pos hk]
    simp only [lexemeProp]
  · rw [if_neg hk]
    by_cases hb : fixupHighCharacters
          (sliceCodes input st.index (skipWhile (isIdentifierPart cfg) input (st.index + 1)))
            = strCodes "true"
        ∨ fixupHighCharacters
            (sliceCodes input st.index (skipWhile (isIdentifierPart cfg) input (st.index + 1)))
            = strCodes "false"
    · rw [if_pos hb]
      simp only [lexemeProp]
    · rw [if_neg hb]
      by_cases hn : fixupHighCharacters
          (sliceCodes input st.index (skipWhile (isIdentifierPart cfg) input (st.index + 1)))
          = strCodes "nil"
      · rw [if_pos hn]
        simp only [lexemeProp]
        exact hn
      · rw [if_neg hn]
        simp only [lexemeProp]

theorem scanStringLoop_type (f : Features) (input : List Nat) (delimiter : Option Nat)
    (tokenStart beginLine beginLineStart : Nat) (st : St) (stringStart : Nat)
    (acc : List Nat) (t : Token) (st2 : St)
    (h : scanStringLoop f input delimiter tokenStart beginLine beginLineStart st
      stringStart acc = .ok (t, st2)) : t.type = .stringLit := by
  induction st, stringStart, acc
    using scanStringLoop.induct f input delimiter tokenStart beginLine beginLineStart with
  | case1 st stringStart acc hlt hdel =>
    rw [scanStringLoop, dif_pos hlt, if_pos hdel] at h
    injection h with h3
    injection h3 with h4 h5
    rw [← h4]
  | case2 st stringStart acc hlt hdel hbs e hesc =>
    rw [scanStringLoop, dif_pos hlt, if_neg hdel, if_pos hbs] at h
    split at h
    · exact Except.noConfusion h
    · rename_i esc2 st4 heq
      rw [hesc] at heq
      exact Except.noConfusion heq
  | case3 st stringStart acc hlt hdel hbs esc st3 hesc hend =>
    rw [scanStringLoop, dif_pos hlt, if_neg hdel, if_pos hbs] at h
    split at h
    · exact Except.noConfusion h
    · rename_i esc2 st4 heq
      rw [hesc] at heq
      injection heq with heq2
      injection heq2 with ha hb
      subst ha; subst hb
      rw [if_pos hend] at h
      exact Except.noConfusion h
  | case4 st stringStart acc hlt hdel hbs esc st3 hesc hend ih =>
    rw [scanStringLoop, dif_pos hlt, if_neg hdel, if_pos hbs] at h
    split at h
    · exact Except.noConfusion h
    · rename_i esc2 st4 heq
      rw [hesc] at heq
      injection heq with heq2
      injection heq2 with ha hb
      subst ha; subst hb
      rw [if_neg hend] at h
      exact ih h
  | case5 st stringStart acc hlt hdel hbs hend =>
    rw [scanStringLoop, dif_pos hlt, if_neg hdel, if_neg hbs, if_pos hend] at h
    exact Except.noConfusion h
  | case6 st stringStart acc hlt hdel hbs hend ih =>
    rw [scanStringLoop, dif_pos hlt, if_neg hdel, if_neg hbs, if_neg hend] at h
    exact ih h
  | case7 st stringStart acc hlt =>
    rw [scanStringLoop, dif_neg hlt] at h
    injection h with h3
    injection h3 with h4 h5
    rw [← h4]

theorem scanStringLiteral_type (f : Features) (input : List Nat) (st : St) (t : Token) (st2 : St)
    (h : scanStringLiteral f input st = .ok (t, st2)) : t.type = .stringLit := by
  simp only [scanStringLiteral] at h
  exact scanStringLoop_type f input _ _ _ _ _ _ _ t st2 h

theorem scanLongStringLiteral_type (input : List Nat) (st : St) (t : Token) (st2 : St)
    (h : scanLongStringLiteral input st = .ok (t, st2)) : t.type = .stringLit := by
  simp only [scanLongStringLiteral] at h
  split at h
  · exact Except.noConfusion h
  · exact Except.noConfusion h
  · injection h with h3
    injection h3 with h4 h5
    rw [← h4]

theorem scanNumericLiteral_lexeme (input : List Nat) (st : St) (t : Token) (st2 : St)
    (hlen : st.index ≤ input.length)
    (h : scanNumericLiteral input st = .ok (t, st2)) :
    lexemeProp input t := by
  obtain ⟨q, hv, hty, hrange, hscan, hlen2⟩ := scanNumericLiteral_value input st t st2 hlen h
  simp only [lexemeProp]
  rw [hty]
  refine ⟨q, hv, ?_, ?_⟩
  · rw [hrange]
    exact hscan
  · rw [hrange]
    exact hlen2

theorem dispatch_lexeme (cfg : Config) (input : List Nat) (st1 : St) (t : Token) (st2 : St)
    (h : dispatch cfg input st1 = .ok (t, st2)) : lexemeProp input t := by
  simp only [dispatch] at h
  by_cases h1 : testO (isIdentifierStart cfg) input[st1.index]? = true
  · rw [if_pos h1] at h
    rw [okPairFst h]
    exact scanIdentifierOrKeyword_lexeme cfg input st1
  rw [if_neg h1] at h
  by_cases h2 : input[st1.index]? = some 39 ∨ input[st1.index]? = some 34
  · rw [if_pos h2] at h
    simp only [lexemeProp, scanStringLiteral_type cfg.features input st1 t st2 h]
  rw [if_neg h2] at h
  by_cases h3 : testO isDecDigit input[st1.index]? = true
  · rw [if_pos h3] at h
    exact scanNumericLiteral_lexeme input st1 t st2 (by have := lt_of_testO _ input _ h3; omega) h
  rw [if_neg h3] at h
  by_cases h4 : input[st1.index]? = some 46
  · rw [if_pos h4] at h
    by_cases h5 : testO isDecDigit input[st1.index + 1]? = true
    · rw [if_pos h5] at h
      exact scanNumericLiteral_lexeme input st1 t st2
        (by have := lt_of_testO _ input _ h5; omega) h
    rw [if_neg h5] at h
    by_cases h6 : input[st1.index + 1]? = some 46
    · rw [if_pos h6] at h
      by_cases h7 : input[st1.index + 2]? = some 46
      · rw [if_pos h7] at h
        rw [okPairFst h]
        simp only [scanVarargLiteral, lexemeProp]
        exact slice_three input st1.index 46 46 46 h4 h6 h7
      · rw [if_neg h7] at h
        rw [okPairFst h]
        exact scanPunctuator_lexeme input st1 [46, 46] (slice_two input st1.index 46 46 h4 h6)
    · rw [if_neg h6] at h
      rw [okPairFst h]
      exact scanPunctuator_lexeme input st1 [46] (slice_one input st1.index 46 h4)
  rw [if_neg h4] at h
  by_cases h8 : input[st1.index]? = some 61
  · rw [if_pos h8] at h
    by_cases h9 : input[st1.index + 1]? = some 61
    · rw [if_pos h9] at h
      rw [okPairFst h]
      exact scanPunctuator_lexeme input st1 [61, 61] (slice_two input st1.index 61 61 h8 h9)
    rw [if_neg h9] at h
    by_cases h10 : input[st1.index + 1]? = some 62
    · rw [if_pos h10] at h
      rw [okPairFst h]
      exact scanPunctuator_lexeme input st1 [61, 62] (slice_two input st1.index 61 62 h8 h10)
    · rw [if_neg h10] at h
      rw [okPairFst h]
      exact scanPunctuator_lexeme input st1 [61] (slice_one input st1.index 61 h8)
  rw [if_neg h8] at h
  by_cases h11 : input[st1.index]? = some 62
  · rw [if_pos h11] at h
    by_cases h12 : cfg.features.bitwiseOperators = true ∧ input[st1.index + 1]? = some 62
    · rw [if_pos h12] at h
      rw [okPairFst h]
      exact scanPunctuator_lexeme input st1 [62, 62] (slice_two input st1.index 62 62 h11 h12.2)
    rw [if_neg h12] at h
    by_cases h13 : input[st1.index + 1]? = some 61
    · rw [if_pos h13] at h
      rw [okPairFst h]
      exact scanPunctuator_lexeme input st1 [62, 61] (slice_two input st1.index 62 61 h11 h13)
    · rw [if_neg h13] at h
      rw [okPairFst h]
      exact scanPunctuator_lexeme input st1 [62] (slice_one input st1.index 62 h11)
  rw [if_neg h11] at h
  by_cases h14 : input[st1.index]? = some 60
  · rw [if_pos h14] at h
    by_cases h15 : cfg.features.bitwiseOperators = true ∧ input[st1.index + 1]? = some 60
    · rw [if_pos h15] at h
      rw [okPairFst h]
      exact scanPunctuator_lexeme input st1 [60, 60] (slice_two input st1.index 60 60 h14 h15.2)
    rw [if_neg h15] at h
    by_cases h16 : input[st1.index + 1]? = some 61
    · rw [if_pos h16] at h
      rw [okPairFst h]
      exact scanPunctuator_lexeme input st1 [60, 61] (slice_two input st1.index 60 61 h14 h16)
    · rw [if_neg h16] at h
      rw [okPairFst h]
      exact scanPunctuator_lexeme input st1 [60] (slice_one input st1.index 60 h14)
  rw [if_neg h14] at h
  by_cases h17 : input[st1.index]? = some 126
  · rw [if_pos h17] at h
    by_cases h18 : input[st1.index + 1]? = some 61
    · rw [if_pos h18] at h
      rw [okPairFst h]
      exact scanPunctuator_lexeme input st1 [126, 61] (slice_two input st1.index 126 61 h17 h18)
    rw [if_neg h18] at h
    by_cases h19 : cfg.features.bitwiseOperators = true
    · rw [if_pos h19] at h
      rw [okPairFst h]
      exact scanPunctuator_lexeme input st1 [126] (slice_one input st1.index 126 h17)
    · rw [if_neg h19] at h
      exact Except.noConfusion h
  rw [if_neg h17] at h
  by_cases h20 : input[st1.index]? = some 58
  · rw [if_pos h20] at h
    by_cases h21 : cfg.features.labels = true ∧ input[st1.index + 1]? = some 58
    · rw [if_pos h21] at h
      rw [okPairFst h]
      exact scanPunctuator_lexeme input st1 [58, 58] (slice_two input st1.index 58 58 h20 h21.2)
    · rw [if_neg h21] at h
      rw [okPairFst h]
      exact scanPunctuator_lexeme input st1 [58] (slice_one input st1.index 58 h20)
  rw [if_neg h20] at h
  by_cases h22 : input[st1.index]? = some 91
  · rw [if_pos h22] at h
    by_cases h23 : input[st1.index + 1]? = some 91 ∨ input[st1.index + 1]? = some 61
    · rw [if_pos h23] at h
      simp only [lexemeProp, scanLongStringLiteral_type input st1 t st2 h]
    · rw [if_neg h23] at h
      rw [okPairFst h]
      exact scanPunctuator_lexeme input st1 [91] (slice_one input st1.index 91 h22)
  rw [if_neg h22] at h
  by_cases h24 : input[st1.index]? = some 47
  · rw [if_pos h24] at h
    by_cases h25 : cfg.features.integerDivision = true ∧ input[st1.index + 1]? = some 47
    · rw [if_pos h25] at h
      rw [okPairFst h]
      exact scanPunctuator_lexeme input st1 [47, 47] (slice_two input st1.index 47 47 h24 h25.2)
    · rw [if_neg h25] at h
      rw [okPairFst h]
      exact scanPunctuator_lexeme input st1 [47] (slice_one input st1.index 47 h24)
  rw [if_neg h24] at h
  by_cases h26 : input[st1.index]? = some 38
  · rw [if_pos h26] at h
    by_cases h27 : cfg.features.bitwiseOperators = true
    · rw [if_pos h27] at h
      rw [okPairFst h]
      exact scanPunctuator_lexeme input st1 [38] (slice_one input st1.index 38 h26)
    · rw [if_neg h27] at h
      exact Except.noConfusion h
  rw [if_neg h26] at h
  by_cases h28 : input[st1.index]? = some 42 ∨ input[st1.index]? = some 94
      ∨ input[st1.index]? = some 37 ∨ input[st1.index]? = some 44
      ∨ input[st1.index]? = some 123 ∨ input[st1.index]? = some 125
      ∨ input[st1.index]? = some 93 ∨ input[st1.index]? = some 40
      ∨ input[st1.index]? = some 41 ∨ input[st1.index]? = some 59
      ∨ input[st1.index]? = some 35 ∨ input[st1.index]? = some 45
      ∨ input[st1.index]? = some 43 ∨ input[st1.index]? = some 124
  · rw [if_pos h28] at h
    rcases h28 with hx | hx | hx | hx | hx | hx | hx | hx | hx | hx | hx | hx | hx | hx <;>
      (rw [hx] at h
       rw [okPairFst h]
       exact scanPunctuator_lexeme input st1 _ (slice_one input st1.index _ hx))
  · rw [if_neg h28] at h
    exact Except.noConfusion h

theorem lex_lexeme (cfg : Config) (input : List Nat) (st : St) (t : Token)
    (cs : List Comment) (st2 : St)
    (h : lex cfg input st = .ok (some t, cs, st2)) : lexemeProp input t := by
  simp only [lex] at h
  split at h
  · exact Except.noConfusion h
  · rename_i cs1 st1 hsk
    split at h
    · injection h with h2
      injection h2 with h3 h4
      exact Option.noConfusion h3
    · split at h
      · exact Except.noConfusion h
      · rename_i t2 st22 heq2
        injection h with h2
        injection h2 with h3 h4
        injection h3 with h3
        rw [← h3]
        exact dispatch_lexeme cfg input st1 t2 st22 heq2

theorem mainLoop_lexemes (cfg : Config) (input : List Nat) (st : St) :
    ∀ t ∈ (mainLoop cfg input st).1, lexemeProp input t := by
  induction st using mainLoop.induct cfg input with
  | case1 x e hl =>
    intro t ht
    rw [mainLoop] at ht
    split at ht
    · simp at ht
    · simp at ht
    · rename_i t2 cs2 st22 heq
      rw [hl] at heq
      exact Except.noConfusion heq
  | case2 x cs snd hl =>
    intro t ht
    rw [mainLoop] at ht
    split at ht
    · rename_i e2 heq
      rw [hl] at heq
      exact Except.noConfusion heq
    · simp at ht
    · rename_i t2 cs2 st22 heq
      rw [hl] at heq
      injection heq with heq2
      injection heq2 with ho _
      exact Option.noConfusion ho
  | case3 x t2 cs st22 hl ts cs2 er hm ih =>
    intro t ht
    rw [mainLoop] at ht
    split at ht
    · rename_i e2 heq
      rw [hl] at heq
      exact Except.noConfusion heq
    · rename_i cs3 snd3 heq
      rw [hl] at heq
      injection heq with heq2
      injection heq2 with ho _
      exact Option.noConfusion ho
    · rename_i t3 cs3 st33 heq
      rw [hl] at heq
      injection heq with heq2
      injection heq2 with ho heq3
      injection heq3 with hcs hst
      injection ho with ho
      subst ho
      subst hst
      rw [hm] at ht
      simp only [List.mem_cons] at ht
      rcases ht with rfl | ht
      · exact lex_lexeme cfg input x t cs3 st22 (by rw [hl, hcs])
      · apply ih
        rw [hm]
        exact ht

unseal skipWhile skipWhiteSpace scanStringLoop longLoop lexSkip mainLoop in
/-- C4: token ranges slice to the written lexeme.  Every token of a
terminating run satisfies the lexeme property: a punctuator's range slices
the input to exactly its punctuator text and a vararg literal's to the
three dots; keyword, identifier, boolean and nil tokens slice to the
written identifier whose encoding fixup is the decoded value, the keyword,
boolean or nil spelling itself; and a numeric literal's range slices to
the full consumed numeral: re-scanning the slice alone consumes all of it
and decodes to the very value carried by the token.  String literals are
outside the claim.  The concrete conjunct shows a mixed program whose
token ranges slice back to the exact spellings. -/
theorem C4_lexeme_ranges :
    (∀ (cfg : Config) (input : List Nat) (ts : List Token) (cs : List Comment)
        (er : Option LexErr),
      tokenize cfg input = some (ts, cs, er) →
      ∀ t ∈ ts, lexemeProp input t)
    ∧ (tokensOf (configOf .v53) (strCodes "local x = 42 >= .5 ... nil and true 0x1p4 goto")).map
        (List.map (fun t =>
          sliceCodes (strCodes "local x = 42 >= .5 ... nil and true 0x1p4 goto")
            t.range.1 t.range.2))
      = some [strCodes "local", strCodes "x", strCodes "=", strCodes "42", strCodes ">=",
              strCodes ".5", strCodes "...", strCodes "nil", strCodes "and", strCodes "true",
              strCodes "0x1p4", strCodes "goto"] := by
  constructor
  · intro cfg input ts cs er h t ht
    simp only [tokenize] at h
    split at h
    · split at h
      · exact Option.noConfusion h
      · injection h with h2
        apply mainLoop_lexemes cfg input _ t
        rw [h2]
        exact ht
    · injection h with h2
      apply mainLoop_lexemes cfg input ⟨0, 1, 0⟩ t
      rw [h2]
      exact ht
  · rfl

unseal skipWhile skipWhiteSpace scanStringLoop longLoop lexSkip mainLoop in
theorem C4_lexeme_ranges_witness :
    lexemeProp (strCodes "do") ⟨.keyword, .str [100, 111], 1, 0, (0, 2), none, none⟩ :=
  C4_lexeme_ranges.1 (configOf .v51) (strCodes "do")
    [⟨.keyword, .str [100, 111], 1, 0, (0, 2), none, none⟩] [] none rfl
    ⟨.keyword, .str [100, 111], 1, 0, (0, 2), none, none⟩ (List.mem_singleton.mpr rfl)

end LuaTok
